import Mathlib

/-!
# TclPlug layer plugin (mapscript/tclplug/maptclplug.c)

A shallow embedding of the MapServer Tcl layer plugin.  The C code is
stateful; every function of the plugin becomes a Lean function that
receives the process state (`World`), the layer it is called on and,
where the C function has one, the shape it fills in, and returns the
status together with the new values.

Conventions of the embedding

* C `long` values (the cursor, the row count, a row identifier) are
  integers (`Int`); they come from `Tcl_GetLongFromObj` and from counting up
  to such a value, and the model puts no bound on them.  A C `int` has 32
  bits: the two places where the C code passes a `long` where an `int` is
  taken (`num_tuples = layerinfo->nrows` and
  `Tcl_NewIntObj (layerinfo->rownum)`) go through `longToInt`, which keeps
  the low 32 bits.
* Coordinates are C doubles.  `Tcl_GetDoubleFromObj` refuses NaN, so the
  values that reach the geometry code are totally ordered; they are
  carried as rationals, and the only operations the plugin performs on
  them are copies and comparisons.
* Pointers to interpreters and to layers are addresses; the null
  pointer is `0` for interpreters and `none` for optional C strings and
  for `layer->layerinfo`.
* The Tcl library and the scripts it runs are outside the repository.
  A script answer is supplied by an oracle (`TclEnv.script`) that sees
  the whole interpreter state, including the history of all earlier
  invocations, so theorems quantified over the oracle hold for every
  deterministic script.
* `assert` failures, the use of a null interpreter or of a null command
  object, and a read of freed memory end the process or leave its behaviour
  undefined; functions that can hit one return `Option`, `none` meaning that
  the model ends there.
* Of the interpreter the model keeps what the plugin reads or writes: the
  array `layer`, the result, the error information, the reports made to the
  background error handler and the log of the evaluations.  An evaluated
  script answers with a completion code and a value, may change the array
  `layer`, and returns a value that may or may not be referenced from
  elsewhere than the result; all three come from the oracle.
* `msDebug` output is not part of the state.
* The `meta` command reaches its layer through a pointer kept in the
  interpreter, and a sequence of calls works on several layers; there the
  layer objects are a memory `Nat → layerObj`, by address.
* `malloc` is taken to succeed, except in msTclPlugLayerInitItemInfo, which
  tests its result: there the outcome of the allocation is a parameter.
* msTclPlugLayerSetTimeFilter works on C strings in a buffer of 512 bytes.
  Strings are Lean strings, a text that does not fit the buffer ends the
  model, and the MapServer functions it calls that are outside the sources
  (msStringSplit, msTimeGetResolution, freeExpression,
  loadExpressionString) are a parameter (`MapEnv`).
-/

namespace TclPlug

/-! ## Values exchanged with Tcl -/

/-- A value handed back by the interpreter, seen through the conversions
the plugin applies to it: its string form (`Tcl_GetString`), and the
outcome of `Tcl_GetLongFromObj`, `Tcl_GetDoubleFromObj` and
`Tcl_ListObjGetElements`, each either the converted value or the message
Tcl leaves in the interpreter result. -/
inductive TclObj where
  | mk (bytes : String) (asLong : Except String Int) (asDouble : Except String ℚ)
      (asList : Except String (List TclObj))

/-- String form of a value (`Tcl_GetString`). -/
def Tcl_GetString : TclObj → String
  | .mk b _ _ _ => b

/-- Conversion to a C long (`Tcl_GetLongFromObj`). -/
def Tcl_GetLongFromObj : TclObj → Except String Int
  | .mk _ l _ _ => l

/-- Conversion to a C double (`Tcl_GetDoubleFromObj`). -/
def Tcl_GetDoubleFromObj : TclObj → Except String ℚ
  | .mk _ _ d _ => d

/-- Conversion to a list of elements (`Tcl_ListObjGetElements`). -/
def Tcl_ListObjGetElements : TclObj → Except String (List TclObj)
  | .mk _ _ _ l => l

/-- A value the plugin itself builds and hands to the interpreter
(`Tcl_NewIntObj`, `Tcl_NewLongObj`, `Tcl_NewStringObj`, `Tcl_NewListObj` of
strings or of doubles). -/
inductive TclArg where
  | int (n : Int)
  | long (n : Int)
  | string (s : String)
  | stringList (l : List String)
  | doubleList (l : List ℚ)
  deriving DecidableEq, Repr

/-- Completion code of an evaluation.  The plugin only ever tests for
`TCL_ERROR`. -/
inductive TclCode where
  | TCL_OK
  | TCL_ERROR
  deriving DecidableEq, Repr

/-- One entry into the interpreter, by the API function used. -/
inductive Call where
  | Tcl_Eval (script : String)
  | Tcl_EvalObjEx (script : String)
  | Tcl_EvalObjv (cmd : String) (args : List TclArg)
  deriving DecidableEq, Repr

/-- A logged entry into the interpreter: the call, the address of the
layer whose operation made it, and the "pluglayer" back-reference at that
moment. -/
structure Invocation where
  call : Call
  forLayer : Nat
  pluglayer : Option Nat
  deriving DecidableEq, Repr

/-- One report handed to the background error handler of an interpreter:
the message (the interpreter result at that moment) and the error
information, in the pieces it was put together from. -/
structure BackgroundReport where
  message : String
  errorInfo : List String
  deriving DecidableEq, Repr

/-- The part of an interpreter the plugin reads or writes. -/
structure Interp where
  /-- the global array `layer` -/
  layerArray : List (String × TclArg) := []
  /-- associated data "pluglayer": address of a layerObj -/
  pluglayer : Option Nat := none
  /-- string form of the interpreter result -/
  result : String := ""
  /-- whether the value an evaluation left as the result is referenced from
  elsewhere too (a variable, a literal of a procedure body), so that it
  outlives the result -/
  resultKept : Bool := true
  /-- the error information of the error in progress, in the pieces it was
  put together from; empty when no error is in progress -/
  errorInfo : List String := []
  /-- number of `Tcl_BackgroundError` reports -/
  backgroundErrors : Nat := 0
  /-- the reports handed to the background error handler, oldest first -/
  reports : List BackgroundReport := []
  /-- every evaluation made through this interpreter, oldest first -/
  history : List Invocation := []
  /-- whether the `meta` command is registered -/
  metaCmd : Bool := false
  /-- layer whose debug field is linked to the variable `layerDebug` -/
  layerDebug : Option Nat := none
  /-- set by `Tcl_DeleteInterp` -/
  deleted : Bool := false

/-- The Tcl side: what scripts answer and whether library set-up calls
succeed.  Each answer is the completion code and the result value.  A
script may also write and unset elements of the global array `layer`
(`layerArray` is the array as the evaluation leaves it; a script that does
not touch the array leaves it as it found it), and the value it returns may
or may not be referenced from elsewhere than the interpreter result
(`resultKept`). -/
structure TclEnv where
  script : Interp → Call → TclCode × TclObj
  Tcl_Init : Interp → TclCode × String
  Tcl_LinkVar : Interp → TclCode × String
  layerArray : Interp → Call → List (String × TclArg) := fun st _ => st.layerArray
  resultKept : Interp → Call → Bool := fun _ _ => true

/-- A reference-counted Tcl object kept by the plugin (a command name). -/
structure TclCell where
  bytes : String := ""
  refCount : Int := 0
  freed : Bool := false
  deriving DecidableEq, Repr

/-! ## MapServer data -/

/-- Return codes of the layer API (mapserver.h). -/
inductive Status where
  | MS_SUCCESS
  | MS_FAILURE
  | MS_DONE
  deriving DecidableEq, Repr

/-- Layer types (enum MS_LAYER_TYPE, mapserver.h). -/
inductive MS_LAYER_TYPE where
  | MS_LAYER_POINT
  | MS_LAYER_LINE
  | MS_LAYER_POLYGON
  | MS_LAYER_RASTER
  | MS_LAYER_ANNOTATION
  | MS_LAYER_QUERY
  | MS_LAYER_CIRCLE
  | MS_LAYER_TILEINDEX
  | MS_LAYER_CHART
  deriving DecidableEq, Repr

/-- Shape types (enum MS_SHAPE_TYPE, mapserver.h). -/
inductive MS_SHAPE_TYPE where
  | MS_SHAPE_POINT
  | MS_SHAPE_LINE
  | MS_SHAPE_POLYGON
  | MS_SHAPE_NULL
  deriving DecidableEq, Repr

/-- Error codes used by the plugin (maperror.h). -/
inductive MS_ERRCODE where
  | MS_MEMERR
  | MS_MISCERR
  | MS_QUERYERR
  deriving DecidableEq, Repr

/-- An argument substituted into an error message format. -/
inductive ErrArg where
  | int (n : Int)
  | str (s : String)
  deriving DecidableEq, Repr

/-- One `msSetError` report: code, message format, routine and the values
for the format's conversions, in order. -/
structure errorObj where
  code : MS_ERRCODE
  message : String
  routine : String
  args : List ErrArg
  deriving DecidableEq, Repr

structure pointObj where
  x : ℚ
  y : ℚ
  deriving DecidableEq, Repr

/-- A part: `numpoints` is the length of `point`. -/
structure lineObj where
  point : List pointObj
  deriving DecidableEq, Repr

structure rectObj where
  minx : ℚ
  miny : ℚ
  maxx : ℚ
  maxy : ℚ
  deriving DecidableEq, Repr

/-- The fields of a shapeObj the plugin touches; `numlines` is the length
of `line`. -/
structure shapeObj where
  line : List lineObj
  values : List String
  numvalues : Int
  bounds : rectObj
  type : MS_SHAPE_TYPE
  index : Int
  deriving DecidableEq, Repr

/-- Kinds of expression (mapserver.h). -/
inductive MS_EXPRESSION_TYPE where
  | MS_STRING
  | MS_EXPRESSION
  | MS_REGEX
  | MS_ISTRING
  | MS_IREGEX
  deriving DecidableEq, Repr

/-- The fields of an expressionObj the plugin touches.  initExpression
leaves no string and the kind MS_STRING. -/
structure expressionObj where
  string : Option String := none
  type : MS_EXPRESSION_TYPE := .MS_STRING
  deriving DecidableEq, Repr

/-- The string table attached to a layer (hashTableObj). -/
abbrev hashTableObj := List (String × String)

/-- The plugin's private data of a layer (maptclplug.h).  The command
objects are addresses in the object store, `none` being NULL. -/
structure msTclPlugLayerInfo where
  interp : Int
  rownum : Int
  nrows : Int
  layerOpenCommandObj : Option Nat
  getItemsCommandObj : Option Nat
  getShapeCommandObj : Option Nat
  geoQueryCommandObj : Option Nat
  getAttributesCommandObj : Option Nat
  getGeometryCommandObj : Option Nat
  layerCloseCommandObj : Option Nat
  deriving DecidableEq, Repr

/-- The fields of a layerObj the plugin touches.  `addr` is the address
of the C object; `numitems` is the length of `items`. -/
structure layerObj where
  addr : Nat
  name : Option String
  data : Option String
  template : Option String
  connection : Option String
  plugin_library : Option String
  filteritem : Option String
  styleitem : Option String
  requires : Option String
  labelrequires : Option String
  classgroup : Option String
  type : MS_LAYER_TYPE
  debug : Int
  metadata : hashTableObj
  items : List String
  iteminfo : Option (List Int)
  layerinfo : Option msTclPlugLayerInfo
  filter : expressionObj := {}
  deriving DecidableEq, Repr

/-- Number of items of the layer (`layer->numitems`). -/
def layerObj.numitems (layer : layerObj) : Int := layer.items.length

/-- The process state: the two file-level variables of maptclplug.c, the
interpreters by address, the store of command objects and the MapServer
error list. -/
structure World where
  tclplug_global_interp : Int := 0
  iCreatedTheTclInterpreter : Bool := false
  interps : Int → Interp := fun _ => {}
  nextInterp : Nat := 0
  objs : Nat → TclCell := fun _ => {}
  nextObj : Nat := 0
  errors : List errorObj := []

/-! ## Tcl library calls used by the plugin -/

/-- Replace the state of the interpreter at address `i`. -/
def World.setInterp (w : World) (i : Int) (st : Interp) : World :=
  { w with interps := Function.update w.interps i st }

/-- The error information of an interpreter once `msg` is added to it: when
no error is in progress it starts from the interpreter result. -/
def Interp.errorInfoWith (st : Interp) (msg : String) : List String :=
  (if st.errorInfo = [] then [st.result] else st.errorInfo) ++ [msg]

/-- Append text to the error information of an interpreter
(`Tcl_AddErrorInfo`); when no error is in progress the error information
starts from the interpreter result. -/
def Tcl_AddErrorInfo (w : World) (i : Int) (msg : String) : World :=
  w.setInterp i { w.interps i with errorInfo := (w.interps i).errorInfoWith msg }

/-- Report the current error of an interpreter to its background error
handler (`Tcl_BackgroundError`): the handler is handed the interpreter
result as the message and the error information, and the result and the
error state of the interpreter are reset. -/
def Tcl_BackgroundError (w : World) (i : Int) : World :=
  w.setInterp i { w.interps i with
    backgroundErrors := (w.interps i).backgroundErrors + 1,
    reports := (w.interps i).reports ++
      [{ message := (w.interps i).result, errorInfo := (w.interps i).errorInfoWith "" }],
    result := "", errorInfo := [] }

/-- Set the interpreter result (kept by its string form); the value that
was the result loses the reference the result held. -/
def Tcl_SetObjResult (w : World) (i : Int) (s : String) : World :=
  w.setInterp i { w.interps i with result := s }

/-- Store a value in element `name` of the global array `layer`
(`Tcl_SetVar2` / `Tcl_SetVar2Ex` with TCL_GLOBAL_ONLY).  The plugin ignores
the outcome of the write; the write is taken to succeed (`layer` is an
array, without write traces). -/
def Tcl_SetVar2Ex (w : World) (i : Int) (name : String) (value : TclArg) : World :=
  w.setInterp i { w.interps i with
    layerArray := ((w.interps i).layerArray.filter (fun kv => kv.1 != name)) ++ [(name, value)] }

/-- Read element `name` of the global array `layer`. -/
def Interp.layerVar (st : Interp) (name : String) : Option TclArg :=
  (st.layerArray.find? (fun kv => kv.1 == name)).map (fun kv => kv.2)

/-- The state after the evaluation of `c`, made on behalf of the layer at
address `forLayer`, in the interpreter at address `i`: the call is logged,
`result` is the result, the array `layer` is as the script leaves it, and
the error information starts anew (the lines Tcl itself adds to the error
information of a failing script are not modelled: it starts from the
message). -/
def World.logCall (w : World) (env : TclEnv) (i : Int) (forLayer : Nat) (c : Call)
    (result : String) : World :=
  w.setInterp i { w.interps i with
    history := (w.interps i).history ++
      [{ call := c, forLayer := forLayer, pluglayer := (w.interps i).pluglayer }],
    result := result,
    resultKept := env.resultKept (w.interps i) c,
    layerArray := env.layerArray (w.interps i) c,
    errorInfo := [] }

/-- Evaluate `c` in the interpreter at address `i` on behalf of the layer
at address `forLayer`: the script oracle answers from the interpreter state,
the call is logged, the answer becomes the interpreter result and the array
`layer` is as the script leaves it. -/
def tclEval (env : TclEnv) (w : World) (i : Int) (forLayer : Nat) (c : Call) :
    TclCode × TclObj × World :=
  let r := env.script (w.interps i) c
  (r.1, r.2, w.logCall env i forLayer c (Tcl_GetString r.2))

/-- The calls made so far through the interpreter at address `i`. -/
def World.calls (w : World) (i : Int) : List Call :=
  (w.interps i).history.map (fun e => e.call)

/-- Allocate a new object holding `s`, with reference count zero
(`Tcl_NewObj` for the empty string, `Tcl_NewStringObj`). -/
def Tcl_NewStringObj (w : World) (s : String) : Nat × World :=
  (w.nextObj, { w with
    objs := Function.update w.objs w.nextObj { bytes := s, refCount := 0, freed := false },
    nextObj := w.nextObj + 1 })

/-- Allocate a new empty object. -/
def Tcl_NewObj (w : World) : Nat × World := Tcl_NewStringObj w ""

/-- Append text to the string of an object. -/
def Tcl_AppendToObj (w : World) (p : Nat) (s : String) : World :=
  { w with objs := Function.update w.objs p { w.objs p with bytes := (w.objs p).bytes ++ s } }

/-- Retain an object. -/
def Tcl_IncrRefCount (w : World) (p : Nat) : World :=
  { w with objs := Function.update w.objs p { w.objs p with refCount := (w.objs p).refCount + 1 } }

/-- Release an object; it is freed when the count drops to zero or
below. -/
def Tcl_DecrRefCount (w : World) (p : Nat) : World :=
  { w with objs := Function.update w.objs p { w.objs p with
      refCount := (w.objs p).refCount - 1,
      freed := (w.objs p).freed || decide ((w.objs p).refCount - 1 ≤ 0) } }

/-- Mark an interpreter as deleted. -/
def Tcl_DeleteInterp (w : World) (i : Int) : World :=
  w.setInterp i { w.interps i with deleted := true }

/-! ## MapServer calls used by the plugin -/

/-- Record an error (`msSetError`). -/
def msSetError (w : World) (code : MS_ERRCODE) (message routine : String)
    (args : List ErrArg) : World :=
  { w with errors := w.errors ++ [{ code := code, message := message, routine := routine, args := args }] }

/-- Modelled from the spec: msLookupHashTable (maphash.c, not among the
sources) returns the value stored under a key, or nothing when the key is
absent. -/
def msLookupHashTable (table : hashTableObj) (key : String) : Option String :=
  (table.find? (fun kv => kv.1 == key)).map (fun kv => kv.2)

/-- Modelled from the spec: msAddLine (mapprimitive.c, not among the
sources) appends a copy of a part to the record's ordered sequence of
parts. -/
def msAddLine (shape : shapeObj) (line : lineObj) : shapeObj :=
  { shape with line := shape.line ++ [line] }

/-- Modelled from the spec: msFreeShape (mapprimitive.c, not among the
sources) releases the parts and attribute values of a record and leaves it
empty, with geometry kind "none". -/
def msFreeShape (_shape : shapeObj) : shapeObj :=
  { line := [], values := [], numvalues := 0,
    bounds := { minx := -1, miny := -1, maxx := -1, maxy := -1 },
    type := MS_SHAPE_TYPE.MS_SHAPE_NULL, index := -1 }

/-! ## maptclplug.c -/

/-- Conversion of a C `long` to a C `int`, as in
`num_tuples = layerinfo->nrows` and `Tcl_NewIntObj (layerinfo->rownum)`:
the value of the low 32 bits as a signed number. -/
def longToInt (n : Int) : Int := (n + 2147483648) % 4294967296 - 2147483648

/-- The `set_tcl_var_string` helper: a NULL value is skipped. -/
def set_tcl_var_string (w : World) (i : Int) (name : String) (value : Option String) : World :=
  match value with
  | none => w
  | some v => Tcl_SetVar2Ex w i name (TclArg.string v)

/-- The `set_tcl_var_int` helper. -/
def set_tcl_var_int (w : World) (i : Int) (name : String) (value : Int) : World :=
  Tcl_SetVar2Ex w i name (TclArg.int value)

/-- The `set_tcl_var_long` helper. -/
def set_tcl_var_long (w : World) (i : Int) (name : String) (value : Int) : World :=
  Tcl_SetVar2Ex w i name (TclArg.long value)

/-- The `set_tcl_var_obj` helper. -/
def set_tcl_var_obj (w : World) (i : Int) (name : String) (value : TclArg) : World :=
  Tcl_SetVar2Ex w i name value

/-- One step of the inner loop of `find_bounds`: the state is the flag
`first_one` and the bounds so far. -/
def find_bounds_point (st : Bool × rectObj) (p : pointObj) : Bool × rectObj :=
  if st.1 then
    (false, { minx := p.x, maxx := p.x, miny := p.y, maxy := p.y })
  else
    (false, { minx := if p.x < st.2.minx then p.x else st.2.minx,
              maxx := if p.x > st.2.maxx then p.x else st.2.maxx,
              miny := if p.y < st.2.miny then p.y else st.2.miny,
              maxy := if p.y > st.2.maxy then p.y else st.2.maxy })

/-- Find the bounds of the shape (`find_bounds`): every part in order,
every point of a part in order. -/
def find_bounds (shape : shapeObj) : shapeObj :=
  { shape with bounds :=
      (shape.line.foldl (fun st l => l.point.foldl find_bounds_point st) (true, shape.bounds)).2 }

/-- Which coordinate of a pair failed to convert, with Tcl's message. -/
inductive CoordError where
  | x (msg : String)
  | y (msg : String)
  deriving DecidableEq, Repr

/-- The loop `for (v = 0; v < line.numpoints; v++)` of msTclPlugReadShape
over the elements of one part: x from element 2v, y from element 2v+1,
stopping at the first conversion that fails. -/
def readPairs : List TclObj → Except CoordError (List pointObj)
  | a :: b :: rest =>
    match Tcl_GetDoubleFromObj a with
    | .error m => .error (.x m)
    | .ok x =>
      match Tcl_GetDoubleFromObj b with
      | .error m => .error (.y m)
      | .ok y =>
        match readPairs rest with
        | .error e => .error e
        | .ok ps => .ok ({ x := x, y := y } :: ps)
  | _ => .ok []

/-- The ways one part of a geometry answer can fail in msTclPlugReadShape:
the part is not a list, it has an odd number of elements (its string form
is kept for the report), or a coordinate is not a number. -/
inductive GeometryError where
  | sublist (msg : String)
  | odd (part : String)
  | coord (e : CoordError)
  deriving DecidableEq, Repr

/-- The loop `for (geoset = 0; geoset < geoListObjc; geoset++)` of
msTclPlugReadShape over the parts still to read.  The state is the shape
and the flag `haveGeometry`; a failing part ends the loop with the failure
and the shape as built so far. -/
def readGeometry :
    List TclObj → shapeObj → Bool → Except (GeometryError × shapeObj) (shapeObj × Bool)
  | [], shape, haveGeometry => .ok (shape, haveGeometry)
  | part :: rest, shape, haveGeometry =>
    match Tcl_ListObjGetElements part with
    | .error m => .error (.sublist m, shape)
    | .ok pairs =>
      if pairs.length = 0 then readGeometry rest shape haveGeometry
      else if pairs.length % 2 = 1 then .error (.odd (Tcl_GetString part), shape)
      else
        match readPairs pairs with
        | .error e => .error (.coord e, shape)
        | .ok points => readGeometry rest (msAddLine shape { point := points }) true

/-- The error reports msTclPlugReadShape makes before it returns
MS_FAILURE from inside the loop over the parts.  The parts are elements of
the list that is the interpreter result, which the code has not retained.
In the branch of a part of odd length the code sets a new result first and
reads the string form of the part (`geoListObjv[geoset]`) after that: when
the list was referenced by the result only it is released by then, the read
is a read of freed memory and the model ends (`none`). -/
def reportGeometryError (w : World) (i : Int) : GeometryError → Option World
  | .sublist m =>
    let w := Tcl_SetObjResult w i m
    let w := Tcl_AddErrorInfo w i " while cracking point pairs from geometry list"
    let w := msSetError w .MS_QUERYERR "failed to obtain geometry sublist: %s."
      "msTclPlugReadShape()" [.str (w.interps i).result]
    some (Tcl_BackgroundError w i)
  | .odd part =>
    let kept := (w.interps i).resultKept
    let w := Tcl_SetObjResult w i "odd number of elements in geometry sublist: '"
    if !kept then none
    else
      let w := Tcl_AddErrorInfo w i part
      let w := Tcl_AddErrorInfo w i "', returned from get_geometry"
      let w := msSetError w .MS_QUERYERR "odd number of elements in geometry sublist."
        "msTclPlugReadShape()" []
      some (Tcl_BackgroundError w i)
  | .coord (.x m) =>
    let w := Tcl_SetObjResult w i m
    let w := Tcl_AddErrorInfo w i " while reading point x coordinate"
    let w := msSetError w .MS_QUERYERR "Failed to obtain x value from list: %s."
      "msTclPlugLayerReadShape()" [.str (w.interps i).result]
    some (Tcl_BackgroundError w i)
  | .coord (.y m) =>
    let w := Tcl_SetObjResult w i m
    let w := Tcl_AddErrorInfo w i " while reading point y coordinate"
    let w := msSetError w .MS_QUERYERR "Failed to obtain y value from list: %s."
      "msTclPlugLayerReadShape()" [.str (w.interps i).result]
    some (Tcl_BackgroundError w i)

/-- The attribute half of msTclPlugReadShape, entered when the geometry
kind is not "none": call get_attributes with the row number, check the
number of values against the item count, store their string forms, the row
identifier and the bounds. -/
def readAttributes (env : TclEnv) (w : World) (layer : layerObj) (li : msTclPlugLayerInfo)
    (shape : shapeObj) : Option (Status × World × shapeObj) :=
  match li.getAttributesCommandObj with
  | none => none
  | some a =>
    let i := li.interp
    let shape := { shape with values := [] }
    let w := Tcl_IncrRefCount w a
    let (code, obj, w) := tclEval env w i layer.addr
      (.Tcl_EvalObjv (w.objs a).bytes [.int (longToInt li.rownum)])
    if code = .TCL_ERROR then
      let w := Tcl_AddErrorInfo w i " while executing layer plugin"
      let w := msSetError w .MS_QUERYERR "Error executing get_attributes: %s."
        "msTclPlugLayerReadShape()" [.str (w.interps i).result]
      some (.MS_FAILURE, Tcl_BackgroundError w i, shape)
    else
      match Tcl_ListObjGetElements obj with
      | .error m =>
        let w := Tcl_SetObjResult w i m
        let w := Tcl_AddErrorInfo w i " while cracking attribute list"
        let w := msSetError w .MS_QUERYERR "error getting list elements: %s."
          "msTclPlugReadShape()" [.str (w.interps i).result]
        some (.MS_FAILURE, Tcl_BackgroundError w i, shape)
      | .ok list =>
        if layer.numitems ≠ list.length then
          let w := Tcl_AddErrorInfo w i "number of attributes didn't match what was expected"
          let w := msSetError w .MS_QUERYERR "get_attributes mismatch, wanted %d, got %d."
            "msTclPlugLayerReadShape()" [.int layer.numitems, .int list.length]
          some (.MS_FAILURE, Tcl_BackgroundError w i, shape)
        else
          let shape := { shape with values := list.map Tcl_GetString }
          let shape := { shape with index := li.rownum }
          let shape := { shape with numvalues := layer.numitems }
          some (.MS_SUCCESS, w, find_bounds shape)

/-- The geometry half of msTclPlugReadShape, from `shape->type =
MS_SHAPE_NULL` on: give the shape the kind of the layer when the answer has
parts, read the parts, fall back to kind "none" when no point was read, and
fetch the attributes of a shape that has a kind. -/
def shapeFromGeometry (env : TclEnv) (w : World) (layer : layerObj) (li : msTclPlugLayerInfo)
    (geoList : List TclObj) (shape : shapeObj) : Option (Status × World × shapeObj) :=
  let shape := { shape with type := .MS_SHAPE_NULL }
  let shape :=
    if geoList.length > 0 then
      match layer.type with
      | .MS_LAYER_POINT => { shape with type := .MS_SHAPE_POINT }
      | .MS_LAYER_LINE => { shape with type := .MS_SHAPE_LINE }
      | .MS_LAYER_POLYGON => { shape with type := .MS_SHAPE_POLYGON }
      | _ => shape
    else shape
  match readGeometry geoList shape false with
  | .error (e, shape) =>
    match reportGeometryError w li.interp e with
    | none => none
    | some w => some (.MS_FAILURE, w, shape)
  | .ok (shape, haveGeometry) =>
    let shape := if !haveGeometry then { shape with type := .MS_SHAPE_NULL } else shape
    if shape.type ≠ .MS_SHAPE_NULL then readAttributes env w layer li shape
    else some (.MS_SUCCESS, w, shape)

/-- Invoke get_geometry with the row number being requested and turn the
answer, a list of lists of coordinate pairs, into the shape
(`msTclPlugReadShape`). -/
def msTclPlugReadShape (env : TclEnv) (w : World) (layer : layerObj) (shape : shapeObj) :
    Option (Status × World × shapeObj) :=
  match layer.layerinfo with
  | none => none
  | some li =>
    if li.interp = 0 then none else
    match li.getGeometryCommandObj with
    | none => none
    | some g =>
      let i := li.interp
      let w := Tcl_IncrRefCount w g
      let (code, obj, w) := tclEval env w i layer.addr
        (.Tcl_EvalObjv (w.objs g).bytes [.int (longToInt li.rownum)])
      if code = .TCL_ERROR then
        let w := Tcl_AddErrorInfo w i " while executing layer plugin"
        let w := msSetError w .MS_QUERYERR "Error executing get_geometry: %s."
          "msTclPlugLayerReadShape()" [.str (w.interps i).result]
        some (.MS_FAILURE, Tcl_BackgroundError w i, shape)
      else
        match Tcl_ListObjGetElements obj with
        | .error m =>
          let w := Tcl_SetObjResult w i m
          let w := Tcl_AddErrorInfo w i " while cracking geometry lists"
          let w := msSetError w .MS_QUERYERR "failed to obtain geometry lists: %s."
            "msTclPlugReadShape()" [.str (w.interps i).result]
          some (.MS_FAILURE, Tcl_BackgroundError w i, shape)
        | .ok geoList => shapeFromGeometry env w layer li geoList shape

/-- Publish the query rectangle and the row identifier in the global
array `layer`, each only when given (`msTclPlugSnagRectangleAndUID`). -/
def msTclPlugSnagRectangleAndUID (w : World) (layer : layerObj) (rect : Option rectObj)
    (uid : Option Int) : Option World :=
  match layer.layerinfo with
  | none => none
  | some li =>
    if li.interp = 0 then none else
    let i := li.interp
    let w :=
      match rect with
      | some r => set_tcl_var_obj w i "rectangle" (.doubleList [r.minx, r.miny, r.maxx, r.maxy])
      | none => w
    let w :=
      match uid with
      | some u => set_tcl_var_long w i "uid" u
      | none => w
    some w

/-- The item names of the layer as a Tcl list
(`msTclPlugLayerItemNamesToList`). -/
def msTclPlugLayerItemNamesToList (layer : layerObj) : TclArg :=
  .stringList layer.items

/-- The registered LayerWhichShapes function (`msTclPlugLayerWhichShapes`):
publish the rectangle, evaluate the connection string, call geo_query with
the item names and take its answer as the number of rows.  A NULL
connection string or a NULL geo_query command object is a crash (`none`). -/
def msTclPlugLayerWhichShapes (env : TclEnv) (w : World) (layer : layerObj) (rect : rectObj) :
    Option (Status × World × layerObj) :=
  match layer.layerinfo with
  | none => none
  | some li =>
    if li.interp = 0 then none else
    let i := li.interp
    match msTclPlugSnagRectangleAndUID w layer (some rect) none with
    | none => none
    | some w =>
      match layer.connection with
      | none => none
      | some connection =>
        let (code, _, w) := tclEval env w i layer.addr (.Tcl_Eval connection)
        if code = .TCL_ERROR then
          let w := msSetError w .MS_QUERYERR "Error executing connection script: %s: %s."
            "msTclPlugLayerWhichShapes()" [.str connection, .str (w.interps i).result]
          let w := Tcl_AddErrorInfo w i " while executing connection command '"
          let w := Tcl_AddErrorInfo w i connection
          let w := Tcl_AddErrorInfo w i "', while executing layer plugin"
          some (.MS_FAILURE, Tcl_BackgroundError w i, layer)
        else
          match li.geoQueryCommandObj with
          | none => none
          | some q =>
            let w := Tcl_IncrRefCount w q
            let (code, obj, w) := tclEval env w i layer.addr
              (.Tcl_EvalObjv (w.objs q).bytes [msTclPlugLayerItemNamesToList layer])
            if code = .TCL_ERROR then
              let w := msSetError w .MS_QUERYERR "Error executing geo_query: %s."
                "msTclPlugLayerWhichShapes()" [.str (w.interps i).result]
              let w := Tcl_AddErrorInfo w i " while executing layer plugin geo_query function"
              some (.MS_FAILURE, Tcl_BackgroundError w i, layer)
            else
              match Tcl_GetLongFromObj obj with
              | .error m =>
                let w := Tcl_SetObjResult w i m
                let w := msSetError w .MS_QUERYERR "Error getting row count: %s."
                  "msTclPlugLayerWhichShapes()" [.str (w.interps i).result]
                let w := Tcl_AddErrorInfo w i
                  " while reading row count returned by layer plugin geo_query function"
                some (.MS_FAILURE, Tcl_BackgroundError w i, layer)
              | .ok nrows =>
                let li := { li with nrows := nrows }
                let li := { li with rownum := 0 }
                some (.MS_SUCCESS, w, { layer with layerinfo := some li })

/-- The layer with the row cursor of its session placed at `r`. -/
def layerObj.atRow (layer : layerObj) (r : Int) : layerObj :=
  { layer with layerinfo := layer.layerinfo.map (fun li => { li with rownum := r }) }

/-- Advance the row cursor of the layer's session by one
(`(layerinfo->rownum)++`). -/
def layerObj.nextRow (layer : layerObj) : layerObj :=
  { layer with layerinfo := layer.layerinfo.map (fun li => { li with rownum := li.rownum + 1 }) }

/-- The `while (shape->type == MS_SHAPE_NULL)` loop of
msTclPlugLayerNextShape, with a bound on the number of iterations; `none`
when the bound is used up or the process aborts. -/
def nextShapeLoop (env : TclEnv) :
    Nat → World → layerObj → shapeObj → Option (Status × World × layerObj × shapeObj)
  | 0, _, _, _ => none
  | fuel + 1, w, layer, shape =>
    if shape.type = .MS_SHAPE_NULL then
      match layer.layerinfo with
      | none => none
      | some li =>
        if li.rownum < li.nrows then
          match msTclPlugReadShape env w layer shape with
          | none => none
          | some (rv, w, shape) =>
            if rv ≠ .MS_SUCCESS then some (rv, w, layer, shape)
            else if shape.type ≠ .MS_SHAPE_NULL then some (.MS_SUCCESS, w, layer.nextRow, shape)
            else nextShapeLoop env fuel w layer.nextRow shape
        else some (.MS_DONE, w, layer, shape)
    else some (.MS_FAILURE, w, layer, msFreeShape shape)

/-- The registered LayerNextShape function (`msTclPlugLayerNextShape`).
The loop reads at most `nrows - rownum` rows and then one more test ends
it, which is the bound given to it. -/
def msTclPlugLayerNextShape (env : TclEnv) (w : World) (layer : layerObj) (shape : shapeObj) :
    Option (Status × World × layerObj × shapeObj) :=
  match layer.layerinfo with
  | none => none
  | some li =>
    let shape := { shape with type := .MS_SHAPE_NULL }
    nextShapeLoop env ((li.nrows - li.rownum).toNat + 1) w layer shape

/-- The registered LayerGetShape function (`msTclPlugLayerGetShape`); the
`tile` parameter is ignored. -/
def msTclPlugLayerGetShape (env : TclEnv) (w : World) (layer : layerObj) (shape : shapeObj)
    (_tile : Int) (record : Int) : Option (Status × World × layerObj × shapeObj) :=
  match layer.layerinfo with
  | none => none
  | some li =>
    if li.interp = 0 then none else
    let i := li.interp
    match msTclPlugSnagRectangleAndUID w layer none (some record) with
    | none => none
    | some w =>
      match li.getShapeCommandObj with
      | none => none
      | some g =>
        let w := Tcl_IncrRefCount w g
        let (code, _, w) := tclEval env w i layer.addr (.Tcl_EvalObjEx (w.objs g).bytes)
        if code = .TCL_ERROR then
          let w := msSetError w .MS_QUERYERR "Error executing get_shape: %s."
            "msTclPlugLayerGetShape()" [.str (w.interps i).result]
          some (.MS_FAILURE, w, layer, shape)
        else
          let layer := layer.atRow 0
          let shape := { shape with type := .MS_SHAPE_NULL }
          let num_tuples := longToInt li.nrows
          if num_tuples > 0 then
            match msTclPlugReadShape env w layer shape with
            | none => none
            | some (result, w, shape) =>
              if result ≠ .MS_SUCCESS then some (result, w, layer, shape)
              else
                some (if shape.type = .MS_SHAPE_NULL then .MS_FAILURE
                      else if num_tuples > 0 then .MS_SUCCESS else .MS_DONE, w, layer, shape)
          else
            some (if shape.type = .MS_SHAPE_NULL then .MS_FAILURE
                  else if num_tuples > 0 then .MS_SUCCESS else .MS_DONE, w, layer, shape)

/-- Handler that cleans up at shutdown (`msTclPlugCloseConnection`). -/
def msTclPlugCloseConnection (w : World) : World :=
  if w.iCreatedTheTclInterpreter then Tcl_DeleteInterp w w.tclplug_global_interp else w

/-- Allocate and initialise an empty layerinfo (`msTclPlugCreateLayerInfo`).
The C function leaves `geoQueryCommandObj` unset; it is NULL here. -/
def msTclPlugCreateLayerInfo : msTclPlugLayerInfo :=
  { interp := 0, rownum := 0, nrows := 0,
    layerOpenCommandObj := none, getItemsCommandObj := none, getShapeCommandObj := none,
    geoQueryCommandObj := none, getAttributesCommandObj := none,
    getGeometryCommandObj := none, layerCloseCommandObj := none }

/-- Release `p` unless it is NULL. -/
def decrIfBound (w : World) (p : Option Nat) : World :=
  match p with
  | some q => Tcl_DecrRefCount w q
  | none => w

/-- Shutdown callback of a layer (`msTclPlugFreeLayerInfo`): release the
command objects, delete the interpreter unless it is the global one, and
detach the layerinfo from the layer. -/
def msTclPlugFreeLayerInfo (w : World) (layer : layerObj) : Option (World × layerObj) :=
  match layer.layerinfo with
  | none => none
  | some li =>
    let w := decrIfBound w li.layerOpenCommandObj
    let w := decrIfBound w li.getItemsCommandObj
    let w := decrIfBound w li.getShapeCommandObj
    let w := decrIfBound w li.getGeometryCommandObj
    let w := decrIfBound w li.getAttributesCommandObj
    let w := decrIfBound w li.layerCloseCommandObj
    let w :=
      if li.interp ≠ 0 then
        if li.interp ≠ w.tclplug_global_interp then Tcl_DeleteInterp w li.interp else w
      else w
    some (w, { layer with layerinfo := none })

/-- Set up the values of the global array `layer` (`msTclPlugParseData`). -/
def msTclPlugParseData (w : World) (layer : layerObj) : Option (Status × World) :=
  match layer.layerinfo with
  | none => none
  | some li =>
    if li.interp = 0 then none else
    let i := li.interp
    let w := set_tcl_var_string w i "data" layer.data
    let w := set_tcl_var_string w i "template" layer.template
    let w := set_tcl_var_string w i "name" layer.name
    let w := set_tcl_var_string w i "connection" layer.connection
    let w := set_tcl_var_string w i "plugin_library" layer.plugin_library
    let w := set_tcl_var_string w i "filter_item" layer.filteritem
    let w := set_tcl_var_string w i "style_item" layer.styleitem
    let w := set_tcl_var_string w i "requires" layer.requires
    let w := set_tcl_var_string w i "label_requires" layer.labelrequires
    let w := set_tcl_var_string w i "classgroup" layer.classgroup
    let w :=
      match layer.type with
      | .MS_LAYER_POINT => set_tcl_var_string w i "type" (some "point")
      | .MS_LAYER_LINE => set_tcl_var_string w i "type" (some "line")
      | .MS_LAYER_POLYGON => set_tcl_var_string w i "type" (some "polygon")
      | .MS_LAYER_ANNOTATION => set_tcl_var_string w i "type" (some "annotation")
      | .MS_LAYER_QUERY => set_tcl_var_string w i "type" (some "query")
      | .MS_LAYER_CHART => set_tcl_var_string w i "type" (some "chart")
      | _ => set_tcl_var_string w i "type" (some "unknown")
    some (.MS_SUCCESS, w)

/-- Value of a hexadecimal digit. -/
def hexDigit (c : Char) : Option Nat :=
  if '0' ≤ c ∧ c ≤ '9' then some (c.toNat - 48)
  else if 'a' ≤ c ∧ c ≤ 'f' then some (c.toNat - 87)
  else if 'A' ≤ c ∧ c ≤ 'F' then some (c.toNat - 55)
  else none

/-- Consume the leading hexadecimal digits of `cs`, accumulating into
`acc`; returns the value, the number of digits read and the rest. -/
def hexDigits : List Char → Nat → Nat → Nat × Nat × List Char
  | [], acc, n => (acc, n, [])
  | c :: cs, acc, n =>
    match hexDigit c with
    | some d => hexDigits cs (16 * acc + d) (n + 1)
    | none => (acc, n, c :: cs)

/-- The C library call `strtoll (s, &endPtr, 16)`: leading white space, an
optional sign, an optional `0x`, then hexadecimal digits; the value is
clamped to the range of long long.  Returns the value and whether `endPtr`
is left at the end of the string. -/
def strtoll16 (s : String) : Int × Bool :=
  let cs := s.toList.dropWhile (fun c => c = ' ' ∨ ('\t' ≤ c ∧ c ≤ '\r'))
  let (neg, cs) :=
    match cs with
    | '-' :: r => (true, r)
    | '+' :: r => (false, r)
    | _ => (false, cs)
  let cs :=
    match cs with
    | '0' :: x :: d :: r =>
      if (x = 'x' ∨ x = 'X') ∧ (hexDigit d).isSome then d :: r else cs
    | _ => cs
  let (v, n, rest) := hexDigits cs 0 0
  if n = 0 then (0, s.toList.isEmpty)
  else
    let v : Int := if neg then -(v : Int) else (v : Int)
    (max (-(2 : Int) ^ 63) (min v ((2 : Int) ^ 63 - 1)), rest.isEmpty)

/-- Create an interpreter at a new, non-null address. -/
def Tcl_CreateInterp (w : World) : Int × World :=
  ((w.nextInterp : Int) + 1,
    { w with nextInterp := w.nextInterp + 1,
             interps := Function.update w.interps ((w.nextInterp : Int) + 1) {} })

/-- The tail of the interpreter set-up of msTclPlugLayerOpen, run when no
global interpreter existed: link `layerDebug`, make the interpreter the
global one and register the `meta` command.  Yields `none` for the
interpreter when the function returns MS_FAILURE from here. -/
def linkAndRegister (env : TclEnv) (w : World) (layer : layerObj) (interp : Int) :
    World × Option Int :=
  let r := env.Tcl_LinkVar (w.interps interp)
  if r.1 = .TCL_ERROR then
    let w := Tcl_SetObjResult w interp r.2
    (msSetError w .MS_QUERYERR "Error linking tcl init debug var: %s."
      "msTclJoinConnect()" [.str (w.interps interp).result], none)
  else
    let w := w.setInterp interp { w.interps interp with layerDebug := some layer.addr }
    let w := { w with tclplug_global_interp := interp }
    let w := w.setInterp interp { w.interps interp with metaCmd := true }
    (w, some interp)

/-- The part of msTclPlugLayerOpen that creates or attaches to a Tcl
interpreter: the global one when it exists, else the one whose address is
given under the metadata key "interpreter", else a new one.  Yields `none`
for the interpreter when the function returns MS_FAILURE from here. -/
def acquireInterp (env : TclEnv) (w : World) (layer : layerObj) : World × Option Int :=
  if w.tclplug_global_interp ≠ 0 then (w, some w.tclplug_global_interp)
  else
    let interp : Int :=
      match msLookupHashTable layer.metadata "interpreter" with
      | some interpreterString =>
        let (ll, atEnd) := strtoll16 interpreterString
        if atEnd then ll else 0
      | none => 0
    if interp = 0 then
      let (interp, w) := Tcl_CreateInterp w
      let r := env.Tcl_Init (w.interps interp)
      if r.1 = .TCL_ERROR then
        let w := Tcl_SetObjResult w interp r.2
        (msSetError w .MS_QUERYERR "tcl init failed: %s." "msTclJoinConnect()"
          [.str (w.interps interp).result], none)
      else linkAndRegister env { w with iCreatedTheTclInterpreter := true } layer interp
    else linkAndRegister env w layer interp

/-- The seven command objects of msTclPlugLayerOpen: each is created from
the namespace (empty when the metadata has none), gets its procedure name
appended and is retained once. -/
def bindCommands (w : World) (layer : layerObj) (li : msTclPlugLayerInfo) :
    World × msTclPlugLayerInfo :=
  let ns : String :=
    match msLookupHashTable layer.metadata "namespace" with
    | none => ""
    | some s => s
  let (layerOpen, w) := Tcl_NewStringObj w ns
  let (geoQuery, w) := Tcl_NewStringObj w ns
  let (getItems, w) := Tcl_NewStringObj w ns
  let (getShape, w) := Tcl_NewStringObj w ns
  let (getGeometry, w) := Tcl_NewStringObj w ns
  let (getAttributes, w) := Tcl_NewStringObj w ns
  let (layerClose, w) := Tcl_NewStringObj w ns
  let w := Tcl_IncrRefCount (Tcl_AppendToObj w layerOpen "::layer_open") layerOpen
  let w := Tcl_IncrRefCount (Tcl_AppendToObj w getItems "::get_items") getItems
  let w := Tcl_IncrRefCount (Tcl_AppendToObj w getShape "::get_shape") getShape
  let w := Tcl_IncrRefCount (Tcl_AppendToObj w geoQuery "::geo_query") geoQuery
  let w := Tcl_IncrRefCount (Tcl_AppendToObj w getGeometry "::get_geometry") getGeometry
  let w := Tcl_IncrRefCount (Tcl_AppendToObj w getAttributes "::get_attributes") getAttributes
  let w := Tcl_IncrRefCount (Tcl_AppendToObj w layerClose "::layer_close") layerClose
  (w, { li with
    layerOpenCommandObj := some layerOpen, geoQueryCommandObj := some geoQuery,
    getItemsCommandObj := some getItems, getShapeCommandObj := some getShape,
    getGeometryCommandObj := some getGeometry, getAttributesCommandObj := some getAttributes,
    layerCloseCommandObj := some layerClose })

/-- The end of msTclPlugLayerOpen, once the command names are bound:
publish the layer variables and call layer_open with the layer name; a
failing layer_open is reported and the function returns MS_FAILURE, with the
session left attached to the layer. -/
def openBound (env : TclEnv) (w : World) (layer : layerObj) (layerinfo : msTclPlugLayerInfo)
    (interp : Int) : Option (Status × World × layerObj) :=
  let layer := { layer with layerinfo := some layerinfo }
  match msTclPlugParseData w layer with
  | none => none
  | some (st, w) =>
    if st ≠ .MS_SUCCESS then
      some (.MS_FAILURE,
        msSetError w .MS_MISCERR "msTclPlugParseData() failed." "msTclPlugLayerOpen()" [],
        layer)
    else
      match layerinfo.layerOpenCommandObj with
      | none => none
      | some o =>
        let w := Tcl_IncrRefCount w o
        let (code, _, w) := tclEval env w interp layer.addr
          (.Tcl_EvalObjv (w.objs o).bytes [.string (layer.name.getD "")])
        if code = .TCL_ERROR then
          let w := Tcl_AddErrorInfo w interp " while executing layer plugin"
          let w := msSetError w .MS_QUERYERR "Error opening layer: %s."
            "msTclPlugLayerLayerOpen()" [.str (w.interps interp).result]
          some (.MS_FAILURE, Tcl_BackgroundError w interp, layer)
        else some (.MS_SUCCESS, w, layer)

/-- The part of msTclPlugLayerOpen that follows the interpreter set-up:
store the interpreter in the layerinfo and the layerinfo in the layer, point
the "pluglayer" back-reference at the layer, bind the command names, then
publish the variables and call layer_open (`openBound`). -/
def openWithInterp (env : TclEnv) (w : World) (layer : layerObj)
    (layerinfo : msTclPlugLayerInfo) (interp : Int) : Option (Status × World × layerObj) :=
  let layerinfo := { layerinfo with interp := interp }
  let w := w.setInterp interp { w.interps interp with pluglayer := some layer.addr }
  let bound := bindCommands w layer layerinfo
  openBound env bound.1 layer bound.2 interp

/-- The registered LayerOpen function (`msTclPlugLayerOpen`): construct the
layerinfo, create or attach to the interpreter, then bind the command names
and call layer_open (`openWithInterp`). -/
def msTclPlugLayerOpen (env : TclEnv) (w : World) (layer : layerObj) :
    Option (Status × World × layerObj) :=
  if layer.layerinfo.isSome then some (.MS_SUCCESS, w, layer)
  else if layer.data.isNone then
    some (.MS_FAILURE,
      msSetError w .MS_QUERYERR "Nothing specified in DATA statement." "msTclPlugLayerOpen()" [],
      layer)
  else
    let layerinfo := msTclPlugCreateLayerInfo
    match acquireInterp env w layer with
    | (w, none) => some (.MS_FAILURE, w, layer)
    | (w, some interp) => openWithInterp env w layer layerinfo interp

/-- The layer_close call of msTclPlugLayerClose: evaluate the command name
and, when that fails, report the error and carry on. -/
def closeCallout (env : TclEnv) (w : World) (layer : layerObj) (i : Int) (c : Nat) : World :=
  let (code, _, w) := tclEval env w i layer.addr (.Tcl_EvalObjEx (w.objs c).bytes)
  if code = .TCL_ERROR then
    let w := Tcl_AddErrorInfo w i " while executing layer plugin"
    let w := msSetError w .MS_QUERYERR "Error closing layer: %s."
      "msTclPlugLayerLayerClose()" [.str (w.interps i).result]
    Tcl_BackgroundError w i
  else w

/-- The registered LayerClose function (`msTclPlugLayerClose`): call
layer_close, report but ignore its failure, and free the layerinfo. -/
def msTclPlugLayerClose (env : TclEnv) (w : World) (layer : layerObj) :
    Option (Status × World × layerObj) :=
  match layer.layerinfo with
  | none => none
  | some li =>
    if li.interp = 0 then none else
    match li.layerCloseCommandObj with
    | none => none
    | some c =>
      let w := closeCallout env w layer li.interp c
      match msTclPlugFreeLayerInfo w layer with
      | none => none
      | some (w, layer) => some (.MS_SUCCESS, w, layer)

/-- The registered LayerIsOpen function (`msTclPlugLayerIsOpen`). -/
def msTclPlugLayerIsOpen (layer : layerObj) : Bool :=
  layer.layerinfo.isSome

/-! ## The meta command -/

/-- Modelled from the spec: msInsertHashTable (maphash.c, not among the
sources) inserts a value under a key, or overwrites the value the key
has. -/
def msInsertHashTable (table : hashTableObj) (key value : String) : hashTableObj :=
  if (msLookupHashTable table key).isSome then
    table.map (fun kv => if kv.1 == key then (kv.1, value) else kv)
  else table ++ [(key, value)]

/-- Modelled from the spec: msRemoveHashTable (maphash.c, not among the
sources) removes a key if it is present. -/
def msRemoveHashTable (table : hashTableObj) (key : String) : hashTableObj :=
  table.filter (fun kv => kv.1 != key)

/-- Modelled from the spec: the keys that a loop from
msFirstKeyFromHashTable on through msNextKeyFromHashTable (maphash.c, not
among the sources) visits, which are all keys in table order. -/
def hashTableKeys (table : hashTableObj) : List String :=
  table.map (fun kv => kv.1)

/-- The options of the meta command (`enum options` of metaObjCmd). -/
inductive MetaOption where
  | OPT_GET
  | OPT_SET
  | OPT_EXISTS
  | OPT_UNSET
  | OPT_NAMES
  deriving DecidableEq, Repr

/-- The table `options` of metaObjCmd, each word with its index. -/
def metaOptions : List (String × MetaOption) :=
  [("get", .OPT_GET), ("set", .OPT_SET), ("exists", .OPT_EXISTS), ("unset", .OPT_UNSET),
   ("names", .OPT_NAMES)]

/-- Look a word up in the option table, exact matches only
(`Tcl_GetIndexFromObj` with TCL_EXACT); `none` is TCL_ERROR. -/
def Tcl_GetIndexFromObj (word : String) : Option MetaOption :=
  (metaOptions.find? (fun o => o.1 == word)).map (fun o => o.2)

/-- What a command procedure leaves as the interpreter result.  Tcl resets
the result before it invokes a command procedure, so a procedure that sets
nothing leaves the empty result. -/
inductive CmdResult where
  | empty
  | string (s : String)
  | boolean (b : Bool)
  | list (l : List String)
  | wrongNumArgs (objc : Nat) (message : String)
  | badOption (word : String)
  deriving DecidableEq, Repr

/-- The procedure of the `meta` command (`metaObjCmd`).  `objv` holds the
string forms of the words of the command, the command name first; `layers`
is the memory holding the layer objects, by address, in which the procedure
follows the "pluglayer" pointer of the interpreter.  Yields the completion
code, the result, the process state and the layer objects afterwards. -/
def metaObjCmd (w : World) (layers : Nat → layerObj) (interp : Int) (objv : List String) :
    TclCode × CmdResult × World × (Nat → layerObj) :=
  let objc := objv.length
  if objc < 2 ∨ objc > 4 then (.TCL_ERROR, .wrongNumArgs 1 "option ?var?", w, layers)
  else
    match Tcl_GetIndexFromObj (objv.getD 1 "") with
    | none => (.TCL_ERROR, .badOption (objv.getD 1 ""), w, layers)
    | some optIndex =>
      match (w.interps interp).pluglayer with
      | none =>
        (.TCL_ERROR, .empty,
          Tcl_AddErrorInfo w interp
            "tcl plugin software failure: associated data \"pluglayer\" not set in interpreter.",
          layers)
      | some p =>
        let layer := layers p
        match optIndex with
        | .OPT_GET =>
          if objc ≠ 3 then (.TCL_ERROR, .wrongNumArgs 2 "var", w, layers)
          else
            let key := objv.getD 2 ""
            match msLookupHashTable layer.metadata key with
            | none => (.TCL_OK, .empty, w, layers)
            | some value => (.TCL_OK, .string value, w, layers)
        | .OPT_SET =>
          if objc ≠ 4 then (.TCL_ERROR, .wrongNumArgs 2 "var value", w, layers)
          else
            let key := objv.getD 2 ""
            let value := objv.getD 3 ""
            (.TCL_OK, .empty, w,
              Function.update layers p
                { layer with metadata := msInsertHashTable layer.metadata key value })
        | .OPT_EXISTS =>
          if objc ≠ 3 then (.TCL_ERROR, .wrongNumArgs 2 "var", w, layers)
          else
            let key := objv.getD 2 ""
            let value := msLookupHashTable layer.metadata key
            (.TCL_OK, .boolean (if value = none then false else true), w, layers)
        | .OPT_UNSET =>
          if objc ≠ 3 then (.TCL_ERROR, .wrongNumArgs 2 "var", w, layers)
          else
            let key := objv.getD 2 ""
            if msLookupHashTable layer.metadata key = none then (.TCL_OK, .empty, w, layers)
            else
              (.TCL_OK, .empty, w,
                Function.update layers p
                  { layer with metadata := msRemoveHashTable layer.metadata key })
        | .OPT_NAMES =>
          if objc ≠ 2 then (.TCL_ERROR, .wrongNumArgs 2 "", w, layers)
          else
            (.TCL_OK, .list ((hashTableKeys layer.metadata).foldl (fun l key => l ++ [key]) []),
              w, layers)

/-! ## The item schema -/

/-- The registered LayerFreeItemInfo function
(`msTclPlugLayerFreeItemInfo`). -/
def msTclPlugLayerFreeItemInfo (layer : layerObj) : layerObj :=
  { layer with iteminfo := none }

/-- The loop `for (i = 0; i < layer->numitems; i++) itemindexes[i] = i` of
msTclPlugLayerInitItemInfo, from index `i` on, with a bound on the number of
iterations. -/
def itemIndexLoop (numitems : Nat) : Nat → Nat → List Int → List Int
  | 0, _, itemindexes => itemindexes
  | fuel + 1, i, itemindexes =>
    if i < numitems then itemIndexLoop numitems fuel (i + 1) (itemindexes.set i (i : Int))
    else itemindexes

/-- The registered LayerInitItemInfo function
(`msTclPlugLayerInitItemInfo`).  The array the layer had is freed and
`layer->iteminfo` becomes what malloc returns: `allocated` tells whether
that is memory or NULL.  The memory holds `numitems` integers, here zeros,
every one of which the loop overwrites. -/
def msTclPlugLayerInitItemInfo (w : World) (layer : layerObj) (allocated : Bool) :
    Status × World × layerObj :=
  if layer.numitems = 0 then (.MS_SUCCESS, w, layer)
  else
    if !allocated then
      (.MS_FAILURE,
        msSetError w .MS_MEMERR "Out of memory." "msTclPlugLayerInitItemInfo()" [],
        { layer with iteminfo := none })
    else
      let itemindexes := List.replicate layer.items.length (0 : Int)
      (.MS_SUCCESS, w,
        { layer with
          iteminfo := some (itemIndexLoop layer.items.length layer.items.length 0 itemindexes) })

/-- The registered LayerGetItems function (`msTclPlugLayerGetItems`): call
get_items, take the elements of its answer as the item names of the layer
and build the iteminfo. -/
def msTclPlugLayerGetItems (env : TclEnv) (w : World) (layer : layerObj) (allocated : Bool) :
    Option (Status × World × layerObj) :=
  match layer.layerinfo with
  | none => none
  | some li =>
    if li.interp = 0 then none else
    let i := li.interp
    match li.getItemsCommandObj with
    | none => none
    | some g =>
      let w := Tcl_IncrRefCount w g
      let (code, obj, w) := tclEval env w i layer.addr (.Tcl_EvalObjEx (w.objs g).bytes)
      if code = .TCL_ERROR then
        let w := msSetError w .MS_QUERYERR "Error invoking %s: %s." "msTclPlugLayerGetItems()"
          [.str (w.objs g).bytes, .str (w.interps i).result]
        some (.MS_FAILURE, w, layer)
      else
        match Tcl_ListObjGetElements obj with
        | .error m =>
          let w := Tcl_SetObjResult w i m
          let w := msSetError w .MS_QUERYERR "error getting list elements: %s"
            "msTclPlugLayerGetItems()" [.str (w.interps i).result]
          some (.MS_FAILURE, w, layer)
        | .ok list =>
          let layer := { layer with items := list.map Tcl_GetString }
          some (msTclPlugLayerInitItemInfo w layer allocated)

/-! ## The time filter -/

/-- The value of msTimeGetResolution (maptime.h), by the name of the
constant: negative for a string that is not a time, one of the six
resolutions the plugin knows, or another value. -/
inductive TimeResolution where
  | TIME_RESOLUTION_UNDEFINED
  | TIME_RESOLUTION_SECOND
  | TIME_RESOLUTION_MINUTE
  | TIME_RESOLUTION_HOUR
  | TIME_RESOLUTION_DAY
  | TIME_RESOLUTION_MONTH
  | TIME_RESOLUTION_YEAR
  | other
  deriving DecidableEq, Repr

/-- The MapServer functions msTclPlugLayerSetTimeFilter calls that are
outside the sources at hand, taken as given: msStringSplit (`none` is a NULL
array), msTimeGetResolution, freeExpression and loadExpressionString. -/
structure MapEnv where
  msStringSplit : String → Char → Option (List String)
  msTimeGetResolution : String → TimeResolution
  freeExpression : expressionObj → expressionObj
  loadExpressionString : expressionObj → String → expressionObj

/-- The block of msTclPlugLayerSetTimeFilter, written out four times in the
C code, that completes a time string for date_trunc: what it appends after
the string `t`.  For the resolutions year, month, hour and minute it looks
at the last character of `t`; `none` when `t` is empty, where the C code
reads the byte in front of the string. -/
def timeCompletion (timeresolution : String) (t : String) : Option String :=
  if timeresolution = "year" then
    t.toList.getLast?.map (fun c => if c ≠ '-' then "-01-01" else "01-01")
  else if timeresolution = "month" then
    t.toList.getLast?.map (fun c => if c ≠ '-' then "-01" else "01")
  else if timeresolution = "hour" then
    t.toList.getLast?.map (fun c => if c ≠ ':' then ":00:00" else "00:00")
  else if timeresolution = "minute" then
    t.toList.getLast?.map (fun c => if c ≠ ':' then ":00" else "00")
  else some ""

/-- The text `date_trunc('<resolution>', <field>)` as the code builds
it. -/
def dateTrunc (timeresolution timefield : String) : String :=
  "date_trunc('" ++ timeresolution ++ "', " ++ timefield ++ ")"

/-- The loop over the entries of a list of ranges in
msTclPlugLayerSetTimeFilter: an entry that splits at `/` into two tokens
adds one condition to the buffer, any other entry adds nothing. -/
def rangesLoop (menv : MapEnv) (timeresolution timefield : String) :
    List String → String → Option String
  | [], buffer => some buffer
  | t :: rest, buffer =>
    match menv.msStringSplit t '/' with
    | none => none
    | some tokens =>
      if tokens.length = 2 then
        match timeCompletion timeresolution (tokens.getD 0 ""),
              timeCompletion timeresolution (tokens.getD 1 "") with
        | some c0, some c1 =>
          let buffer := if buffer.length > 0 then buffer ++ " OR " else buffer ++ "("
          let buffer := buffer ++ "(" ++ dateTrunc timeresolution timefield ++ " >= " ++ "'"
            ++ tokens.getD 0 "" ++ c0 ++ "'" ++ " AND " ++ dateTrunc timeresolution timefield
            ++ " <= " ++ "'" ++ tokens.getD 1 "" ++ c1 ++ "'" ++ ")"
          rangesLoop menv timeresolution timefield rest buffer
        | _, _ => none
      else rangesLoop menv timeresolution timefield rest buffer

/-- The loop over the entries of a list of times in
msTclPlugLayerSetTimeFilter; `first` tells whether the entry is the one at
index 0. -/
def timesLoop (timeresolution timefield : String) : List String → Bool → String → Option String
  | [], _, buffer => some buffer
  | t :: rest, first, buffer =>
    match timeCompletion timeresolution t with
    | none => none
    | some c =>
      let buffer := if first then buffer else buffer ++ " OR "
      let buffer := buffer ++ "(" ++ dateTrunc timeresolution timefield ++ " = " ++ "'"
        ++ t ++ c ++ "'" ++ ")"
      timesLoop timeresolution timefield rest false buffer

/-- The string the first part of msTclPlugLayerSetTimeFilter takes the
resolution from (`tmpstimestring`): the time string itself when it is a
discrete time, else the first entry of the list, or the start of the first
range; `none` is NULL. -/
def firstTime (menv : MapEnv) (timestring : String) : Option String :=
  if ',' ∉ timestring.toList ∧ '/' ∉ timestring.toList then some timestring
  else
    match menv.msStringSplit timestring ',' with
    | none => none
    | some atimes =>
      if atimes.length < 1 then none
      else
        match menv.msStringSplit (atimes.getD 0 "") '/' with
        | none => none
        | some tokens =>
          if tokens.length = 2 then some (tokens.getD 0 "")
          else if tokens.length = 1 then some (atimes.getD 0 "")
          else none

/-- The name msTclPlugLayerSetTimeFilter gives a resolution; `none` is
NULL. -/
def resolutionName : TimeResolution → Option String
  | .TIME_RESOLUTION_SECOND => some "second"
  | .TIME_RESOLUTION_MINUTE => some "minute"
  | .TIME_RESOLUTION_HOUR => some "hour"
  | .TIME_RESOLUTION_DAY => some "day"
  | .TIME_RESOLUTION_MONTH => some "month"
  | .TIME_RESOLUTION_YEAR => some "year"
  | _ => none

/-- What msTclPlugLayerSetTimeFilter puts in the buffer for the filter the
layer has: for an expression, its text between `(` and `) and `; any other
filter is freed and adds nothing.  The outer `none` is the crash on an
expression without text. -/
def filterPrefix (menv : MapEnv) (filter : expressionObj) : Option (String × expressionObj) :=
  if filter.type = .MS_EXPRESSION then
    match filter.string with
    | none => none
    | some f => some ("(" ++ f ++ ") and ", filter)
  else some ("", menv.freeExpression filter)

/-- Install the buffer as the filter of the layer (`loadExpressionString`).
The buffer of the C code has 512 bytes; a longer text overruns it, which
ends the model (`none`). -/
def loadBuffer (menv : MapEnv) (lp : layerObj) (filter : expressionObj) (buffer : String) :
    Option layerObj :=
  if buffer.utf8ByteSize ≥ 512 then none
  else some { lp with filter := menv.loadExpressionString filter buffer }

/-- The registered LayerSetTimeFilter function
(`msTclPlugLayerSetTimeFilter`).  Yields MS_TRUE or MS_FALSE as a Boolean
and the layer afterwards. -/
def msTclPlugLayerSetTimeFilter (menv : MapEnv) (lp : Option layerObj)
    (timestring timefield : Option String) : Option (Bool × Option layerObj) :=
  match lp, timestring, timefield with
  | some lp, some timestring, some timefield =>
    match firstTime menv timestring with
    | none => some (false, some lp)
    | some tmpstimestring =>
      let timesresol := menv.msTimeGetResolution tmpstimestring
      if timesresol = .TIME_RESOLUTION_UNDEFINED then some (false, some lp)
      else
        match resolutionName timesresol with
        | none => some (false, some lp)
        | some timeresolution =>
          if ',' ∉ timestring.toList ∧ '/' ∉ timestring.toList then
            let lp := { lp with filteritem := some timefield }
            match filterPrefix menv lp.filter with
            | none => none
            | some (buffer, filter) =>
              match timeCompletion timeresolution timestring with
              | none => none
              | some c =>
                let buffer := buffer ++ "(" ++ dateTrunc timeresolution timefield ++ " = " ++ "'"
                  ++ timestring ++ c ++ "'" ++ ")"
                (loadBuffer menv lp filter buffer).map (fun lp => (true, some lp))
          else
            match menv.msStringSplit timestring ',' with
            | none => some (false, some lp)
            | some atimes =>
              if atimes.length < 1 then some (false, some lp)
              else
                match menv.msStringSplit (atimes.getD 0 "") '/' with
                | none => none
                | some tokens =>
                  let built : Option (Option String) :=
                    if tokens.length = 2 then
                      (rangesLoop menv timeresolution timefield atimes "").map
                        (fun buffer => some (if buffer.length > 0 then buffer ++ ")" else buffer))
                    else if tokens.length = 1 then
                      (timesLoop timeresolution timefield atimes true "(").map
                        (fun buffer => some (buffer ++ ")"))
                    else some none
                  match built with
                  | none => none
                  | some none => some (false, some lp)
                  | some (some buffer) =>
                    if buffer.length > 0 then
                      let lp := { lp with filteritem := some timefield }
                      match filterPrefix menv lp.filter with
                      | none => none
                      | some (pre, filter) =>
                        (loadBuffer menv lp filter (buffer ++ pre)).map
                          (fun lp => (true, some lp))
                    else some (true, some lp)
  | lp, _, _ => some (false, lp)

/-! ## Vocabulary of the statements -/

/-- All points of a shape, part after part. -/
def shapeObj.points (shape : shapeObj) : List pointObj :=
  shape.line.foldr (fun l acc => l.point ++ acc) []

/-- The coordinates of a sequence of points as a flat list x, y, x, y, ... -/
def coordsOf (pts : List pointObj) : List ℚ :=
  pts.foldr (fun p acc => p.x :: p.y :: acc) []

/-- The value `part` is a list whose elements are numbers, the coordinates
of `pts` in order. -/
def TclObj.holdsPoints (part : TclObj) (pts : List pointObj) : Prop :=
  ∃ es, Tcl_ListObjGetElements part = .ok es ∧
    es.map Tcl_GetDoubleFromObj = (coordsOf pts).map Except.ok

/-- The rectangle `b` is the bounding box of the points `pts`: it contains
every point, and each of its four sides is the coordinate of some point, so
that minx, maxx, miny and maxy are the least and greatest x and y. -/
def rectObj.isBoundsOf (b : rectObj) (pts : List pointObj) : Prop :=
  (∀ p ∈ pts, b.minx ≤ p.x ∧ p.x ≤ b.maxx ∧ b.miny ≤ p.y ∧ p.y ≤ b.maxy) ∧
  (∃ p ∈ pts, p.x = b.minx) ∧ (∃ p ∈ pts, p.x = b.maxx) ∧
  (∃ p ∈ pts, p.y = b.miny) ∧ (∃ p ∈ pts, p.y = b.maxy)

/-- The process state in which msTclPlugReadShape asks for the attributes of
a row: the one its get_geometry call has left. -/
def afterGeometry (env : TclEnv) (w : World) (layer : layerObj) (li : msTclPlugLayerInfo)
    (g : Nat) : World :=
  (tclEval env (Tcl_IncrRefCount w g) li.interp layer.addr
    (.Tcl_EvalObjv (w.objs g).bytes [.int (longToInt li.rownum)])).2.2

/-- The get_shape call of msTclPlugLayerGetShape for the row identifier
`record`, made once the identifier is published: the completion code, the
value and the process state it leaves. -/
def getShapeAnswer (env : TclEnv) (w : World) (layer : layerObj) (li : msTclPlugLayerInfo)
    (gs : Nat) (record : Int) : TclCode × TclObj × World :=
  tclEval env (Tcl_IncrRefCount (set_tcl_var_long w li.interp "uid" record) gs) li.interp
    layer.addr (.Tcl_EvalObjEx (w.objs gs).bytes)

/-- The row cursor of the layer's session (0 without a session). -/
def layerObj.rownum (layer : layerObj) : Int :=
  match layer.layerinfo with
  | some li => li.rownum
  | none => 0

/-- The row count of the layer's session (0 without a session). -/
def layerObj.nrows (layer : layerObj) : Int :=
  match layer.layerinfo with
  | some li => li.nrows
  | none => 0

/-- Run `k` successive msTclPlugLayerNextShape calls, each on the shape
`shape` the caller hands in, threading the world and the layer; yields the
status and the shape of every call in order. -/
def nextShapeRun (env : TclEnv) :
    Nat → World → layerObj → shapeObj → Option (List (Status × shapeObj) × World × layerObj)
  | 0, w, layer, _ => some ([], w, layer)
  | k + 1, w, layer, shape =>
    match msTclPlugLayerNextShape env w layer shape with
    | none => none
    | some (st, w, layer, out) =>
      match nextShapeRun env k w layer shape with
      | none => none
      | some (rs, w, layer) => some ((st, out) :: rs, w, layer)

/-- Fetch the `k` rows from row `c` on one after the other, as an iteration
does: each msTclPlugReadShape runs in the world the one before it left.
Yields the status and the geometry kind of every fetch, in order. -/
def fetchRows (env : TclEnv) (layer : layerObj) (shape : shapeObj) :
    Nat → Nat → World → Option (List (Status × MS_SHAPE_TYPE))
  | 0, _, _ => some []
  | k + 1, c, w =>
    match msTclPlugReadShape env w (layer.atRow c) shape with
    | none => none
    | some (rv, w, out) =>
      match fetchRows env layer shape k (c + 1) w with
      | none => none
      | some rest => some ((rv, out.type) :: rest)

/-- The rows, numbered from `c` on, whose geometry kind in `kinds` is not
"none", in ascending order. -/
def rowsWithShape : Nat → List MS_SHAPE_TYPE → List Nat
  | _, [] => []
  | c, t :: ts =>
    if t ≠ .MS_SHAPE_NULL then c :: rowsWithShape (c + 1) ts else rowsWithShape (c + 1) ts

/-- The evaluation of the connection string in msTclPlugLayerWhichShapes,
made once the query rectangle is published: completion code, answer and the
process state after it. -/
def connectionAnswer (env : TclEnv) (w : World) (layer : layerObj) (i : Int) (rect : rectObj)
    (connection : String) : TclCode × TclObj × World :=
  tclEval env
    (set_tcl_var_obj w i "rectangle" (.doubleList [rect.minx, rect.miny, rect.maxx, rect.maxy]))
    i layer.addr (.Tcl_Eval connection)

/-- The call of geo_query in msTclPlugLayerWhichShapes, made in the state
the connection script left, with the command object `q` retained:
completion code, answer and the process state after it. -/
def geoQueryAnswer (env : TclEnv) (w : World) (layer : layerObj) (i : Int) (rect : rectObj)
    (connection : String) (q : Nat) : TclCode × TclObj × World :=
  tclEval env (Tcl_IncrRefCount (connectionAnswer env w layer i rect connection).2.2 q)
    i layer.addr
    (.Tcl_EvalObjv (w.objs q).bytes [msTclPlugLayerItemNamesToList layer])

/-- The session invariant as the specification words it: the row cursor is
in the range from 0 to the row count. -/
def layerObj.cursorInRange (layer : layerObj) : Prop :=
  0 ≤ layer.rownum ∧ layer.rownum ≤ layer.nrows

/-- The bound the code keeps: the row cursor is not negative and is at most
the row count, or 0 when the row count is negative. -/
def layerObj.cursorBounded (layer : layerObj) : Prop :=
  0 ≤ layer.rownum ∧ layer.rownum ≤ max layer.nrows 0

/-- A registered layer function called on the layer object at an
address. -/
inductive LayerCall where
  | LayerOpen (p : Nat)
  | LayerClose (p : Nat)
  deriving DecidableEq, Repr

/-- One call of a sequence: the function receives the layer object stored at
the address, and the object it leaves is stored back. -/
def LayerCall.run (env : TclEnv) (c : LayerCall) (w : World) (layers : Nat → layerObj) :
    Option (Status × World × (Nat → layerObj)) :=
  match c with
  | .LayerOpen p =>
    (msTclPlugLayerOpen env w (layers p)).map
      (fun r => (r.1, r.2.1, Function.update layers p r.2.2))
  | .LayerClose p =>
    (msTclPlugLayerClose env w (layers p)).map
      (fun r => (r.1, r.2.1, Function.update layers p r.2.2))

/-- A sequence of calls made one after the other; yields the status of
every call in order, the process state and the layer objects at the end. -/
def runCalls (env : TclEnv) :
    List LayerCall → World → (Nat → layerObj) → Option (List Status × World × (Nat → layerObj))
  | [], w, layers => some ([], w, layers)
  | c :: cs, w, layers =>
    match c.run env w layers with
    | none => none
    | some (st, w, layers) =>
      match runCalls env cs w layers with
      | none => none
      | some (sts, w, layers) => some (st :: sts, w, layers)

/-- The life-cycle data of the process is the same in `w'` as in `w`: the
default interpreter, the flag that the process created it, the number of
interpreters created, and which interpreters are deleted. -/
def World.sameLifecycle (w w' : World) : Prop :=
  w'.tclplug_global_interp = w.tclplug_global_interp ∧
  w'.iCreatedTheTclInterpreter = w.iCreatedTheTclInterpreter ∧
  w'.nextInterp = w.nextInterp ∧
  ∀ j, (w'.interps j).deleted = (w.interps j).deleted

/-- Every session of `layers` runs in the default interpreter of `w`, which
exists. -/
def sessionsUseDefault (w : World) (layers : Nat → layerObj) : Prop :=
  ∀ p li, (layers p).layerinfo = some li →
    li.interp = w.tclplug_global_interp ∧ w.tclplug_global_interp ≠ 0

/-- What a failing msTclPlugReadShape leaves to read about the failure: the
MapServer error list, the reports handed to the background error handler of
the interpreter at address `i` (message and error information of each), and
the result and the error information left in that interpreter. -/
def errorReport (w : World) (i : Int) :
    List errorObj × List BackgroundReport × String × List String :=
  (w.errors, (w.interps i).reports, (w.interps i).result, (w.interps i).errorInfo)

/-- The state of the interpreter at address `i` in which
msTclPlugLayerWhichShapes evaluates the connection string: the query
rectangle is published, nothing else is written. -/
def withRectangle (w : World) (i : Int) (rect : rectObj) : Interp :=
  (set_tcl_var_obj w i "rectangle"
    (.doubleList [rect.minx, rect.miny, rect.maxx, rect.maxy])).interps i

/-! ## A concrete session

Item names id and name; geo_query announces two rows; row 0 is the line
(0,0)-(1,1) with the attributes 1 and Alpha; row 1 has no geometry.  Rows 7
and 8, outside the announced rows, are malformed: row 7 has a part with an
odd number of elements, row 8 has one attribute too few. -/

/-- A numeric value with its string form.  Conversions the plugin does not
apply to a value of this example are given as failing. -/
def demoNumber (s : String) (q : ℚ) : TclObj :=
  .mk s (.error "not used") (.ok q) (.error "not used")

/-- An integer value with its string form. -/
def demoCount (s : String) (n : Int) : TclObj :=
  .mk s (.ok n) (.error "not used") (.error "not used")

/-- A list value with its string form. -/
def demoList (s : String) (xs : List TclObj) : TclObj :=
  .mk s (.error "expected integer") (.error "expected floating-point number") (.ok xs)

/-- A text value. -/
def demoText (s : String) : TclObj :=
  .mk s (.error "expected integer") (.error "expected floating-point number") (.error "not used")

/-- The part of row 0: the two points (0,0) and (1,1). -/
def demoPart : TclObj :=
  demoList "0 0 1 1" [demoNumber "0" 0, demoNumber "0" 0, demoNumber "1" 1, demoNumber "1" 1]

/-- The geometry of row 0: one part. -/
def demoGeometry : TclObj := demoList "\x7b0 0 1 1\x7d" [demoPart]

/-- The geometry of row 7: the part of row 0, then a part of three
elements. -/
def demoOddGeometry : TclObj :=
  demoList "\x7b0 0 1 1\x7d \x7b5 6 7\x7d"
    [demoPart, demoList "5 6 7" [demoNumber "5" 5, demoNumber "6" 6, demoNumber "7" 7]]

/-- The attributes of row 0. -/
def demoAttributes : TclObj := demoList "1 Alpha" [demoText "1", demoText "Alpha"]

/-- The script of the example; its answers depend on the call only.
get_shape answers 0 whatever the row identifier is. -/
def demoScript (_st : Interp) (c : Call) : TclCode × TclObj :=
  match c with
  | .Tcl_EvalObjv cmd [.int r] =>
    if cmd = "::get_geometry" then
      if r = 0 ∨ r = 8 then (.TCL_OK, demoGeometry)
      else if r = 7 then (.TCL_OK, demoOddGeometry)
      else (.TCL_OK, demoList "" [])
    else if cmd = "::get_attributes" then
      if r = 8 then (.TCL_OK, demoList "1" [demoText "1"]) else (.TCL_OK, demoAttributes)
    else (.TCL_OK, demoText "")
  | .Tcl_EvalObjv cmd [.stringList _] =>
    if cmd = "::geo_query" then (.TCL_OK, demoCount "2" 2) else (.TCL_OK, demoText "")
  | .Tcl_EvalObjEx cmd =>
    if cmd = "::get_shape" then (.TCL_OK, demoCount "0" 0) else (.TCL_OK, demoText "")
  | _ => (.TCL_OK, demoText "")

/-- The Tcl side of the example. -/
def demoEnv : TclEnv :=
  { script := demoScript, Tcl_Init := fun _ => (.TCL_OK, ""), Tcl_LinkVar := fun _ => (.TCL_OK, "") }

/-- The layer of the example before it is opened: a line layer. -/
def demoLayer : layerObj :=
  { addr := 1, name := some "roads", data := some "roads.dat", template := none,
    connection := some "package require roads", plugin_library := none, filteritem := none,
    styleitem := none, requires := none, labelrequires := none, classgroup := none,
    type := .MS_LAYER_LINE, debug := 0, metadata := [], items := ["id", "name"],
    iteminfo := none, layerinfo := none }

/-- The outcome of msTclPlugLayerOpen on the example layer in a process
that has no interpreter yet. -/
def demoOpened : Status × World × layerObj :=
  (msTclPlugLayerOpen demoEnv {} demoLayer).getD (.MS_FAILURE, {}, demoLayer)

/-- The process state of the example after the layer is opened. -/
def demoWorld : World := demoOpened.2.1

/-- The layer of the example once opened. -/
def demoSession : layerObj := demoOpened.2.2

/-- The layerinfo of the example session: the interpreter at address 1 and
the seven command names at the addresses 0 to 6 of the object store. -/
def demoInfo : msTclPlugLayerInfo :=
  { interp := 1, rownum := 0, nrows := 0,
    layerOpenCommandObj := some 0, geoQueryCommandObj := some 1, getItemsCommandObj := some 2,
    getShapeCommandObj := some 3, getGeometryCommandObj := some 4,
    getAttributesCommandObj := some 5, layerCloseCommandObj := some 6 }

/-- The query rectangle of the example. -/
def demoRect : rectObj := { minx := 0, miny := 0, maxx := 10, maxy := 10 }

/-- The outcome of msTclPlugLayerWhichShapes on the example session. -/
def demoAsked : Status × World × layerObj :=
  (msTclPlugLayerWhichShapes demoEnv demoWorld demoSession demoRect).getD
    (.MS_FAILURE, demoWorld, demoSession)

/-- The process state of the example after the query. -/
def demoQueriedWorld : World := demoAsked.2.1

/-- The session of the example after the query, which announced two
rows. -/
def demoQueried : layerObj := demoAsked.2.2

/-- The layerinfo of the example session after the query. -/
def demoQueriedInfo : msTclPlugLayerInfo := { demoInfo with nrows := 2 }

/-- The example layer with the metadata entry namespace = ns. -/
def demoNsLayer : layerObj := { demoLayer with metadata := [("namespace", "ns")] }

/-- The outcome of msTclPlugLayerOpen on the layer with a namespace. -/
def demoNsOpened : Status × World × layerObj :=
  (msTclPlugLayerOpen demoEnv {} demoNsLayer).getD (.MS_FAILURE, {}, demoNsLayer)

/-- An empty shape, as msInitShape leaves it. -/
def demoShape : shapeObj :=
  { line := [], values := [], numvalues := 0,
    bounds := { minx := -1, miny := -1, maxx := -1, maxy := -1 },
    type := .MS_SHAPE_NULL, index := -1 }

/-- The example layer with an empty DATA string. -/
def demoEmptyDataLayer : layerObj := { demoLayer with data := some "" }

/-- The example layer without a DATA statement. -/
def demoNoDataLayer : layerObj := { demoLayer with data := none }

/-- The script of the example without a layer_open procedure: calling it
is an error, as Tcl reports for an unknown command. -/
def demoNoOpenHookScript (st : Interp) (c : Call) : TclCode × TclObj :=
  match c with
  | .Tcl_EvalObjv cmd [.string _] =>
    if cmd = "::layer_open" then (.TCL_ERROR, demoText "invalid command name \"::layer_open\"")
    else demoScript st c
  | _ => demoScript st c

/-- The Tcl side of the example without a layer_open procedure. -/
def demoNoOpenHookEnv : TclEnv := { demoEnv with script := demoNoOpenHookScript }

/-- The script of the example with a geo_query that answers with a word
that is not a number. -/
def demoBadCountScript (st : Interp) (c : Call) : TclCode × TclObj :=
  match c with
  | .Tcl_EvalObjv cmd [.stringList _] =>
    if cmd = "::geo_query" then (.TCL_OK, demoText "many") else demoScript st c
  | _ => demoScript st c

/-- The Tcl side of the example with the geo_query that answers "many". -/
def demoBadCountEnv : TclEnv := { demoEnv with script := demoBadCountScript }

/-- The script of the example with a geo_query that answers -1. -/
def demoNegativeCountScript (st : Interp) (c : Call) : TclCode × TclObj :=
  match c with
  | .Tcl_EvalObjv cmd [.stringList _] =>
    if cmd = "::geo_query" then (.TCL_OK, demoCount "-1" (-1)) else demoScript st c
  | _ => demoScript st c

/-- The Tcl side of the example with the geo_query that answers -1. -/
def demoNegativeCountEnv : TclEnv := { demoEnv with script := demoNegativeCountScript }

/-- The layer objects of the example process: the example session at every
address. -/
def demoLayers : Nat → layerObj := fun _ => demoSession

/-- The script of the example with a get_items that answers the two names
id and name. -/
def demoItemsScript (st : Interp) (c : Call) : TclCode × TclObj :=
  match c with
  | .Tcl_EvalObjEx cmd =>
    if cmd = "::get_items" then (.TCL_OK, demoList "id name" [demoText "id", demoText "name"])
    else demoScript st c
  | _ => demoScript st c

/-- The Tcl side of the example with the get_items that answers id and
name. -/
def demoItemsEnv : TclEnv := { demoEnv with script := demoItemsScript }

/-- The script of the example with a get_items that answers the empty
list. -/
def demoNoItemsScript (st : Interp) (c : Call) : TclCode × TclObj :=
  match c with
  | .Tcl_EvalObjEx cmd =>
    if cmd = "::get_items" then (.TCL_OK, demoList "" []) else demoScript st c
  | _ => demoScript st c

/-- The Tcl side of the example with the get_items that answers the empty
list. -/
def demoNoItemsEnv : TclEnv := { demoEnv with script := demoNoItemsScript }

/-- The example session with the index array of its two items in place. -/
def demoIndexed : layerObj := { demoSession with iteminfo := some [0, 1] }

/-- The Tcl side of the example with a library in which linking
`layerDebug` fails in an interpreter that has evaluated nothing yet, as a
newly created one, and succeeds in an interpreter that is in use. -/
def demoUnlinkableEnv : TclEnv :=
  { demoEnv with
    Tcl_LinkVar := fun st =>
      if st.history.isEmpty then (.TCL_ERROR, "can't set \"layerDebug\": variable is array")
      else (.TCL_OK, "") }

/-- A process embedded in an application that has its own interpreter, at
the address 0x7f10, in which the application has evaluated one command. -/
def demoHostWorld : World :=
  { interps := fun i =>
      if i = 32528 then
        { history := [{ call := .Tcl_Eval "package require Mapscript", forLayer := 0,
                        pluglayer := none }] }
      else {} }

/-- A second layer, whose metadata hands over the interpreter of the
application. -/
def demoRiversLayer : layerObj :=
  { demoLayer with addr := 2, name := some "rivers", metadata := [("interpreter", "7f10")] }

/-- The layer objects of the application: the layer with the handle at
address 2, the example layer elsewhere. -/
def demoTwoLayers : Nat → layerObj := fun p => if p = 2 then demoRiversLayer else demoLayer

/-- The geometry of a row with two parts, both empty. -/
def demoHollowGeometry : TclObj :=
  demoList "\x7b\x7d \x7b\x7d" [demoList "" [], demoList "" []]

/-- The script of the example with a get_geometry that answers two empty
parts for every row. -/
def demoHollowScript (st : Interp) (c : Call) : TclCode × TclObj :=
  match c with
  | .Tcl_EvalObjv cmd [.int _] =>
    if cmd = "::get_geometry" then (.TCL_OK, demoHollowGeometry) else demoScript st c
  | _ => demoScript st c

/-- The Tcl side of the example with the get_geometry that answers two
empty parts. -/
def demoHollowEnv : TclEnv := { demoEnv with script := demoHollowScript }

/-- The example session after its query with the row count 2^31. -/
def demoWide : layerObj :=
  { demoQueried with layerinfo := some { demoQueriedInfo with nrows := 2147483648 } }

/-- The example session after its query with the cursor at row 2^32. -/
def demoFar : layerObj :=
  { demoQueried with
    layerinfo := some { demoQueriedInfo with nrows := 4294967297, rownum := 4294967296 } }

/-- The Tcl side of the example with procedures that build their answer
anew on every call: the interpreter result holds the only reference to
it. -/
def demoFreshListEnv : TclEnv := { demoEnv with resultKept := fun _ _ => false }

/-- The Tcl side of the example with a connection script that unsets the
element uid of the array `layer`. -/
def demoClearingEnv : TclEnv :=
  { demoEnv with
    layerArray := fun st c =>
      match c with
      | .Tcl_Eval _ => st.layerArray.filter (fun kv => kv.1 != "uid")
      | _ => st.layerArray }

/-- The outcome of msTclPlugLayerGetShape for the row identifier 42 on the
example session after its query. -/
def demoIdentified : Status × World × layerObj × shapeObj :=
  (msTclPlugLayerGetShape demoEnv demoQueriedWorld demoQueried demoShape 0 42).getD
    (.MS_FAILURE, demoQueriedWorld, demoQueried, demoShape)

/-- The process state of the example after that msTclPlugLayerGetShape. -/
def demoIdentifiedWorld : World := demoIdentified.2.1

/-- The example session after its query, as an annotation layer. -/
def demoAnnotation : layerObj := { demoQueried with type := .MS_LAYER_ANNOTATION }

/-- The layerinfo of the example session with nine rows announced and the
cursor at row 5; the rows 5 and 6 have no geometry and row 7 has a part of
odd length. -/
def demoLongInfo : msTclPlugLayerInfo := { demoInfo with nrows := 9, rownum := 5 }

/-- The example session with nine rows and the cursor at row 5. -/
def demoLong : layerObj := { demoQueried with layerinfo := some demoLongInfo }

/-- A second layer, at address 2, with the metadata entry color = blue; it
names no interpreter, so it runs in the default one. -/
def demoLakes : layerObj :=
  { demoLayer with addr := 2, name := some "lakes", metadata := [("color", "blue")] }

/-- The outcome of msTclPlugLayerOpen on the second layer in the process
in which the example layer is open. -/
def demoLakesOpened : Status × World × layerObj :=
  (msTclPlugLayerOpen demoEnv demoWorld demoLakes).getD (.MS_FAILURE, demoWorld, demoLakes)

/-- The layerinfo of the session of the second layer: the interpreter at
address 1 and the command names at the addresses 7 to 13. -/
def demoLakesInfo : msTclPlugLayerInfo :=
  { interp := 1, rownum := 0, nrows := 0,
    layerOpenCommandObj := some 7, geoQueryCommandObj := some 8, getItemsCommandObj := some 9,
    getShapeCommandObj := some 10, getGeometryCommandObj := some 11,
    getAttributesCommandObj := some 12, layerCloseCommandObj := some 13 }

/-- A part of three elements. -/
def demoOddPart : TclObj :=
  demoList "5 6 7" [demoNumber "5" 5, demoNumber "6" 6, demoNumber "7" 7]

/-- The script of the example with a get_geometry that answers, for row 9,
the part of three elements alone. -/
def demoOddFirstScript (st : Interp) (c : Call) : TclCode × TclObj :=
  match c with
  | .Tcl_EvalObjv cmd [.int r] =>
    if cmd = "::get_geometry" ∧ r = 9 then (.TCL_OK, demoList "\x7b5 6 7\x7d" [demoOddPart])
    else demoScript st c
  | _ => demoScript st c

/-- The Tcl side of the example in which row 7 has the part of three
elements second and row 9 has it first. -/
def demoOddFirstEnv : TclEnv := { demoEnv with script := demoOddFirstScript }

/-- Split a list of characters at every occurrence of `ch`; `cur` holds the
characters of the current token, last first. -/
def demoSplitChars (ch : Char) : List Char → List Char → List String
  | [], cur => [String.mk cur.reverse]
  | c :: cs, cur =>
    if c = ch then String.mk cur.reverse :: demoSplitChars ch cs []
    else demoSplitChars ch cs (c :: cur)

/-- The MapServer side of the example: strings are split at every
delimiter, every time string has the resolution day, freeing an expression
leaves the empty one, and loading a text gives the expression with that
text. -/
def demoMapEnv : MapEnv :=
  { msStringSplit := fun s ch => some (demoSplitChars ch s.toList []),
    msTimeGetResolution := fun _ => .TIME_RESOLUTION_DAY,
    freeExpression := fun _ => {},
    loadExpressionString := fun _ text => { string := some text, type := .MS_EXPRESSION } }

/-- The example layer with the expression filter speed > 10. -/
def demoFiltered : layerObj :=
  { demoLayer with filter := { string := some "speed > 10", type := .MS_EXPRESSION } }

/-- The script of the example with a get_shape that answers 5 instead
of 0. -/
def demoOtherShapeScript (st : Interp) (c : Call) : TclCode × TclObj :=
  match c with
  | .Tcl_EvalObjEx cmd =>
    if cmd = "::get_shape" then (.TCL_OK, demoCount "5" 5) else demoScript st c
  | _ => demoScript st c

/-- The Tcl side of the example with the get_shape that answers 5. -/
def demoOtherShapeEnv : TclEnv := { demoEnv with script := demoOtherShapeScript }

/-! # Theorems -/

/-! ## State bookkeeping -/

theorem longToInt_of_lt (n : Int) (h0 : -2147483648 ≤ n) (h1 : n < 2147483648) :
    longToInt n = n := by
  unfold longToInt
  omega

@[simp] theorem longToInt_zero : longToInt 0 = 0 := by decide

theorem longToInt_range (n : Int) : -2147483648 ≤ longToInt n ∧ longToInt n < 2147483648 := by
  unfold longToInt
  omega

@[simp] theorem setInterp_interps_same (w : World) (i : Int) (st : Interp) :
    (w.setInterp i st).interps i = st := by
  simp [World.setInterp]

theorem setInterp_interps_other (w : World) (i j : Int) (st : Interp) (h : j ≠ i) :
    (w.setInterp i st).interps j = w.interps j := by
  simp [World.setInterp, Function.update_noteq h]

@[simp] theorem setInterp_objs (w : World) (i : Int) (st : Interp) :
    (w.setInterp i st).objs = w.objs := rfl

@[simp] theorem setInterp_errors (w : World) (i : Int) (st : Interp) :
    (w.setInterp i st).errors = w.errors := rfl

@[simp] theorem setInterp_global (w : World) (i : Int) (st : Interp) :
    (w.setInterp i st).tclplug_global_interp = w.tclplug_global_interp := rfl

@[simp] theorem incrRefCount_interps (w : World) (p : Nat) :
    (Tcl_IncrRefCount w p).interps = w.interps := rfl

@[simp] theorem incrRefCount_errors (w : World) (p : Nat) :
    (Tcl_IncrRefCount w p).errors = w.errors := rfl

@[simp] theorem incrRefCount_global (w : World) (p : Nat) :
    (Tcl_IncrRefCount w p).tclplug_global_interp = w.tclplug_global_interp := rfl

@[simp] theorem incrRefCount_bytes (w : World) (p q : Nat) :
    ((Tcl_IncrRefCount w p).objs q).bytes = (w.objs q).bytes := by
  by_cases h : q = p
  · subst h; simp [Tcl_IncrRefCount]
  · simp [Tcl_IncrRefCount, Function.update_noteq h]

@[simp] theorem incrRefCount_calls (w : World) (p : Nat) (i : Int) :
    (Tcl_IncrRefCount w p).calls i = w.calls i := rfl

@[simp] theorem logCall_objs (w : World) (env : TclEnv) (i : Int) (f : Nat) (c : Call) (r : String) :
    (w.logCall env i f c r).objs = w.objs := rfl

@[simp] theorem logCall_errors (w : World) (env : TclEnv) (i : Int) (f : Nat) (c : Call) (r : String) :
    (w.logCall env i f c r).errors = w.errors := rfl

@[simp] theorem logCall_global (w : World) (env : TclEnv) (i : Int) (f : Nat) (c : Call) (r : String) :
    (w.logCall env i f c r).tclplug_global_interp = w.tclplug_global_interp := rfl

@[simp] theorem logCall_calls (w : World) (env : TclEnv) (i : Int) (f : Nat) (c : Call) (r : String) :
    (w.logCall env i f c r).calls i = w.calls i ++ [c] := by
  simp [World.logCall, World.calls]

theorem logCall_calls_other (w : World) (env : TclEnv) (i j : Int) (f : Nat) (c : Call) (r : String)
    (h : j ≠ i) : (w.logCall env i f c r).calls j = w.calls j := by
  simp [World.logCall, World.calls, setInterp_interps_other _ _ _ _ h]

@[simp] theorem logCall_result (w : World) (env : TclEnv) (i : Int) (f : Nat) (c : Call) (r : String) :
    ((w.logCall env i f c r).interps i).result = r := by
  simp [World.logCall]

@[simp] theorem addErrorInfo_objs (w : World) (i : Int) (m : String) :
    (Tcl_AddErrorInfo w i m).objs = w.objs := rfl

@[simp] theorem addErrorInfo_errors (w : World) (i : Int) (m : String) :
    (Tcl_AddErrorInfo w i m).errors = w.errors := rfl

@[simp] theorem addErrorInfo_calls (w : World) (i j : Int) (m : String) :
    (Tcl_AddErrorInfo w i m).calls j = w.calls j := by
  by_cases h : j = i
  · subst h; simp [Tcl_AddErrorInfo, World.calls]
  · simp [Tcl_AddErrorInfo, World.calls, setInterp_interps_other _ _ _ _ h]

@[simp] theorem addErrorInfo_result (w : World) (i : Int) (m : String) :
    ((Tcl_AddErrorInfo w i m).interps i).result = (w.interps i).result := by
  simp [Tcl_AddErrorInfo]

@[simp] theorem backgroundError_objs (w : World) (i : Int) :
    (Tcl_BackgroundError w i).objs = w.objs := rfl

@[simp] theorem backgroundError_errors (w : World) (i : Int) :
    (Tcl_BackgroundError w i).errors = w.errors := rfl

@[simp] theorem backgroundError_calls (w : World) (i j : Int) :
    (Tcl_BackgroundError w i).calls j = w.calls j := by
  by_cases h : j = i
  · subst h; simp [Tcl_BackgroundError, World.calls]
  · simp [Tcl_BackgroundError, World.calls, setInterp_interps_other _ _ _ _ h]

@[simp] theorem setObjResult_objs (w : World) (i : Int) (m : String) :
    (Tcl_SetObjResult w i m).objs = w.objs := rfl

@[simp] theorem setObjResult_errors (w : World) (i : Int) (m : String) :
    (Tcl_SetObjResult w i m).errors = w.errors := rfl

@[simp] theorem setObjResult_calls (w : World) (i j : Int) (m : String) :
    (Tcl_SetObjResult w i m).calls j = w.calls j := by
  by_cases h : j = i
  · subst h; simp [Tcl_SetObjResult, World.calls]
  · simp [Tcl_SetObjResult, World.calls, setInterp_interps_other _ _ _ _ h]

@[simp] theorem setObjResult_result (w : World) (i : Int) (m : String) :
    ((Tcl_SetObjResult w i m).interps i).result = m := by
  simp [Tcl_SetObjResult]

@[simp] theorem msSetError_objs (w : World) (c : MS_ERRCODE) (m r : String) (args : List ErrArg) :
    (msSetError w c m r args).objs = w.objs := rfl

@[simp] theorem msSetError_interps (w : World) (c : MS_ERRCODE) (m r : String)
    (args : List ErrArg) : (msSetError w c m r args).interps = w.interps := rfl

@[simp] theorem msSetError_calls (w : World) (c : MS_ERRCODE) (m r : String)
    (args : List ErrArg) (i : Int) : (msSetError w c m r args).calls i = w.calls i := rfl

@[simp] theorem msSetError_errors (w : World) (c : MS_ERRCODE) (m r : String)
    (args : List ErrArg) :
    (msSetError w c m r args).errors
      = w.errors ++ [{ code := c, message := m, routine := r, args := args }] := rfl

theorem reportGeometryError_calls (w w' : World) (i j : Int) (e : GeometryError)
    (h : reportGeometryError w i e = some w') : w'.calls j = w.calls j := by
  rcases e with m | p | (m | m)
  · simp only [reportGeometryError, Option.some.injEq] at h
    rw [← h]; simp
  · simp only [reportGeometryError] at h
    split at h
    · cases h
    · simp only [Option.some.injEq] at h
      rw [← h]; simp
  · simp only [reportGeometryError, Option.some.injEq] at h
    rw [← h]; simp
  · simp only [reportGeometryError, Option.some.injEq] at h
    rw [← h]; simp

theorem reportGeometryError_objs (w w' : World) (i : Int) (e : GeometryError)
    (h : reportGeometryError w i e = some w') : w'.objs = w.objs := by
  rcases e with m | p | (m | m)
  · simp only [reportGeometryError, Option.some.injEq] at h
    rw [← h]; simp
  · simp only [reportGeometryError] at h
    split at h
    · cases h
    · simp only [Option.some.injEq] at h
      rw [← h]; simp
  · simp only [reportGeometryError, Option.some.injEq] at h
    rw [← h]; simp
  · simp only [reportGeometryError, Option.some.injEq] at h
    rw [← h]; simp

/-- The reports of a failing part are made and the function goes on to
return, unless the part has odd length and the answer list was referenced by
the interpreter result only. -/
theorem reportGeometryError_returns (w : World) (i : Int) (e : GeometryError)
    (hk : (w.interps i).resultKept = true ∨ ∀ p, e ≠ .odd p) :
    ∃ w', reportGeometryError w i e = some w' := by
  rcases e with m | p | (m | m)
  · exact ⟨_, rfl⟩
  · rcases hk with hk | hk
    · simp only [reportGeometryError, hk, Bool.not_true, Bool.false_eq_true, if_false]
      exact ⟨_, rfl⟩
    · exact absurd rfl (hk p)
  · exact ⟨_, rfl⟩
  · exact ⟨_, rfl⟩

theorem tclEval_eq (env : TclEnv) (w : World) (i : Int) (f : Nat) (c : Call)
    (code : TclCode) (obj : TclObj) (h : env.script (w.interps i) c = (code, obj)) :
    tclEval env w i f c = (code, obj, w.logCall env i f c (Tcl_GetString obj)) := by
  simp [tclEval, h]

/-! ## Steps of msTclPlugReadShape -/

theorem readShape_of_list (env : TclEnv) (w : World) (layer : layerObj)
    (li : msTclPlugLayerInfo) (g : Nat) (shape : shapeObj) (geo : TclObj) (parts : List TclObj)
    (hli : layer.layerinfo = some li) (hi : li.interp ≠ 0)
    (hg : li.getGeometryCommandObj = some g)
    (hgeo : env.script (w.interps li.interp) (.Tcl_EvalObjv (w.objs g).bytes [.int (longToInt li.rownum)])
      = (.TCL_OK, geo))
    (hparts : Tcl_ListObjGetElements geo = .ok parts) :
    msTclPlugReadShape env w layer shape =
      shapeFromGeometry env
        ((Tcl_IncrRefCount w g).logCall env li.interp layer.addr
          (.Tcl_EvalObjv (w.objs g).bytes [.int (longToInt li.rownum)]) (Tcl_GetString geo))
        layer li parts shape := by
  have he := tclEval_eq env (Tcl_IncrRefCount w g) li.interp layer.addr
    (.Tcl_EvalObjv (w.objs g).bytes [.int (longToInt li.rownum)]) .TCL_OK geo (by simpa using hgeo)
  simp only [msTclPlugReadShape, hli, hi, hg, incrRefCount_bytes, he]
  simp [hparts]

theorem readAttributes_of_list (env : TclEnv) (w : World) (layer : layerObj)
    (li : msTclPlugLayerInfo) (a : Nat) (shape : shapeObj) (attrs : TclObj) (l : List TclObj)
    (ha : li.getAttributesCommandObj = some a)
    (hs : env.script (w.interps li.interp) (.Tcl_EvalObjv (w.objs a).bytes [.int (longToInt li.rownum)])
      = (.TCL_OK, attrs))
    (hl : Tcl_ListObjGetElements attrs = .ok l)
    (hn : (l.length : Int) = layer.numitems) :
    readAttributes env w layer li shape =
      some (.MS_SUCCESS,
        (Tcl_IncrRefCount w a).logCall env li.interp layer.addr
          (.Tcl_EvalObjv (w.objs a).bytes [.int (longToInt li.rownum)]) (Tcl_GetString attrs),
        find_bounds { shape with values := l.map Tcl_GetString, index := li.rownum,
                                 numvalues := layer.numitems }) := by
  have he := tclEval_eq env (Tcl_IncrRefCount w a) li.interp layer.addr
    (.Tcl_EvalObjv (w.objs a).bytes [.int (longToInt li.rownum)]) .TCL_OK attrs (by simpa using hs)
  simp only [readAttributes, ha, incrRefCount_bytes, he]
  simp [hl, hn]

/-! ## Reading one part -/

theorem readPairs_of_coords (pts : List pointObj) :
    ∀ es : List TclObj, es.map Tcl_GetDoubleFromObj = (coordsOf pts).map Except.ok →
      readPairs es = .ok pts := by
  induction pts with
  | nil =>
    intro es h
    have : es = [] := by simpa [coordsOf] using h
    subst this
    simp [readPairs]
  | cons p ps ih =>
    intro es h
    match es, h with
    | a :: b :: rest, h =>
      simp only [coordsOf, List.foldr_cons, List.map_cons, List.cons.injEq] at h
      obtain ⟨ha, hb, hrest⟩ := h
      have := ih rest (by simpa [coordsOf] using hrest)
      simp [readPairs, ha, hb, this]
    | [a], h => simp [coordsOf] at h
    | [], h => simp [coordsOf] at h

theorem coordsOf_length (pts : List pointObj) : (coordsOf pts).length = 2 * pts.length := by
  induction pts with
  | nil => simp [coordsOf]
  | cons p ps ih =>
    simp only [coordsOf, List.foldr_cons, List.length_cons] at ih ⊢
    omega

theorem readGeometry_of_parts (parts : List TclObj) :
    ∀ (pts : List (List pointObj)) (shape : shapeObj) (have_ : Bool),
      List.Forall₂ TclObj.holdsPoints parts pts → (∀ p ∈ pts, p ≠ []) →
      readGeometry parts shape have_ =
        .ok ({ shape with line := shape.line ++ pts.map (fun p => { point := p }) },
             have_ || !pts.isEmpty) := by
  induction parts with
  | nil =>
    intro pts shape hv h _
    cases h
    simp [readGeometry]
  | cons part rest ih =>
    intro pts shape hv h hne
    cases h with
    | cons hp hrest =>
      rename_i p ps
      obtain ⟨es, hes, hco⟩ := hp
      have hlen : es.length = 2 * p.length := by
        have := congrArg List.length hco
        simpa [coordsOf_length] using this
      have hp0 : p ≠ [] := hne p (by simp)
      have hplen : 0 < p.length := List.length_pos.mpr hp0
      have h1 : es.length ≠ 0 := by omega
      have h2 : ¬ es.length % 2 = 1 := by omega
      have hrp := readPairs_of_coords p es hco
      have := ih ps (msAddLine shape { point := p }) true hrest
        (fun q hq => hne q (by simp [hq]))
      simp only [msAddLine] at this
      simp [readGeometry, hes, h1, h2, hrp, this, msAddLine]

theorem foldl_lines_eq_points (f : Bool × rectObj → pointObj → Bool × rectObj)
    (lines : List lineObj) :
    ∀ st, lines.foldl (fun st l => l.point.foldl f st) st =
      (lines.foldr (fun l acc => l.point ++ acc) []).foldl f st := by
  induction lines with
  | nil => intro st; rfl
  | cons l ls ih =>
    intro st
    simp [List.foldl_append, ih]

theorem find_bounds_point_inv (b : rectObj) (seen : List pointObj) (p : pointObj)
    (h : b.isBoundsOf seen) :
    (find_bounds_point (false, b) p).1 = false ∧
      (find_bounds_point (false, b) p).2.isBoundsOf (seen ++ [p]) := by
  obtain ⟨hall, ⟨a1, ha1, e1⟩, ⟨a2, ha2, e2⟩, ⟨a3, ha3, e3⟩, ⟨a4, ha4, e4⟩⟩ := h
  refine ⟨rfl, ?_, ?_, ?_, ?_, ?_⟩
  · intro q hq
    rcases List.mem_append.mp hq with hq | hq
    · obtain ⟨h1, h2, h3, h4⟩ := hall q hq
      simp only [find_bounds_point, Bool.false_eq_true, if_false]
      refine ⟨?_, ?_, ?_, ?_⟩ <;> split_ifs <;> linarith
    · have : q = p := by simpa using hq
      subst this
      simp only [find_bounds_point, Bool.false_eq_true, if_false]
      refine ⟨?_, ?_, ?_, ?_⟩ <;> split_ifs <;> linarith
  · simp only [find_bounds_point, Bool.false_eq_true, if_false]
    split_ifs
    · exact ⟨p, by simp, rfl⟩
    · exact ⟨a1, by simp [ha1], e1⟩
  · simp only [find_bounds_point, Bool.false_eq_true, if_false]
    split_ifs
    · exact ⟨p, by simp, rfl⟩
    · exact ⟨a2, by simp [ha2], e2⟩
  · simp only [find_bounds_point, Bool.false_eq_true, if_false]
    split_ifs
    · exact ⟨p, by simp, rfl⟩
    · exact ⟨a3, by simp [ha3], e3⟩
  · simp only [find_bounds_point, Bool.false_eq_true, if_false]
    split_ifs
    · exact ⟨p, by simp, rfl⟩
    · exact ⟨a4, by simp [ha4], e4⟩

theorem foldl_find_bounds_inv (l : List pointObj) :
    ∀ (b : rectObj) (seen : List pointObj), b.isBoundsOf seen →
      (l.foldl find_bounds_point (false, b)).2.isBoundsOf (seen ++ l) := by
  induction l with
  | nil => intro b seen h; simpa using h
  | cons p ps ih =>
    intro b seen h
    obtain ⟨h1, h2⟩ := find_bounds_point_inv b seen p h
    have hst : find_bounds_point (false, b) p = (false, (find_bounds_point (false, b) p).2) :=
      Prod.ext h1 rfl
    have := ih _ _ h2
    rw [List.foldl_cons, hst]
    simpa using this

theorem find_bounds_isBoundsOf (shape : shapeObj) (h : shape.points ≠ []) :
    (find_bounds shape).bounds.isBoundsOf shape.points := by
  unfold find_bounds
  simp only
  rw [foldl_lines_eq_points]
  change (shape.points.foldl find_bounds_point (true, shape.bounds)).2.isBoundsOf shape.points
  cases hp : shape.points with
  | nil => exact absurd hp h
  | cons p ps =>
    rw [List.foldl_cons]
    have h0 : find_bounds_point (true, shape.bounds) p
        = (false, { minx := p.x, maxx := p.x, miny := p.y, maxy := p.y }) := by
      simp [find_bounds_point]
    rw [h0]
    have hinit : rectObj.isBoundsOf { minx := p.x, maxx := p.x, miny := p.y, maxy := p.y } [p] := by
      refine ⟨?_, ⟨p, by simp, rfl⟩, ⟨p, by simp, rfl⟩, ⟨p, by simp, rfl⟩, ⟨p, by simp, rfl⟩⟩
      intro q hq
      have : q = p := by simpa using hq
      subst this
      simp
    simpa using foldl_find_bounds_inv ps _ [p] hinit

@[simp] theorem find_bounds_line (shape : shapeObj) : (find_bounds shape).line = shape.line := rfl
@[simp] theorem find_bounds_type (shape : shapeObj) : (find_bounds shape).type = shape.type := rfl
@[simp] theorem find_bounds_index (shape : shapeObj) : (find_bounds shape).index = shape.index := rfl
@[simp] theorem find_bounds_values (shape : shapeObj) : (find_bounds shape).values = shape.values := rfl
@[simp] theorem find_bounds_points (shape : shapeObj) : (find_bounds shape).points = shape.points := rfl

/-! ## What every fetch does to the world -/


theorem readAttributes_total (env : TclEnv) (w : World) (layer : layerObj)
    (li : msTclPlugLayerInfo) (a : Nat) (shape : shapeObj)
    (ha : li.getAttributesCommandObj = some a) :
    ∃ rv w' shape', readAttributes env w layer li shape = some (rv, w', shape') ∧
      (rv = .MS_SUCCESS ∨ rv = .MS_FAILURE) ∧
      w'.calls li.interp = w.calls li.interp ++ [.Tcl_EvalObjv (w.objs a).bytes [.int (longToInt li.rownum)]] ∧
      (∀ j, j ≠ li.interp → w'.calls j = w.calls j) ∧
      (∀ p, (w'.objs p).bytes = (w.objs p).bytes) ∧
      shape'.type = shape.type ∧ shape'.line = shape.line ∧
      (rv = .MS_SUCCESS → shape'.index = li.rownum) := by
  rcases hsc : env.script (w.interps li.interp)
    (.Tcl_EvalObjv (w.objs a).bytes [.int (longToInt li.rownum)]) with ⟨code, obj⟩
  have he := tclEval_eq env (Tcl_IncrRefCount w a) li.interp layer.addr
    (.Tcl_EvalObjv (w.objs a).bytes [.int (longToInt li.rownum)]) code obj (by simpa using hsc)
  have hother : ∀ j, j ≠ li.interp →
      (World.logCall (Tcl_IncrRefCount w a) env li.interp layer.addr
        (.Tcl_EvalObjv (w.objs a).bytes [.int (longToInt li.rownum)]) (Tcl_GetString obj)).calls j
        = w.calls j := fun j hj => by simp [logCall_calls_other _ _ _ _ _ _ _ hj]
  simp only [readAttributes, ha, incrRefCount_bytes, he]
  cases code with
  | TCL_ERROR =>
    refine ⟨_, _, _, rfl, Or.inr rfl, by simp, ?_, by simp, rfl, rfl, by simp⟩
    intro j hj; simpa using hother j hj
  | TCL_OK =>
    cases hl : Tcl_ListObjGetElements obj with
    | error m =>
      refine ⟨_, _, _, rfl, Or.inr rfl, by simp, ?_, by simp, rfl, rfl, by simp⟩
      intro j hj; simpa using hother j hj
    | ok l =>
      by_cases hn : layer.numitems = (l.length : Int)
      · simp only [reduceCtorEq, if_false, hn, ne_eq, not_true_eq_false]
        refine ⟨_, _, _, rfl, Or.inl rfl, by simp, ?_, by simp, rfl, rfl, by simp⟩
        intro j hj; simpa using hother j hj
      · simp only [reduceCtorEq, if_false, hn, ne_eq, not_false_eq_true, if_true]
        refine ⟨_, _, _, rfl, Or.inr rfl, by simp, ?_, by simp, rfl, rfl, by simp⟩
        intro j hj; simpa using hother j hj

theorem readGeometry_type (parts : List TclObj) :
    ∀ (shape shape' : shapeObj) (hv hv' : Bool),
      readGeometry parts shape hv = .ok (shape', hv') → shape'.type = shape.type := by
  induction parts with
  | nil =>
    intro s s' hv hv' h
    simp only [readGeometry, Except.ok.injEq, Prod.mk.injEq] at h
    rw [← h.1]
  | cons part rest ih =>
    intro s s' hv hv' h
    simp only [readGeometry] at h
    split at h
    · cases h
    · split at h
      · exact ih _ _ _ _ h
      · split at h
        · cases h
        · split at h
          · cases h
          · have := ih _ _ _ _ h
            simpa [msAddLine] using this

/-- The geometry half returns, unless a part of odd length is met while the
answer list is referenced by the interpreter result only; when it returns,
the status is MS_SUCCESS or MS_FAILURE and the only call it may have made is
the get_attributes one. -/
theorem shapeFromGeometry_cases (env : TclEnv) (w : World) (layer : layerObj)
    (li : msTclPlugLayerInfo) (a : Nat) (parts : List TclObj) (shape : shapeObj)
    (ha : li.getAttributesCommandObj = some a) :
    (shapeFromGeometry env w layer li parts shape = none ∧
      (w.interps li.interp).resultKept = false ∧
      ∃ s part t, readGeometry parts s false = .error (.odd part, t)) ∨
    ∃ rv w' shape', shapeFromGeometry env w layer li parts shape = some (rv, w', shape') ∧
      (rv = .MS_SUCCESS ∨ rv = .MS_FAILURE) ∧
      (∃ rest, w'.calls li.interp = w.calls li.interp ++ rest ∧
        (rest = [] ∨ rest = [.Tcl_EvalObjv (w.objs a).bytes [.int (longToInt li.rownum)]])) ∧
      (∀ j, j ≠ li.interp → w'.calls j = w.calls j) ∧
      (∀ p, (w'.objs p).bytes = (w.objs p).bytes) ∧
      (rv = .MS_SUCCESS → shape'.type ≠ .MS_SHAPE_NULL → shape'.index = li.rownum) := by
  unfold shapeFromGeometry
  simp only
  split
  · rename_i e s heq
    cases hrep : reportGeometryError w li.interp e with
    | none =>
      left
      refine ⟨rfl, ?_, ?_⟩
      · rcases e with m | p | (m | m)
        · cases hrep
        · simp only [reportGeometryError] at hrep
          split at hrep
          · rename_i hk
            simpa using hk
          · cases hrep
        · cases hrep
        · cases hrep
      · rcases e with m | p | (m | m)
        · cases hrep
        · exact ⟨_, p, s, heq⟩
        · cases hrep
        · cases hrep
    | some w2 =>
      right
      have hc := fun j => reportGeometryError_calls w w2 li.interp j e hrep
      have ho := reportGeometryError_objs w w2 li.interp e hrep
      exact ⟨_, _, _, rfl, Or.inr rfl, ⟨[], by simp [hc], Or.inl rfl⟩, fun j _ => hc j,
        by simp [ho], by simp⟩
  · right
    rename_i s hv heq
    generalize (if (!hv) = true then { s with type := MS_SHAPE_TYPE.MS_SHAPE_NULL } else s) = s2
    by_cases hty : s2.type = .MS_SHAPE_NULL
    · simp only [hty, ne_eq, not_true_eq_false, if_false]
      refine ⟨_, _, _, rfl, Or.inl rfl, ⟨[], by simp, Or.inl rfl⟩, by simp, by simp, ?_⟩
      intro _ h
      exact absurd hty h
    · simp only [hty, ne_eq, not_false_eq_true, if_true]
      obtain ⟨rv, w', s', hr, hrv, hc, ho, hb, _, _, hidx⟩ :=
        readAttributes_total env w layer li a s2 ha
      exact ⟨rv, w', s', hr, hrv, ⟨_, hc, Or.inr rfl⟩, ho, hb, fun h _ => hidx h⟩

/-- A fetch returns, unless a part of odd length is met while the answer of
get_geometry is referenced by the interpreter result only; when it returns,
the status is MS_SUCCESS or MS_FAILURE, the first call it made is the
get_geometry one and the only other call it may have made is the
get_attributes one. -/
theorem readShape_cases (env : TclEnv) (w : World) (layer : layerObj)
    (li : msTclPlugLayerInfo) (g a : Nat) (shape : shapeObj)
    (hli : layer.layerinfo = some li) (hi : li.interp ≠ 0)
    (hg : li.getGeometryCommandObj = some g) (ha : li.getAttributesCommandObj = some a) :
    (msTclPlugReadShape env w layer shape = none ∧
      env.resultKept (w.interps li.interp)
        (.Tcl_EvalObjv (w.objs g).bytes [.int (longToInt li.rownum)]) = false) ∨
    ∃ rv w' shape', msTclPlugReadShape env w layer shape = some (rv, w', shape') ∧
      (rv = .MS_SUCCESS ∨ rv = .MS_FAILURE) ∧
      (∃ rest, w'.calls li.interp
          = w.calls li.interp ++ [.Tcl_EvalObjv (w.objs g).bytes [.int (longToInt li.rownum)]] ++ rest ∧
        (rest = [] ∨ rest = [.Tcl_EvalObjv (w.objs a).bytes [.int (longToInt li.rownum)]])) ∧
      (∀ j, j ≠ li.interp → w'.calls j = w.calls j) ∧
      (∀ p, (w'.objs p).bytes = (w.objs p).bytes) ∧
      (rv = .MS_SUCCESS → shape'.type ≠ .MS_SHAPE_NULL → shape'.index = li.rownum) := by
  rcases hsc : env.script (w.interps li.interp)
    (.Tcl_EvalObjv (w.objs g).bytes [.int (longToInt li.rownum)]) with ⟨code, obj⟩
  have he := tclEval_eq env (Tcl_IncrRefCount w g) li.interp layer.addr
    (.Tcl_EvalObjv (w.objs g).bytes [.int (longToInt li.rownum)]) code obj (by simpa using hsc)
  have hother : ∀ j, j ≠ li.interp →
      (World.logCall (Tcl_IncrRefCount w g) env li.interp layer.addr
        (.Tcl_EvalObjv (w.objs g).bytes [.int (longToInt li.rownum)]) (Tcl_GetString obj)).calls j
        = w.calls j := fun j hj => by simp [logCall_calls_other _ _ _ _ _ _ _ hj]
  simp only [msTclPlugReadShape, hli, hi, hg, incrRefCount_bytes, he, if_false]
  cases code with
  | TCL_ERROR =>
    right
    refine ⟨_, _, _, rfl, Or.inr rfl, ⟨[], by simp, Or.inl rfl⟩, ?_, by simp, by simp⟩
    intro j hj; simpa using hother j hj
  | TCL_OK =>
    cases hl : Tcl_ListObjGetElements obj with
    | error m =>
      right
      refine ⟨_, _, _, rfl, Or.inr rfl, ⟨[], by simp, Or.inl rfl⟩, ?_, by simp, by simp⟩
      intro j hj; simpa using hother j hj
    | ok parts =>
      simp only [reduceCtorEq, if_false]
      rcases shapeFromGeometry_cases env
          (World.logCall (Tcl_IncrRefCount w g) env li.interp layer.addr
            (.Tcl_EvalObjv (w.objs g).bytes [.int (longToInt li.rownum)]) (Tcl_GetString obj))
          layer li a parts shape ha with
        ⟨hnone, hk, _⟩ | ⟨rv, w', s', hr, hrv, ⟨rest, hc, hrest⟩, ho, hb, hidx⟩
      · left
        refine ⟨hnone, ?_⟩
        simpa [World.logCall] using hk
      · right
        refine ⟨rv, w', s', hr, hrv, ⟨rest, ?_, ?_⟩, ?_, ?_, hidx⟩
        · rw [hc]; simp
        · simpa using hrest
        · intro j hj; rw [ho j hj]; exact hother j hj
        · intro p; rw [hb p]; simp

/-- What a fetch that returns has done. -/
theorem readShape_props (env : TclEnv) (w w' : World) (layer : layerObj)
    (li : msTclPlugLayerInfo) (g a : Nat) (shape shape' : shapeObj) (rv : Status)
    (hli : layer.layerinfo = some li) (hi : li.interp ≠ 0)
    (hg : li.getGeometryCommandObj = some g) (ha : li.getAttributesCommandObj = some a)
    (h : msTclPlugReadShape env w layer shape = some (rv, w', shape')) :
    (rv = .MS_SUCCESS ∨ rv = .MS_FAILURE) ∧
    (∃ rest, w'.calls li.interp
        = w.calls li.interp ++ [.Tcl_EvalObjv (w.objs g).bytes [.int (longToInt li.rownum)]] ++ rest ∧
      (rest = [] ∨ rest = [.Tcl_EvalObjv (w.objs a).bytes [.int (longToInt li.rownum)]])) ∧
    (∀ j, j ≠ li.interp → w'.calls j = w.calls j) ∧
    (∀ p, (w'.objs p).bytes = (w.objs p).bytes) ∧
    (rv = .MS_SUCCESS → shape'.type ≠ .MS_SHAPE_NULL → shape'.index = li.rownum) := by
  rcases readShape_cases env w layer li g a shape hli hi hg ha with
    ⟨hnone, _⟩ | ⟨rv2, w2, s2, hr, hrest⟩
  · rw [hnone] at h; cases h
  · rw [hr] at h
    simp only [Option.some.injEq, Prod.mk.injEq] at h
    obtain ⟨h1, h2, h3⟩ := h
    subst h1 h2 h3
    exact hrest

/-- A fetch whose get_geometry answer is referenced from elsewhere than the
interpreter result returns. -/
theorem readShape_total (env : TclEnv) (w : World) (layer : layerObj)
    (li : msTclPlugLayerInfo) (g a : Nat) (shape : shapeObj)
    (hli : layer.layerinfo = some li) (hi : li.interp ≠ 0)
    (hg : li.getGeometryCommandObj = some g) (ha : li.getAttributesCommandObj = some a)
    (hk : env.resultKept (w.interps li.interp)
      (.Tcl_EvalObjv (w.objs g).bytes [.int (longToInt li.rownum)]) = true) :
    ∃ rv w' shape', msTclPlugReadShape env w layer shape = some (rv, w', shape') ∧
      (rv = .MS_SUCCESS ∨ rv = .MS_FAILURE) ∧
      (∃ rest, w'.calls li.interp
          = w.calls li.interp ++ [.Tcl_EvalObjv (w.objs g).bytes [.int (longToInt li.rownum)]] ++ rest ∧
        (rest = [] ∨ rest = [.Tcl_EvalObjv (w.objs a).bytes [.int (longToInt li.rownum)]])) ∧
      (∀ j, j ≠ li.interp → w'.calls j = w.calls j) ∧
      (∀ p, (w'.objs p).bytes = (w.objs p).bytes) ∧
      (rv = .MS_SUCCESS → shape'.type ≠ .MS_SHAPE_NULL → shape'.index = li.rownum) := by
  rcases readShape_cases env w layer li g a shape hli hi hg ha with ⟨_, hf⟩ | h
  · rw [hk] at hf; cases hf
  · exact h

/-! ## Two fetches of the same row -/

theorem readGeometry_rel (parts : List TclObj) :
    ∀ (s1 s2 : shapeObj) (hv : Bool),
      (∃ e t1 t2, readGeometry parts s1 hv = .error (e, t1) ∧
        readGeometry parts s2 hv = .error (e, t2)) ∨
      (∃ t1 t2 hv', readGeometry parts s1 hv = .ok (t1, hv') ∧
        readGeometry parts s2 hv = .ok (t2, hv') ∧ t1.type = s1.type ∧ t2.type = s2.type) := by
  induction parts with
  | nil =>
    intro s1 s2 hv
    exact Or.inr ⟨s1, s2, hv, rfl, rfl, rfl, rfl⟩
  | cons part rest ih =>
    intro s1 s2 hv
    cases hl : Tcl_ListObjGetElements part with
    | error m =>
      exact Or.inl ⟨.sublist m, s1, s2, by simp [readGeometry, hl], by simp [readGeometry, hl]⟩
    | ok pairs =>
      by_cases h0 : pairs.length = 0
      · simpa [readGeometry, hl, h0] using ih s1 s2 hv
      · by_cases h1 : pairs.length % 2 = 1
        · exact Or.inl ⟨.odd (Tcl_GetString part), s1, s2, by simp [readGeometry, hl, h0, h1],
            by simp [readGeometry, hl, h0, h1]⟩
        · cases hr : readPairs pairs with
          | error e =>
            exact Or.inl ⟨.coord e, s1, s2, by simp [readGeometry, hl, h0, h1, hr],
              by simp [readGeometry, hl, h0, h1, hr]⟩
          | ok points =>
            have := ih (msAddLine s1 { point := points }) (msAddLine s2 { point := points }) true
            simpa [readGeometry, hl, h0, h1, hr, msAddLine] using this

theorem readAttributes_shape_indep (env : TclEnv) (w : World) (layer : layerObj)
    (li : msTclPlugLayerInfo) (a : Nat) (s1 s2 : shapeObj)
    (ha : li.getAttributesCommandObj = some a) :
    ∃ rv w' t1 t2,
      readAttributes env w layer li s1 = some (rv, w', t1) ∧
      readAttributes env w layer li s2 = some (rv, w', t2) ∧
      t1.type = s1.type ∧ t2.type = s2.type := by
  rcases hsc : env.script (w.interps li.interp)
    (.Tcl_EvalObjv (w.objs a).bytes [.int (longToInt li.rownum)]) with ⟨code, obj⟩
  have he := tclEval_eq env (Tcl_IncrRefCount w a) li.interp layer.addr
    (.Tcl_EvalObjv (w.objs a).bytes [.int (longToInt li.rownum)]) code obj (by simpa using hsc)
  simp only [readAttributes, ha, incrRefCount_bytes, he]
  cases code with
  | TCL_ERROR => exact ⟨_, _, _, _, rfl, rfl, rfl, rfl⟩
  | TCL_OK =>
    cases hl : Tcl_ListObjGetElements obj with
    | error m => exact ⟨_, _, _, _, rfl, rfl, rfl, rfl⟩
    | ok l =>
      by_cases hn : layer.numitems = (l.length : Int)
      · simp only [reduceCtorEq, if_false, hn, ne_eq, not_true_eq_false]
        exact ⟨_, _, _, _, rfl, rfl, rfl, rfl⟩
      · simp only [reduceCtorEq, if_false, hn, ne_eq, not_false_eq_true, if_true]
        exact ⟨_, _, _, _, rfl, rfl, rfl, rfl⟩

theorem shapeFromGeometry_shape_indep (env : TclEnv) (w : World) (layer : layerObj)
    (li : msTclPlugLayerInfo) (a : Nat) (parts : List TclObj) (s1 s2 : shapeObj)
    (ha : li.getAttributesCommandObj = some a) :
    (shapeFromGeometry env w layer li parts s1 = none ∧
      shapeFromGeometry env w layer li parts s2 = none) ∨
    ∃ rv w' t1 t2,
      shapeFromGeometry env w layer li parts s1 = some (rv, w', t1) ∧
      shapeFromGeometry env w layer li parts s2 = some (rv, w', t2) ∧
      (rv = .MS_SUCCESS → t1.type = t2.type) := by
  unfold shapeFromGeometry
  simp only
  generalize hu1 : (if parts.length > 0 then
      match layer.type with
      | .MS_LAYER_POINT => { s1 with type := MS_SHAPE_TYPE.MS_SHAPE_POINT }
      | .MS_LAYER_LINE => { s1 with type := MS_SHAPE_TYPE.MS_SHAPE_LINE }
      | .MS_LAYER_POLYGON => { s1 with type := MS_SHAPE_TYPE.MS_SHAPE_POLYGON }
      | _ => { s1 with type := MS_SHAPE_TYPE.MS_SHAPE_NULL }
    else { s1 with type := MS_SHAPE_TYPE.MS_SHAPE_NULL }) = u1
  generalize hu2 : (if parts.length > 0 then
      match layer.type with
      | .MS_LAYER_POINT => { s2 with type := MS_SHAPE_TYPE.MS_SHAPE_POINT }
      | .MS_LAYER_LINE => { s2 with type := MS_SHAPE_TYPE.MS_SHAPE_LINE }
      | .MS_LAYER_POLYGON => { s2 with type := MS_SHAPE_TYPE.MS_SHAPE_POLYGON }
      | _ => { s2 with type := MS_SHAPE_TYPE.MS_SHAPE_NULL }
    else { s2 with type := MS_SHAPE_TYPE.MS_SHAPE_NULL }) = u2
  have hu : u1.type = u2.type := by
    rw [← hu1, ← hu2]
    split
    · split <;> rfl
    · rfl
  rcases readGeometry_rel parts u1 u2 false with ⟨e, t1, t2, h1, h2⟩ | ⟨t1, t2, hv, h1, h2, ht1, ht2⟩
  · rw [h1, h2]
    simp only
    cases reportGeometryError w li.interp e with
    | none => exact Or.inl ⟨rfl, rfl⟩
    | some w2 => exact Or.inr ⟨_, _, _, _, rfl, rfl, by simp⟩
  · right
    rw [h1, h2]
    simp only
    have ht : t1.type = t2.type := by rw [ht1, ht2, hu]
    cases hv with
    | false =>
      simp only [Bool.not_false, if_true, ne_eq, not_true_eq_false, if_false]
      exact ⟨_, _, _, _, rfl, rfl, fun _ => rfl⟩
    | true =>
      simp only [Bool.not_true, Bool.false_eq_true, if_false]
      by_cases hty : t1.type = .MS_SHAPE_NULL
      · have hty2 : t2.type = .MS_SHAPE_NULL := by rw [← ht]; exact hty
        simp only [hty, hty2, ne_eq, not_true_eq_false, if_false]
        exact ⟨_, _, _, _, rfl, rfl, fun _ => by rw [hty, hty2]⟩
      · have hty2 : ¬ t2.type = .MS_SHAPE_NULL := by rw [← ht]; exact hty
        simp only [hty, hty2, ne_eq, not_false_eq_true, if_true]
        obtain ⟨rv, w', r1, r2, e1, e2, hr1, hr2⟩ :=
          readAttributes_shape_indep env w layer li a t1 t2 ha
        exact ⟨rv, w', r1, r2, e1, e2, fun _ => by rw [hr1, hr2, ht]⟩

/-- Whether a fetch returns, and the status, the world and the geometry
kind it yields, do not depend on the shape handed in. -/
theorem readShape_shape_cases (env : TclEnv) (w : World) (layer : layerObj)
    (li : msTclPlugLayerInfo) (g a : Nat) (s1 s2 : shapeObj)
    (hli : layer.layerinfo = some li) (hi : li.interp ≠ 0)
    (hg : li.getGeometryCommandObj = some g) (ha : li.getAttributesCommandObj = some a) :
    (msTclPlugReadShape env w layer s1 = none ∧ msTclPlugReadShape env w layer s2 = none) ∨
    ∃ rv w' t1 t2,
      msTclPlugReadShape env w layer s1 = some (rv, w', t1) ∧
      msTclPlugReadShape env w layer s2 = some (rv, w', t2) ∧
      (rv = .MS_SUCCESS → t1.type = t2.type) := by
  rcases hsc : env.script (w.interps li.interp)
    (.Tcl_EvalObjv (w.objs g).bytes [.int (longToInt li.rownum)]) with ⟨code, obj⟩
  have he := tclEval_eq env (Tcl_IncrRefCount w g) li.interp layer.addr
    (.Tcl_EvalObjv (w.objs g).bytes [.int (longToInt li.rownum)]) code obj (by simpa using hsc)
  simp only [msTclPlugReadShape, hli, hi, hg, incrRefCount_bytes, he, if_false]
  cases code with
  | TCL_ERROR => exact Or.inr ⟨_, _, _, _, rfl, rfl, by simp⟩
  | TCL_OK =>
    cases hl : Tcl_ListObjGetElements obj with
    | error m => exact Or.inr ⟨_, _, _, _, rfl, rfl, by simp⟩
    | ok parts =>
      simp only [reduceCtorEq, if_false]
      exact shapeFromGeometry_shape_indep env _ layer li a parts s1 s2 ha

/-- The status, the world and the geometry kind of a fetch that returns do
not depend on the shape handed in. -/
theorem readShape_shape_indep (env : TclEnv) (w : World) (layer : layerObj)
    (li : msTclPlugLayerInfo) (g a : Nat) (s1 s2 : shapeObj)
    (hli : layer.layerinfo = some li) (hi : li.interp ≠ 0)
    (hg : li.getGeometryCommandObj = some g) (ha : li.getAttributesCommandObj = some a)
    (hret : (msTclPlugReadShape env w layer s1).isSome = true) :
    ∃ rv w' t1 t2,
      msTclPlugReadShape env w layer s1 = some (rv, w', t1) ∧
      msTclPlugReadShape env w layer s2 = some (rv, w', t2) ∧
      (rv = .MS_SUCCESS → t1.type = t2.type) := by
  rcases readShape_shape_cases env w layer li g a s1 s2 hli hi hg ha with ⟨h1, _⟩ | h
  · rw [h1] at hret; cases hret
  · exact h

theorem points_of_parts (pts : List (List pointObj)) (h : pts ≠ []) (hne : ∀ p ∈ pts, p ≠ []) :
    (pts.map (fun p => ({ point := p } : lineObj))).foldr (fun l acc => l.point ++ acc) [] ≠ [] := by
  cases pts with
  | nil => exact absurd rfl h
  | cons p ps =>
    have := hne p (by simp)
    simp [this]

theorem afterGeometry_eq (env : TclEnv) (w : World) (layer : layerObj)
    (li : msTclPlugLayerInfo) (g : Nat) (code : TclCode) (geo : TclObj)
    (hgeo : env.script (w.interps li.interp)
      (.Tcl_EvalObjv (w.objs g).bytes [.int (longToInt li.rownum)]) = (code, geo)) :
    afterGeometry env w layer li g
      = (Tcl_IncrRefCount w g).logCall env li.interp layer.addr
          (.Tcl_EvalObjv (w.objs g).bytes [.int (longToInt li.rownum)]) (Tcl_GetString geo) := by
  unfold afterGeometry
  rw [tclEval_eq env (Tcl_IncrRefCount w g) li.interp layer.addr _ code geo (by simpa using hgeo)]

/-- C3. On a point, line or polygon layer, when get_geometry answers with a
list of N non-empty parts, each a list of an even number of numeric
coordinates (the coordinates of the points `pts`), and get_attributes,
asked in the state the get_geometry call has left, answers with a list of as
many values as the layer has items, then msTclPlugReadShape applied to a
shape without parts returns MS_SUCCESS with exactly N parts, the k-th
holding the points of the k-th list in order, and (when there is a point at
all) bounds that contain every point and whose sides are the least and
greatest x and y among the points.  Both procedures are called with the
cursor as `Tcl_NewIntObj` narrows it. -/
theorem readShape_builds_parts_and_bounds
    (env : TclEnv) (w : World) (layer : layerObj) (li : msTclPlugLayerInfo) (g a : Nat)
    (shape : shapeObj) (geo : TclObj) (parts : List TclObj) (pts : List (List pointObj))
    (attrs : TclObj) (l : List TclObj)
    (hli : layer.layerinfo = some li) (hi : li.interp ≠ 0)
    (hg : li.getGeometryCommandObj = some g) (ha : li.getAttributesCommandObj = some a)
    (htype : layer.type = .MS_LAYER_POINT ∨ layer.type = .MS_LAYER_LINE ∨
      layer.type = .MS_LAYER_POLYGON)
    (hempty : shape.line = [])
    (hgeo : env.script (w.interps li.interp) (.Tcl_EvalObjv (w.objs g).bytes [.int (longToInt li.rownum)])
      = (.TCL_OK, geo))
    (hparts : Tcl_ListObjGetElements geo = .ok parts)
    (hpts : List.Forall₂ TclObj.holdsPoints parts pts)
    (hne : ∀ p ∈ pts, p ≠ [])
    (hattr : env.script ((afterGeometry env w layer li g).interps li.interp)
      (.Tcl_EvalObjv (w.objs a).bytes [.int (longToInt li.rownum)]) = (.TCL_OK, attrs))
    (hlist : Tcl_ListObjGetElements attrs = .ok l)
    (hcount : (l.length : Int) = layer.numitems) :
    ∃ w' shape', msTclPlugReadShape env w layer shape = some (.MS_SUCCESS, w', shape') ∧
      shape'.line = pts.map (fun p => { point := p }) ∧
      shape'.line.length = pts.length ∧
      (pts ≠ [] → shape'.bounds.isBoundsOf shape'.points) := by
  have hlen : parts.length = pts.length := hpts.length_eq
  rw [readShape_of_list env w layer li g shape geo parts hli hi hg hgeo hparts]
  rw [afterGeometry_eq env w layer li g .TCL_OK geo hgeo] at hattr
  by_cases hN : pts = []
  · subst hN
    have hp : parts = [] := by simpa using hlen
    subst hp
    exact ⟨_, _, by simp [shapeFromGeometry, readGeometry]; exact ⟨rfl, rfl⟩, by simp [hempty],
      by simp [hempty], fun h => absurd rfl h⟩
  · have hpos : parts.length > 0 := by
      rw [hlen]; exact List.length_pos.mpr hN
    have hrg := fun s => readGeometry_of_parts parts pts s false hpts hne
    have hie : pts.isEmpty = false := by
      cases pts with
      | nil => exact absurd rfl hN
      | cons _ _ => rfl
    generalize hW : (Tcl_IncrRefCount w g).logCall env li.interp layer.addr
      (.Tcl_EvalObjv (w.objs g).bytes [.int (longToInt li.rownum)]) (Tcl_GetString geo) = W
      at hattr
    have hWobjs : (W.objs a).bytes = (w.objs a).bytes := by
      rw [← hW]; simp
    have hs := hattr
    have hl := hlist
    have hn := hcount
    rw [← hWobjs] at hs
    have hpp := points_of_parts pts hN hne
    rcases htype with ht | ht | ht <;>
    · simp only [shapeFromGeometry, hpos, ht, hrg, hie, if_true]
      simp only [Bool.or_self, Bool.not_false, Bool.false_eq_true, if_false, ne_eq,
        not_false_eq_true, if_true, reduceCtorEq]
      rw [readAttributes_of_list env W layer li a _ attrs l ha hs hl hn]
      refine ⟨_, _, rfl, ?_, ?_, ?_⟩
      · simp [hempty]
      · simp [hempty]
      · intro _
        apply find_bounds_isBoundsOf
        simpa [shapeObj.points, hempty] using hpp

theorem readPairs_error_of_nonnumeric :
    ∀ (n : Nat) (es : List TclObj), es.length = 2 * n →
      (∃ e ∈ es, ∃ m, Tcl_GetDoubleFromObj e = .error m) →
      ∃ err, readPairs es = .error err := by
  intro n
  induction n with
  | zero =>
    intro es hlen hbad
    have : es = [] := List.length_eq_zero.mp (by simpa using hlen)
    subst this
    simp at hbad
  | succ n ih =>
    intro es hlen hbad
    match es, hlen, hbad with
    | a :: b :: rest, hlen, hbad =>
      have hrest : rest.length = 2 * n := by simp at hlen; omega
      cases hx : Tcl_GetDoubleFromObj a with
      | error m => exact ⟨.x m, by simp [readPairs, hx]⟩
      | ok x =>
        cases hy : Tcl_GetDoubleFromObj b with
        | error m => exact ⟨.y m, by simp [readPairs, hx, hy]⟩
        | ok y =>
          obtain ⟨e, he, m, hm⟩ := hbad
          have he' : e ∈ rest := by
            rcases List.mem_cons.mp he with h | h
            · subst h; rw [hx] at hm; cases hm
            · rcases List.mem_cons.mp h with h | h
              · subst h; rw [hy] at hm; cases hm
              · exact h
          obtain ⟨err, herr⟩ := ih rest hrest ⟨e, he', m, hm⟩
          exact ⟨err, by simp [readPairs, hx, hy, herr]⟩
    | [_], hlen, _ => simp at hlen; omega
    | [], hlen, _ => simp at hlen

theorem readGeometry_error_of_bad_part (parts : List TclObj) :
    ∀ (shape : shapeObj) (have_ : Bool),
      (∃ part ∈ parts, ∃ es, Tcl_ListObjGetElements part = .ok es ∧
        (es.length % 2 = 1 ∨ ∃ e ∈ es, ∃ m, Tcl_GetDoubleFromObj e = .error m)) →
      ∃ err, readGeometry parts shape have_ = .error err := by
  induction parts with
  | nil => intro _ _ h; simp at h
  | cons part rest ih =>
    intro shape hv hbad
    cases hl : Tcl_ListObjGetElements part with
    | error m => exact ⟨(.sublist m, shape), by simp [readGeometry, hl]⟩
    | ok pairs =>
      have hrest_of : (∃ p ∈ rest, ∃ es, Tcl_ListObjGetElements p = .ok es ∧
          (es.length % 2 = 1 ∨ ∃ e ∈ es, ∃ m, Tcl_GetDoubleFromObj e = .error m)) →
          ∀ s h, ∃ err, readGeometry rest s h = .error err := fun hb s h => ih s h hb
      obtain ⟨p, hp, es, hes, hcase⟩ := hbad
      by_cases h0 : pairs.length = 0
      · -- an empty part is skipped, so the bad part is further on
        have hrest : p ∈ rest := by
          rcases List.mem_cons.mp hp with h | h
          · subst h
            rw [hl] at hes
            cases hes
            have : pairs = [] := List.length_eq_zero.mp h0
            subst this
            rcases hcase with h | ⟨e, he, _⟩
            · simp at h
            · simp at he
          · exact h
        obtain ⟨err, herr⟩ := hrest_of ⟨p, hrest, es, hes, hcase⟩ shape hv
        exact ⟨err, by simp [readGeometry, hl, h0, herr]⟩
      · by_cases h1 : pairs.length % 2 = 1
        · exact ⟨(.odd (Tcl_GetString part), shape), by simp [readGeometry, hl, h0, h1]⟩
        · cases hr : readPairs pairs with
          | error e => exact ⟨(.coord e, shape), by simp [readGeometry, hl, h0, h1, hr]⟩
          | ok points =>
            have hrest : p ∈ rest := by
              rcases List.mem_cons.mp hp with h | h
              · subst h
                rw [hl] at hes
                cases hes
                rcases hcase with h | hnn
                · exact absurd h h1
                · obtain ⟨err, herr⟩ := readPairs_error_of_nonnumeric (pairs.length / 2) pairs
                    (by omega) hnn
                  rw [hr] at herr
                  cases herr
              · exact h
            obtain ⟨err, herr⟩ := hrest_of ⟨p, hrest, es, hes, hcase⟩
              (msAddLine shape { point := points }) true
            exact ⟨err, by simp [readGeometry, hl, h0, h1, hr, herr]⟩

/-- When the part loop fails, the geometry half either ends the model, which
it does for a part of odd length in an answer list referenced by the
interpreter result only, or returns MS_FAILURE without a call. -/
theorem shapeFromGeometry_of_error (env : TclEnv) (w : World) (layer : layerObj)
    (li : msTclPlugLayerInfo) (parts : List TclObj) (shape : shapeObj)
    (herr : ∀ s h, ∃ err, readGeometry parts s h = .error err) :
    (shapeFromGeometry env w layer li parts shape = none ∧
      (w.interps li.interp).resultKept = false ∧
      ∃ s part t, readGeometry parts s false = .error (.odd part, t)) ∨
    ∃ w' s', shapeFromGeometry env w layer li parts shape = some (.MS_FAILURE, w', s') ∧
      ∀ j, w'.calls j = w.calls j := by
  unfold shapeFromGeometry
  simp only
  split
  · rename_i e s heq
    cases hrep : reportGeometryError w li.interp e with
    | none =>
      left
      refine ⟨rfl, ?_, ?_⟩
      · rcases e with m | p | (m | m)
        · cases hrep
        · simp only [reportGeometryError] at hrep
          split at hrep
          · rename_i hk
            simpa using hk
          · cases hrep
        · cases hrep
        · cases hrep
      · rcases e with m | p | (m | m)
        · cases hrep
        · exact ⟨_, p, s, heq⟩
        · cases hrep
        · cases hrep
    | some w2 =>
      right
      exact ⟨w2, s, rfl, fun j => reportGeometryError_calls w w2 li.interp j e hrep⟩
  · rename_i s hv heq
    obtain ⟨err, h⟩ := herr _ false
    rw [h] at heq
    cases heq

/-- What holds of C4 for every answer. When the list get_geometry answers
with contains a part with an odd number of elements, or a part with an
element that is not a number, msTclPlugReadShape does not return
MS_SUCCESS and does not call get_attributes: either the model ends, with an
answer list that is referenced by the interpreter result only and has a part
of odd length, or it returns MS_FAILURE having made the get_geometry call
only. -/
theorem readShape_fails_on_bad_part
    (env : TclEnv) (w : World) (layer : layerObj) (li : msTclPlugLayerInfo) (g : Nat)
    (shape : shapeObj) (geo : TclObj) (parts : List TclObj)
    (hli : layer.layerinfo = some li) (hi : li.interp ≠ 0)
    (hg : li.getGeometryCommandObj = some g)
    (hgeo : env.script (w.interps li.interp) (.Tcl_EvalObjv (w.objs g).bytes [.int (longToInt li.rownum)])
      = (.TCL_OK, geo))
    (hparts : Tcl_ListObjGetElements geo = .ok parts)
    (hbad : ∃ part ∈ parts, ∃ es, Tcl_ListObjGetElements part = .ok es ∧
      (es.length % 2 = 1 ∨ ∃ e ∈ es, ∃ m, Tcl_GetDoubleFromObj e = .error m)) :
    (msTclPlugReadShape env w layer shape = none ∧
      env.resultKept (w.interps li.interp)
        (.Tcl_EvalObjv (w.objs g).bytes [.int (longToInt li.rownum)]) = false ∧
      ∃ s part t, readGeometry parts s false = .error (.odd part, t)) ∨
    ∃ w' shape', msTclPlugReadShape env w layer shape = some (.MS_FAILURE, w', shape') ∧
      w'.calls li.interp
        = w.calls li.interp ++ [.Tcl_EvalObjv (w.objs g).bytes [.int (longToInt li.rownum)]] ∧
      ∀ j, j ≠ li.interp → w'.calls j = w.calls j := by
  rw [readShape_of_list env w layer li g shape geo parts hli hi hg hgeo hparts]
  rcases shapeFromGeometry_of_error env
    ((Tcl_IncrRefCount w g).logCall env li.interp layer.addr
      (.Tcl_EvalObjv (w.objs g).bytes [.int (longToInt li.rownum)]) (Tcl_GetString geo))
    layer li parts shape (fun s h => readGeometry_error_of_bad_part parts s h hbad) with
    ⟨hnone, hk, hodd⟩ | ⟨w', s, h, hc⟩
  · left
    refine ⟨hnone, ?_, hodd⟩
    simpa [World.logCall] using hk
  · right
    refine ⟨w', s, h, ?_, ?_⟩
    · rw [hc]; simp
    · intro j hj
      rw [hc]
      simp [logCall_calls_other _ _ _ _ _ _ _ hj]

theorem readGeometry_of_parts_any (parts : List TclObj) :
    ∀ (pts : List (List pointObj)) (shape : shapeObj) (have_ : Bool),
      List.Forall₂ TclObj.holdsPoints parts pts →
      ∃ lines, readGeometry parts shape have_ =
        .ok ({ shape with line := lines }, have_ || pts.any (fun p => !p.isEmpty)) := by
  induction parts with
  | nil =>
    intro pts shape hv h
    cases h
    exact ⟨shape.line, by simp [readGeometry]⟩
  | cons part rest ih =>
    intro pts shape hv h
    cases h with
    | cons hp hrest =>
      rename_i p ps
      obtain ⟨es, hes, hco⟩ := hp
      have hlen : es.length = 2 * p.length := by
        have := congrArg List.length hco
        simpa [coordsOf_length] using this
      by_cases hp0 : p = []
      · subst hp0
        obtain ⟨lines, hl⟩ := ih ps shape hv hrest
        exact ⟨lines, by simp [readGeometry, hes, hlen, hl]⟩
      · have hplen : 0 < p.length := List.length_pos.mpr hp0
        have h1 : es.length ≠ 0 := by omega
        have h2 : ¬ es.length % 2 = 1 := by omega
        have hrp := readPairs_of_coords p es hco
        obtain ⟨lines, hl⟩ := ih ps (msAddLine shape { point := p }) true hrest
        have hpe : p.isEmpty = false := by
          cases p with
          | nil => exact absurd rfl hp0
          | cons _ _ => rfl
        refine ⟨lines, ?_⟩
        simp only [msAddLine] at hl
        simp [readGeometry, hes, h1, h2, hrp, hl, msAddLine, hpe]

theorem shapeFromGeometry_of_points (env : TclEnv) (w : World) (layer : layerObj)
    (li : msTclPlugLayerInfo) (parts : List TclObj) (pts : List (List pointObj))
    (shape : shapeObj)
    (htype : layer.type = .MS_LAYER_POINT ∨ layer.type = .MS_LAYER_LINE ∨
      layer.type = .MS_LAYER_POLYGON)
    (hpts : List.Forall₂ TclObj.holdsPoints parts pts)
    (hsome : ∃ p ∈ pts, p ≠ []) :
    ∃ shape', shapeFromGeometry env w layer li parts shape
      = readAttributes env w layer li shape' := by
  have hlen : parts.length = pts.length := hpts.length_eq
  obtain ⟨p0, hp0, hp0ne⟩ := hsome
  have hpos : parts.length > 0 := by
    rw [hlen]; exact List.length_pos.mpr (List.ne_nil_of_mem hp0)
  have hany : pts.any (fun p => !p.isEmpty) = true := by
    rw [List.any_eq_true]
    refine ⟨p0, hp0, ?_⟩
    cases p0 with
    | nil => exact absurd rfl hp0ne
    | cons _ _ => rfl
  rcases htype with ht | ht | ht
  · obtain ⟨lines, hrg⟩ := readGeometry_of_parts_any parts pts
      { shape with type := .MS_SHAPE_POINT } false hpts
    exact ⟨_, by simp [shapeFromGeometry, hpos, ht, hrg, hany]; rfl⟩
  · obtain ⟨lines, hrg⟩ := readGeometry_of_parts_any parts pts
      { shape with type := .MS_SHAPE_LINE } false hpts
    exact ⟨_, by simp [shapeFromGeometry, hpos, ht, hrg, hany]; rfl⟩
  · obtain ⟨lines, hrg⟩ := readGeometry_of_parts_any parts pts
      { shape with type := .MS_SHAPE_POLYGON } false hpts
    exact ⟨_, by simp [shapeFromGeometry, hpos, ht, hrg, hany]; rfl⟩

theorem readAttributes_of_mismatch (env : TclEnv) (w : World) (layer : layerObj)
    (li : msTclPlugLayerInfo) (a : Nat) (shape : shapeObj) (attrs : TclObj) (l : List TclObj)
    (ha : li.getAttributesCommandObj = some a)
    (hs : env.script (w.interps li.interp) (.Tcl_EvalObjv (w.objs a).bytes [.int (longToInt li.rownum)])
      = (.TCL_OK, attrs))
    (hl : Tcl_ListObjGetElements attrs = .ok l)
    (hn : layer.numitems ≠ (l.length : Int)) :
    ∃ w' shape', readAttributes env w layer li shape = some (.MS_FAILURE, w', shape') ∧
      w'.errors = w.errors ++
        [{ code := .MS_QUERYERR, message := "get_attributes mismatch, wanted %d, got %d.",
           routine := "msTclPlugLayerReadShape()",
           args := [.int layer.numitems, .int l.length] }] := by
  have he := tclEval_eq env (Tcl_IncrRefCount w a) li.interp layer.addr
    (.Tcl_EvalObjv (w.objs a).bytes [.int (longToInt li.rownum)]) .TCL_OK attrs (by simpa using hs)
  simp only [readAttributes, ha, incrRefCount_bytes, he, hl]
  refine ⟨_, _, by simp [hn]; exact ⟨rfl, rfl⟩, ?_⟩
  simp

/-- C5. On a point, line or polygon layer, when get_geometry answered with
well-formed parts of which at least one is not empty, and get_attributes,
asked in the state the get_geometry call has left, answers with a list whose
length `got` differs from the item count of the layer, msTclPlugReadShape
returns MS_FAILURE and the error it reports carries the item count and
`got`, in this order. -/
theorem readShape_reports_attribute_mismatch
    (env : TclEnv) (w : World) (layer : layerObj) (li : msTclPlugLayerInfo) (g a : Nat)
    (shape : shapeObj) (geo : TclObj) (parts : List TclObj) (pts : List (List pointObj))
    (got : Nat) (attrs : TclObj) (l : List TclObj)
    (hli : layer.layerinfo = some li) (hi : li.interp ≠ 0)
    (hg : li.getGeometryCommandObj = some g) (ha : li.getAttributesCommandObj = some a)
    (htype : layer.type = .MS_LAYER_POINT ∨ layer.type = .MS_LAYER_LINE ∨
      layer.type = .MS_LAYER_POLYGON)
    (hgeo : env.script (w.interps li.interp) (.Tcl_EvalObjv (w.objs g).bytes [.int (longToInt li.rownum)])
      = (.TCL_OK, geo))
    (hparts : Tcl_ListObjGetElements geo = .ok parts)
    (hpts : List.Forall₂ TclObj.holdsPoints parts pts)
    (hsome : ∃ p ∈ pts, p ≠ [])
    (hattr : env.script ((afterGeometry env w layer li g).interps li.interp)
      (.Tcl_EvalObjv (w.objs a).bytes [.int (longToInt li.rownum)]) = (.TCL_OK, attrs))
    (hlist : Tcl_ListObjGetElements attrs = .ok l) (hgot : l.length = got)
    (hdiff : (got : Int) ≠ layer.numitems) :
    ∃ w' shape', msTclPlugReadShape env w layer shape = some (.MS_FAILURE, w', shape') ∧
      w'.errors = w.errors ++
        [{ code := .MS_QUERYERR, message := "get_attributes mismatch, wanted %d, got %d.",
           routine := "msTclPlugLayerReadShape()",
           args := [.int layer.numitems, .int got] }] := by
  rw [readShape_of_list env w layer li g shape geo parts hli hi hg hgeo hparts]
  rw [afterGeometry_eq env w layer li g .TCL_OK geo hgeo] at hattr
  generalize hW : (Tcl_IncrRefCount w g).logCall env li.interp layer.addr
    (.Tcl_EvalObjv (w.objs g).bytes [.int (longToInt li.rownum)]) (Tcl_GetString geo) = W
    at hattr
  have hWobjs : (W.objs a).bytes = (w.objs a).bytes := by
    rw [← hW]; simp
  have hWerr : W.errors = w.errors := by
    rw [← hW]; simp
  have hs := hattr
  have hl := hlist
  have hn := hgot
  rw [← hWobjs] at hs
  have hne : layer.numitems ≠ (l.length : Int) := by
    rw [hn]; exact fun h => hdiff h.symm
  obtain ⟨s1, hs1⟩ := shapeFromGeometry_of_points env W layer li parts pts shape htype hpts hsome
  obtain ⟨w', s', hr, herrs⟩ := readAttributes_of_mismatch env W layer li a s1 attrs l ha hs hl hne
  exact ⟨w', s', by rw [hs1, hr], by rw [herrs, hWerr, hn]⟩

/-! ## Iteration and random access -/

theorem nextShape_done (env : TclEnv) (w : World) (layer : layerObj)
    (li : msTclPlugLayerInfo) (shape : shapeObj)
    (hli : layer.layerinfo = some li) (hc : ¬ li.rownum < li.nrows) :
    msTclPlugLayerNextShape env w layer shape
      = some (.MS_DONE, w, layer, { shape with type := .MS_SHAPE_NULL }) := by
  simp [msTclPlugLayerNextShape, hli, nextShapeLoop, hc]

/-- C2. For a session whose cursor is not below its row count,
msTclPlugLayerNextShape returns MS_DONE and changes neither the world (so no
script procedure is invoked) nor the layer (so cursor and row count stay),
and any number of successive calls all return MS_DONE, again without any
change. -/
theorem nextShape_done_is_terminal (env : TclEnv) (w : World) (layer : layerObj)
    (li : msTclPlugLayerInfo) (shape : shapeObj)
    (hli : layer.layerinfo = some li) (hc : ¬ li.rownum < li.nrows) :
    msTclPlugLayerNextShape env w layer shape
      = some (.MS_DONE, w, layer, { shape with type := .MS_SHAPE_NULL }) ∧
    ∀ k, ∃ rs, nextShapeRun env k w layer shape = some (rs, w, layer) ∧
      rs.map (fun r => r.1) = List.replicate k .MS_DONE := by
  refine ⟨nextShape_done env w layer li shape hli hc, ?_⟩
  intro k
  induction k with
  | zero => exact ⟨[], rfl, rfl⟩
  | succ k ih =>
    obtain ⟨rs, hrs, hst⟩ := ih
    refine ⟨(.MS_DONE, { shape with type := .MS_SHAPE_NULL }) :: rs, ?_, ?_⟩
    · simp [nextShapeRun, nextShape_done env w layer li shape hli hc, hrs]
    · simp [hst, List.replicate_succ]

/-- Witness of C2: the example session with cursor 0 and row count 0. -/
theorem nextShape_done_is_terminal_witness :
    demoSession.layerinfo = some demoInfo ∧ ¬ demoInfo.rownum < demoInfo.nrows ∧
    (msTclPlugLayerNextShape demoEnv demoWorld demoSession demoShape
      = some (.MS_DONE, demoWorld, demoSession, { demoShape with type := .MS_SHAPE_NULL }) ∧
    ∀ k, ∃ rs, nextShapeRun demoEnv k demoWorld demoSession demoShape
        = some (rs, demoWorld, demoSession) ∧
      rs.map (fun r => r.1) = List.replicate k .MS_DONE) :=
  ⟨rfl, by decide,
    nextShape_done_is_terminal demoEnv demoWorld demoSession demoInfo demoShape rfl (by decide)⟩

@[simp] theorem setVar2Ex_objs (w : World) (i : Int) (n : String) (v : TclArg) :
    (Tcl_SetVar2Ex w i n v).objs = w.objs := rfl

@[simp] theorem setVar2Ex_errors (w : World) (i : Int) (n : String) (v : TclArg) :
    (Tcl_SetVar2Ex w i n v).errors = w.errors := rfl

@[simp] theorem setVar2Ex_calls (w : World) (i j : Int) (n : String) (v : TclArg) :
    (Tcl_SetVar2Ex w i n v).calls j = w.calls j := by
  by_cases h : j = i
  · subst h; simp [Tcl_SetVar2Ex, World.calls]
  · simp [Tcl_SetVar2Ex, World.calls, setInterp_interps_other _ _ _ _ h]

theorem atRow_eq (layer : layerObj) (li : msTclPlugLayerInfo) (r : Int)
    (hli : layer.layerinfo = some li) :
    layer.atRow r = { layer with layerinfo := some { li with rownum := r } } := by
  simp [layerObj.atRow, hli]

/-- What msTclPlugLayerGetShape does once get_shape has answered without an
error: with a row count that is positive as an `int` it fetches row 0, else
it returns MS_FAILURE without a fetch. -/
theorem getShape_steps (env : TclEnv) (w : World) (layer : layerObj)
    (li : msTclPlugLayerInfo) (gs : Nat) (shape : shapeObj) (tile record : Int)
    (hli : layer.layerinfo = some li) (hi : li.interp ≠ 0)
    (hgs : li.getShapeCommandObj = some gs)
    (hok : (getShapeAnswer env w layer li gs record).1 ≠ .TCL_ERROR) :
    msTclPlugLayerGetShape env w layer shape tile record =
      if 0 < longToInt li.nrows then
        match msTclPlugReadShape env (getShapeAnswer env w layer li gs record).2.2
            (layer.atRow 0) { shape with type := .MS_SHAPE_NULL } with
        | none => none
        | some (rv, w', s') =>
          some (if rv ≠ .MS_SUCCESS then rv
                else if s'.type = .MS_SHAPE_NULL then .MS_FAILURE else .MS_SUCCESS,
            w', layer.atRow 0, s')
      else
        some (.MS_FAILURE, (getShapeAnswer env w layer li gs record).2.2, layer.atRow 0,
          { shape with type := .MS_SHAPE_NULL }) := by
  have hb : ((Tcl_IncrRefCount (set_tcl_var_long w li.interp "uid" record) gs).objs gs).bytes
      = (w.objs gs).bytes := by simp [set_tcl_var_long]
  unfold getShapeAnswer at hok ⊢
  simp only [msTclPlugLayerGetShape, hli, hi, msTclPlugSnagRectangleAndUID, hgs, if_false, hb,
    hok]
  by_cases hpos : 0 < longToInt li.nrows
  · simp only [gt_iff_lt, hpos, if_true]
    cases hr : msTclPlugReadShape env
        (tclEval env (Tcl_IncrRefCount (set_tcl_var_long w li.interp "uid" record) gs) li.interp
          layer.addr (.Tcl_EvalObjEx (w.objs gs).bytes)).2.2
        (layer.atRow 0) { shape with type := .MS_SHAPE_NULL } with
    | none => rfl
    | some r =>
      obtain ⟨rv, w', s'⟩ := r
      by_cases hrv : rv = .MS_SUCCESS
      · subst hrv
        simp
      · simp [hrv]
  · simp [hpos]

theorem getShapeAnswer_calls (env : TclEnv) (w : World) (layer : layerObj)
    (li : msTclPlugLayerInfo) (gs : Nat) (record : Int) :
    (getShapeAnswer env w layer li gs record).2.2.calls li.interp
      = w.calls li.interp ++ [.Tcl_EvalObjEx (w.objs gs).bytes] := by
  simp [getShapeAnswer, tclEval, set_tcl_var_long]

theorem getShapeAnswer_bytes (env : TclEnv) (w : World) (layer : layerObj)
    (li : msTclPlugLayerInfo) (gs : Nat) (record : Int) (p : Nat) :
    ((getShapeAnswer env w layer li gs record).2.2.objs p).bytes = (w.objs p).bytes := by
  simp [getShapeAnswer, tclEval, set_tcl_var_long]

/-- What holds of C7 below 2^31. For an open session whose get_shape
procedure, called once the row identifier is published, does not raise an
error and whose row count is at least 1 and fits a C `int`,
msTclPlugLayerGetShape puts the cursor at 0 and fetches that one row: after
the get_shape call there is exactly one get_geometry call, with row number
0, followed by at most the get_attributes call for row 0; when the fetch
returns, it returns MS_SUCCESS when the fetch succeeded with a geometry kind
other than "none" and MS_FAILURE otherwise, in particular when the kind is
"none". -/
theorem getShape_fetches_row_zero (env : TclEnv) (w w' : World) (layer : layerObj)
    (li : msTclPlugLayerInfo) (gs g a : Nat) (shape shape' : shapeObj) (tile record : Int)
    (rv : Status)
    (hli : layer.layerinfo = some li) (hi : li.interp ≠ 0)
    (hgs : li.getShapeCommandObj = some gs)
    (hg : li.getGeometryCommandObj = some g) (ha : li.getAttributesCommandObj = some a)
    (hok : (getShapeAnswer env w layer li gs record).1 ≠ .TCL_ERROR)
    (hrows : 1 ≤ li.nrows) (hint : li.nrows < 2147483648)
    (hfetch : msTclPlugReadShape env (getShapeAnswer env w layer li gs record).2.2
      (layer.atRow 0) { shape with type := .MS_SHAPE_NULL } = some (rv, w', shape')) :
    msTclPlugLayerGetShape env w layer shape tile record
      = some (if rv = .MS_SUCCESS ∧ shape'.type ≠ .MS_SHAPE_NULL then .MS_SUCCESS
              else .MS_FAILURE, w', layer.atRow 0, shape') ∧
    (layer.atRow 0).rownum = 0 ∧ (layer.atRow 0).nrows = li.nrows ∧
    ∃ rest, w'.calls li.interp
        = w.calls li.interp ++
          [.Tcl_EvalObjEx (w.objs gs).bytes, .Tcl_EvalObjv (w.objs g).bytes [.int 0]] ++ rest ∧
      (rest = [] ∨ rest = [.Tcl_EvalObjv (w.objs a).bytes [.int 0]]) := by
  have hat := atRow_eq layer li 0 hli
  have hli0 : (layer.atRow 0).layerinfo = some { li with rownum := 0 } := by rw [hat]
  obtain ⟨hrv, ⟨rest, hc, hrest⟩, _, _, _⟩ :=
    readShape_props env _ w' (layer.atRow 0) { li with rownum := 0 } g a _ shape' rv
      hli0 hi hg ha hfetch
  have hpos : 0 < longToInt li.nrows := by
    rw [longToInt_of_lt li.nrows (by omega) hint]; omega
  refine ⟨?_, by simp [hat, layerObj.rownum], by simp [hat, layerObj.nrows], rest, ?_, ?_⟩
  · rw [getShape_steps env w layer li gs shape tile record hli hi hgs hok]
    simp only [hpos, if_true, hfetch]
    rcases hrv with h | h <;> subst h
    · by_cases ht : shape'.type = .MS_SHAPE_NULL <;> simp [ht]
    · simp
  · rw [hc, getShapeAnswer_calls, getShapeAnswer_bytes]
    simp
  · simpa [getShapeAnswer_bytes] using hrest

set_option maxRecDepth 8000 in
/-- C7, the code at the failing input. The example session holds the row
count 2^31, which msTclPlugLayerWhichShapes stores without a check and
msTclPlugLayerNextShape compares as a `long`. msTclPlugLayerGetShape copies
it into the `int` num_tuples, where it is -2^31: it makes the get_shape call,
fetches no row and returns MS_FAILURE with geometry kind "none". With the
row count 2^31 - 1 it fetches row 0 and returns MS_SUCCESS. -/
theorem getShape_fetches_nothing_at_wide_row_count :
    demoWide.nrows = 2147483648 ∧ longToInt demoWide.nrows = -2147483648 ∧
    (msTclPlugLayerGetShape demoEnv demoQueriedWorld demoWide demoShape 0 7).map
        (fun r => (r.1, (r.2.1.calls 1).drop (demoQueriedWorld.calls 1).length, r.2.2.2.type))
      = some (.MS_FAILURE, [.Tcl_EvalObjEx "::get_shape"], .MS_SHAPE_NULL) ∧
    (msTclPlugLayerGetShape demoEnv demoQueriedWorld
        { demoQueried with layerinfo := some { demoQueriedInfo with nrows := 2147483647 } }
        demoShape 0 7).map
        (fun r => (r.1, (r.2.1.calls 1).drop (demoQueriedWorld.calls 1).length, r.2.2.2.type))
      = some (.MS_SUCCESS,
          [.Tcl_EvalObjEx "::get_shape", .Tcl_EvalObjv "::get_geometry" [.int 0],
           .Tcl_EvalObjv "::get_attributes" [.int 0]], .MS_SHAPE_LINE) := by
  refine ⟨by decide, by decide, ?_, ?_⟩ <;> decide

theorem readAttributes_status (env : TclEnv) (w : World) (layer : layerObj)
    (li : msTclPlugLayerInfo) (shape : shapeObj) (r : Status × World × shapeObj)
    (h : readAttributes env w layer li shape = some r) :
    r.1 = .MS_SUCCESS ∨ r.1 = .MS_FAILURE := by
  unfold readAttributes at h
  split at h
  · cases h
  · simp only at h
    split at h
    · cases h; exact Or.inr rfl
    · split at h
      · cases h; exact Or.inr rfl
      · split at h
        · cases h; exact Or.inr rfl
        · cases h; exact Or.inl rfl

theorem shapeFromGeometry_status (env : TclEnv) (w : World) (layer : layerObj)
    (li : msTclPlugLayerInfo) (parts : List TclObj) (shape : shapeObj)
    (r : Status × World × shapeObj)
    (h : shapeFromGeometry env w layer li parts shape = some r) :
    r.1 = .MS_SUCCESS ∨ r.1 = .MS_FAILURE := by
  unfold shapeFromGeometry at h
  simp only at h
  split at h
  · split at h
    · cases h
    · cases h; exact Or.inr rfl
  · rename_i s hv _
    generalize (if (!hv) = true then { s with type := MS_SHAPE_TYPE.MS_SHAPE_NULL } else s) = s2
      at h
    by_cases hty : s2.type = .MS_SHAPE_NULL
    · simp only [hty, ne_eq, not_true_eq_false, if_false] at h
      cases h; exact Or.inl rfl
    · simp only [hty, ne_eq, not_false_eq_true, if_true] at h
      exact readAttributes_status env w layer li s2 r h

theorem readShape_status (env : TclEnv) (w : World) (layer : layerObj) (shape : shapeObj)
    (r : Status × World × shapeObj) (h : msTclPlugReadShape env w layer shape = some r) :
    r.1 = .MS_SUCCESS ∨ r.1 = .MS_FAILURE := by
  unfold msTclPlugReadShape at h
  split at h
  · cases h
  · split at h
    · cases h
    · split at h
      · cases h
      · simp only at h
        split at h
        · cases h; exact Or.inr rfl
        · split at h
          · cases h; exact Or.inr rfl
          · exact shapeFromGeometry_status _ _ _ _ _ _ r h

/-- msTclPlugLayerGetShape never returns MS_DONE: the test of the geometry
kind comes first in its return expression, and the kind is "none" whenever
no row was fetched. -/
theorem getShape_never_done (env : TclEnv) (w : World) (layer : layerObj) (shape : shapeObj)
    (tile record : Int) (r : Status × World × layerObj × shapeObj)
    (h : msTclPlugLayerGetShape env w layer shape tile record = some r) :
    r.1 ≠ .MS_DONE := by
  unfold msTclPlugLayerGetShape at h
  split at h
  · cases h
  · split at h
    · cases h
    · split at h
      · cases h
      · split at h
        · cases h
        · simp only at h
          split at h
          · cases h; simp
          · split at h
            · split at h
              · cases h
              · rename_i res w2 s2 hrs
                have hst := readShape_status _ _ _ _ _ hrs
                simp only at hst
                split at h
                · cases h
                  rcases hst with h1 | h1 <;> simp [h1]
                · cases h
                  split <;> simp
            · cases h
              simp

/-- C6, the code at the failing input.  In the example get_shape answers 0.
On the session just opened, with no row stored, msTclPlugLayerGetShape makes
the get_shape call only and returns MS_FAILURE, not MS_DONE.  On the session
after the query, which stored two rows, it goes on to call get_geometry and
get_attributes for row 0 and returns MS_SUCCESS with the record of that
row. -/
theorem getShape_ignores_get_shape_answer :
    (∀ st, Tcl_GetLongFromObj (demoScript st (.Tcl_EvalObjEx "::get_shape")).2 = .ok 0) ∧
    (msTclPlugLayerGetShape demoEnv demoWorld demoSession demoShape 0 7).map
        (fun r => (r.1, (r.2.1.calls 1).drop (demoWorld.calls 1).length))
      = some (.MS_FAILURE, [.Tcl_EvalObjEx "::get_shape"]) ∧
    (msTclPlugLayerGetShape demoEnv demoQueriedWorld demoQueried demoShape 0 7).map
        (fun r => (r.1, (r.2.1.calls 1).drop (demoQueriedWorld.calls 1).length,
          r.2.2.2.values))
      = some (.MS_SUCCESS,
          [.Tcl_EvalObjEx "::get_shape", .Tcl_EvalObjv "::get_geometry" [.int 0],
           .Tcl_EvalObjv "::get_attributes" [.int 0]],
          ["1", "Alpha"]) :=
  ⟨fun _ => rfl, by decide, by decide⟩

theorem atRow_layerinfo (layer : layerObj) (li : msTclPlugLayerInfo) (r : Int)
    (hli : layer.layerinfo = some li) :
    (layer.atRow r).layerinfo = some { li with rownum := r } := by
  simp [layerObj.atRow, hli]

theorem atRow_nextRow (layer : layerObj) (r : Int) :
    (layer.atRow r).nextRow = layer.atRow (r + 1) := by
  cases h : layer.layerinfo <;> simp [layerObj.atRow, layerObj.nextRow, h]

theorem fetchRows_cons (env : TclEnv) (layer : layerObj) (shape : shapeObj) (k c : Nat)
    (w : World) (o : Status × MS_SHAPE_TYPE) (os : List (Status × MS_SHAPE_TYPE))
    (h : fetchRows env layer shape (k + 1) c w = some (o :: os)) :
    ∃ w1 out, msTclPlugReadShape env w (layer.atRow c) shape = some (o.1, w1, out) ∧
      out.type = o.2 ∧ fetchRows env layer shape k (c + 1) w1 = some os := by
  simp only [fetchRows] at h
  split at h
  · cases h
  · rename_i rv w1 out hread
    split at h
    · cases h
    · rename_i rest hrest
      simp only [Option.some.injEq, List.cons.injEq] at h
      obtain ⟨ho, hos⟩ := h
      subst ho hos
      exact ⟨w1, out, hread, rfl, hrest⟩

/-- The loop of msTclPlugLayerNextShape started at cursor `c`, when the
rows from `c` to the end are fetched with success: it stops at the first of
these rows whose fetch gives a geometry kind, or at the end of the rows. -/
theorem nextShapeLoop_spec (env : TclEnv) (layer : layerObj)
    (li : msTclPlugLayerInfo) (g a : Nat) (shape : shapeObj)
    (hli : layer.layerinfo = some li) (hi : li.interp ≠ 0)
    (hg : li.getGeometryCommandObj = some g) (ha : li.getAttributesCommandObj = some a) :
    ∀ (outs : List (Status × MS_SHAPE_TYPE)) (c fuel : Nat) (W : World) (s : shapeObj),
      fetchRows env layer shape outs.length c W = some outs →
      (∀ o ∈ outs, o.1 = .MS_SUCCESS) →
      c + outs.length = li.nrows.toNat → outs.length + 1 ≤ fuel → s.type = .MS_SHAPE_NULL →
      ∃ st W' s', nextShapeLoop env fuel W (layer.atRow c) s
          = some (st, W', layer.atRow (if st = .MS_SUCCESS then s'.index + 1
                                        else (li.nrows.toNat : Int)), s') ∧
        ((st = .MS_DONE ∧ rowsWithShape c (outs.map (fun o => o.2)) = []) ∨
         (st = .MS_SUCCESS ∧ s'.type ≠ .MS_SHAPE_NULL ∧
            ∃ (j : Nat) (rest : List (Status × MS_SHAPE_TYPE)), s'.index = j ∧
              fetchRows env layer shape rest.length (j + 1) W' = some rest ∧
              (∀ o ∈ rest, o.1 = .MS_SUCCESS) ∧
              (j + 1) + rest.length = li.nrows.toNat ∧
              rowsWithShape c (outs.map (fun o => o.2))
                = j :: rowsWithShape (j + 1) (rest.map (fun o => o.2)))) := by
  intro outs
  induction outs with
  | nil =>
    intro c fuel W s _ _ hck hfuel hs
    obtain ⟨f, rfl⟩ : ∃ f, fuel = f + 1 := ⟨fuel - 1, by simp at hfuel; omega⟩
    have hlt : ¬ ((c : Int) < li.nrows) := by simp at hck; omega
    refine ⟨.MS_DONE, W, s, ?_, Or.inl ⟨rfl, rfl⟩⟩
    have hc : (li.nrows.toNat : Int) = (c : Int) := by simp at hck; omega
    simp only [reduceCtorEq, if_false, hc]
    simp only [nextShapeLoop, hs, if_true, atRow_layerinfo layer li c hli, hlt, if_false]
  | cons o os ih =>
    intro c fuel W s hfetch hok hck hfuel hs
    simp only [List.length_cons] at hfetch hck hfuel
    obtain ⟨f, rfl⟩ : ∃ f, fuel = f + 1 := ⟨fuel - 1, by omega⟩
    have hlt : (c : Int) < li.nrows := by omega
    obtain ⟨w1, out, hread0, hout, hrest⟩ := fetchRows_cons env layer shape _ c W o os hfetch
    have ho1 : o.1 = .MS_SUCCESS := hok o (by simp)
    rw [ho1] at hread0
    have hli' := atRow_layerinfo layer li c hli
    obtain ⟨rv, W', t1, t2, e1, e2, hty⟩ :=
      readShape_shape_indep env W (layer.atRow c) { li with rownum := c } g a shape s
        hli' hi hg ha (by rw [hread0]; rfl)
    rw [hread0] at e1
    simp only [Option.some.injEq, Prod.mk.injEq] at e1
    obtain ⟨hrv, hW, hout1⟩ := e1
    subst hrv hW hout1
    have htype : t2.type = o.2 := by rw [← hty rfl]; exact hout
    obtain ⟨_, _, _, _, hidx⟩ :=
      readShape_props env W _ (layer.atRow c) { li with rownum := c } g a s _ _ hli' hi hg ha e2
    by_cases ht : o.2 = .MS_SHAPE_NULL
    · -- the row has no geometry: the cursor moves on and the loop goes round
      have hty2 : t2.type = .MS_SHAPE_NULL := by rw [htype]; exact ht
      obtain ⟨st, W'', s'', hloop, hcase⟩ :=
        ih (c + 1) f w1 t2 hrest (fun x hx => hok x (by simp [hx])) (by omega) (by omega) hty2
      refine ⟨st, W'', s'', ?_, ?_⟩
      · simp only [nextShapeLoop, hs, if_true, hli', hlt, e2, ne_eq, not_true_eq_false,
          if_false, hty2, atRow_nextRow]
        have : ((c : Int) + 1) = ((c + 1 : Nat) : Int) := by push_cast; rfl
        rw [this]
        exact hloop
      · simp only [List.map_cons, rowsWithShape, ht, ne_eq, not_true_eq_false, if_false]
        exact hcase
    · -- the row has geometry: it is returned and the cursor moves past it
      have hty2 : t2.type ≠ .MS_SHAPE_NULL := by rw [htype]; exact ht
      have hi' : t2.index = (c : Int) := hidx rfl hty2
      refine ⟨.MS_SUCCESS, w1, t2, ?_,
        Or.inr ⟨rfl, hty2, c, os, hi', hrest, fun x hx => hok x (by simp [hx]), by omega, ?_⟩⟩
      · simp only [nextShapeLoop, hs, if_true, hli', hlt, e2, ne_eq, not_true_eq_false,
          if_false, hty2, not_false_eq_true, atRow_nextRow, hi']
      · simp only [List.map_cons, rowsWithShape, ht, ne_eq, not_false_eq_true, if_true]

theorem whichShapes_success (env : TclEnv) (w0 w : World) (layer0 layer : layerObj)
    (rect : rectObj)
    (hws : msTclPlugLayerWhichShapes env w0 layer0 rect = some (.MS_SUCCESS, w, layer)) :
    ∃ li0 n, layer0.layerinfo = some li0 ∧ li0.interp ≠ 0 ∧
      layer = { layer0 with layerinfo := some { li0 with nrows := n, rownum := 0 } } := by
  unfold msTclPlugLayerWhichShapes at hws
  split at hws
  · cases hws
  · rename_i li0 hli0
    split at hws
    · cases hws
    · rename_i hi0
      simp only [msTclPlugSnagRectangleAndUID, hli0, hi0, if_false] at hws
      split at hws
      · cases hws
      · simp only [tclEval] at hws
        split at hws
        · simp at hws
        · split at hws
          · cases hws
          · split at hws
            · simp at hws
            · split at hws
              · simp at hws
              · rename_i n _
                simp only [Option.some.injEq, Prod.mk.injEq, true_and] at hws
                exact ⟨li0, n, hli0, hi0, hws.2.symm⟩

theorem nextShape_spec (env : TclEnv) (layer : layerObj)
    (li : msTclPlugLayerInfo) (g a : Nat) (shape : shapeObj)
    (hli : layer.layerinfo = some li) (hi : li.interp ≠ 0)
    (hg : li.getGeometryCommandObj = some g) (ha : li.getAttributesCommandObj = some a)
    (outs : List (Status × MS_SHAPE_TYPE)) (c : Nat) (W : World) (s : shapeObj)
    (hfetch : fetchRows env layer shape outs.length c W = some outs)
    (hok : ∀ o ∈ outs, o.1 = .MS_SUCCESS)
    (hck : c + outs.length = li.nrows.toNat) :
    ∃ st W' s', msTclPlugLayerNextShape env W (layer.atRow c) s
        = some (st, W', layer.atRow (if st = .MS_SUCCESS then s'.index + 1
                                      else (li.nrows.toNat : Int)), s') ∧
      ((st = .MS_DONE ∧ rowsWithShape c (outs.map (fun o => o.2)) = []) ∨
       (st = .MS_SUCCESS ∧ s'.type ≠ .MS_SHAPE_NULL ∧
          ∃ (j : Nat) (rest : List (Status × MS_SHAPE_TYPE)), s'.index = j ∧
            fetchRows env layer shape rest.length (j + 1) W' = some rest ∧
            (∀ o ∈ rest, o.1 = .MS_SUCCESS) ∧
            (j + 1) + rest.length = li.nrows.toNat ∧
            rowsWithShape c (outs.map (fun o => o.2))
              = j :: rowsWithShape (j + 1) (rest.map (fun o => o.2)))) := by
  have hfuel : outs.length + 1 ≤ (li.nrows - (c : Int)).toNat + 1 := by omega
  have := nextShapeLoop_spec env layer li g a shape hli hi hg ha outs c
    ((li.nrows - (c : Int)).toNat + 1) W { s with type := .MS_SHAPE_NULL } hfetch hok hck
    hfuel rfl
  simpa only [msTclPlugLayerNextShape, atRow_layerinfo layer li c hli] using this

theorem nextShapeRun_spec (env : TclEnv) (layer : layerObj)
    (li : msTclPlugLayerInfo) (g a : Nat) (shape : shapeObj)
    (hli : layer.layerinfo = some li) (hi : li.interp ≠ 0)
    (hg : li.getGeometryCommandObj = some g) (ha : li.getAttributesCommandObj = some a) :
    ∀ (gs : List Nat) (outs : List (Status × MS_SHAPE_TYPE)) (c : Nat) (W : World),
      fetchRows env layer shape outs.length c W = some outs →
      (∀ o ∈ outs, o.1 = .MS_SUCCESS) →
      c + outs.length = li.nrows.toNat →
      rowsWithShape c (outs.map (fun o => o.2)) = gs →
      ∃ rs W' L', nextShapeRun env (gs.length + 1) W (layer.atRow c) shape = some (rs, W', L') ∧
        rs.map (fun r => r.1) = List.replicate gs.length .MS_SUCCESS ++ [.MS_DONE] ∧
        (rs.take gs.length).map (fun r => r.2.index) = gs.map (fun r => (r : Int)) ∧
        ∀ r ∈ rs.take gs.length, r.2.type ≠ .MS_SHAPE_NULL := by
  intro gs
  induction gs with
  | nil =>
    intro outs c W hfetch hok hck hgs
    obtain ⟨st, W', s', hcall, hcase⟩ :=
      nextShape_spec env layer li g a shape hli hi hg ha outs c W shape hfetch hok hck
    rcases hcase with ⟨hst, _⟩ | ⟨_, _, j, rest, _, _, _, _, hf⟩
    · subst hst
      simp only [reduceCtorEq, if_false] at hcall
      exact ⟨[(.MS_DONE, s')], W', layer.atRow (li.nrows.toNat : Int),
        by simp only [List.length_nil, Nat.zero_add, nextShapeRun, hcall], by simp, by simp,
        by simp⟩
    · rw [hgs] at hf
      cases hf
  | cons j tl ih =>
    intro outs c W hfetch hok hck hgs
    obtain ⟨st, W', s', hcall, hcase⟩ :=
      nextShape_spec env layer li g a shape hli hi hg ha outs c W shape hfetch hok hck
    rcases hcase with ⟨_, hf⟩ | ⟨hst, hty, j', rest, hidx, hfetch', hok', hck', hf⟩
    · rw [hgs] at hf
      cases hf
    · subst hst
      rw [hgs] at hf
      simp only [List.cons.injEq] at hf
      obtain ⟨hjj, htl⟩ := hf
      subst hjj
      have hrow : s'.index + 1 = ((j + 1 : Nat) : Int) := by rw [hidx]; push_cast; rfl
      simp only [if_true, hrow] at hcall
      obtain ⟨rs, W'', L'', hrun, hsts, hidxs, htys⟩ :=
        ih rest (j + 1) W' hfetch' hok' hck' htl.symm
      refine ⟨(.MS_SUCCESS, s') :: rs, W'', L'', ?_, ?_, ?_, ?_⟩
      · rw [List.length_cons, nextShapeRun, hcall]
        simp only [hrun]
      · simp [hsts, List.replicate_succ]
      · simp [hidxs, hidx]
      · intro r hr
        simp only [List.length_cons, List.take_succ_cons, List.mem_cons] at hr
        rcases hr with h | h
        · subst h; exact hty
        · exact htys r h

theorem fetchRows_length (env : TclEnv) (layer : layerObj) (shape : shapeObj) :
    ∀ (k c : Nat) (w : World) (outs : List (Status × MS_SHAPE_TYPE)),
      fetchRows env layer shape k c w = some outs → outs.length = k := by
  intro k
  induction k with
  | zero =>
    intro c w outs h
    simp only [fetchRows, Option.some.injEq] at h
    rw [← h]; rfl
  | succ k ih =>
    intro c w outs h
    simp only [fetchRows] at h
    split at h
    · cases h
    · split at h
      · cases h
      · rename_i rest hrest
        simp only [Option.some.injEq] at h
        rw [← h, List.length_cons, ih _ _ _ hrest]

/-- C1. After a msTclPlugLayerWhichShapes that succeeded with row count n,
when the fetches of the rows 0 to n-1, made one after the other, all
succeed, successive msTclPlugLayerNextShape calls return MS_SUCCESS once for
each row below n whose fetch gave a geometry kind other than "none", in
ascending order of the rows, each record carrying the row as its index and a
geometry kind, and the call after the last of them returns MS_DONE. -/
theorem nextShape_yields_shape_rows (env : TclEnv) (w0 w : World) (layer0 layer : layerObj)
    (rect : rectObj) (li : msTclPlugLayerInfo) (g a : Nat) (shape : shapeObj)
    (outs : List (Status × MS_SHAPE_TYPE))
    (hws : msTclPlugLayerWhichShapes env w0 layer0 rect = some (.MS_SUCCESS, w, layer))
    (hli : layer.layerinfo = some li)
    (hg : li.getGeometryCommandObj = some g) (ha : li.getAttributesCommandObj = some a)
    (hfetch : fetchRows env layer shape li.nrows.toNat 0 w = some outs)
    (hok : ∀ o ∈ outs, o.1 = .MS_SUCCESS) :
    ∃ rs w' layer',
      nextShapeRun env ((rowsWithShape 0 (outs.map (fun o => o.2))).length + 1) w layer shape
        = some (rs, w', layer') ∧
      rs.map (fun r => r.1)
        = List.replicate (rowsWithShape 0 (outs.map (fun o => o.2))).length .MS_SUCCESS
            ++ [.MS_DONE] ∧
      (rs.take (rowsWithShape 0 (outs.map (fun o => o.2))).length).map (fun r => r.2.index)
        = (rowsWithShape 0 (outs.map (fun o => o.2))).map (fun r => (r : Int)) ∧
      ∀ r ∈ rs.take (rowsWithShape 0 (outs.map (fun o => o.2))).length,
        r.2.type ≠ .MS_SHAPE_NULL := by
  obtain ⟨li0, n, hli0, hi0, hlayer⟩ := whichShapes_success env w0 w layer0 layer rect hws
  have hli' : li = { li0 with nrows := n, rownum := 0 } := by
    rw [hlayer] at hli
    simp only [Option.some.injEq] at hli
    exact hli.symm
  have hi : li.interp ≠ 0 := by rw [hli']; exact hi0
  have hat : layer.atRow ((0 : Nat) : Int) = layer := by
    rw [atRow_eq layer li _ hli]
    rw [hlayer, hli']
    rfl
  have hlen := fetchRows_length env layer shape _ _ _ _ hfetch
  have := nextShapeRun_spec env layer li g a shape hli hi hg ha
    (rowsWithShape 0 (outs.map (fun o => o.2))) outs 0 w (by rw [hlen]; exact hfetch) hok
    (by omega) rfl
  rw [hat] at this
  exact this

/-- The bound given to the loop of msTclPlugLayerNextShape is immaterial:
with any two bounds above the number of rows left the loop does the
same. -/
theorem nextShapeLoop_fuel (env : TclEnv) (layer : layerObj)
    (li : msTclPlugLayerInfo) (hli : layer.layerinfo = some li) :
    ∀ (k f1 f2 : Nat) (c : Int) (W : World) (s : shapeObj),
      (li.nrows - c).toNat = k → k + 1 ≤ f1 → k + 1 ≤ f2 →
      nextShapeLoop env f1 W (layer.atRow c) s = nextShapeLoop env f2 W (layer.atRow c) s := by
  intro k
  induction k with
  | zero =>
    intro f1 f2 c W s hk h1 h2
    obtain ⟨a, rfl⟩ : ∃ a, f1 = a + 1 := ⟨f1 - 1, by omega⟩
    obtain ⟨b, rfl⟩ : ∃ b, f2 = b + 1 := ⟨f2 - 1, by omega⟩
    have hlt : ¬ (c < li.nrows) := by omega
    simp only [nextShapeLoop, atRow_layerinfo layer li c hli, hlt, if_false]
  | succ k ih =>
    intro f1 f2 c W s hk h1 h2
    obtain ⟨a, rfl⟩ : ∃ a, f1 = a + 1 := ⟨f1 - 1, by omega⟩
    obtain ⟨b, rfl⟩ : ∃ b, f2 = b + 1 := ⟨f2 - 1, by omega⟩
    have hlt : c < li.nrows := by omega
    simp only [nextShapeLoop, atRow_layerinfo layer li c hli, hlt, if_true, atRow_nextRow]
    by_cases hs : s.type = .MS_SHAPE_NULL
    · simp only [hs, if_true]
      cases hr : msTclPlugReadShape env W (layer.atRow c) s with
      | none => rfl
      | some r =>
        obtain ⟨rv, W', s'⟩ := r
        simp only
        by_cases hrv : rv = .MS_SUCCESS
        · by_cases hty : s'.type = .MS_SHAPE_NULL
          · simp only [hrv, ne_eq, not_true_eq_false, if_false, hty]
            exact ih a b (c + 1) W' s' (by omega) (by omega) (by omega)
          · simp only [hrv, ne_eq, not_true_eq_false, if_false, hty, not_false_eq_true,
              if_true]
        · simp only [ne_eq, hrv, not_false_eq_true, if_true]
    · simp only [hs, if_false]

theorem nextShapeLoop_returns (env : TclEnv) (layer : layerObj)
    (li : msTclPlugLayerInfo) (g a : Nat)
    (hli : layer.layerinfo = some li) (hi : li.interp ≠ 0)
    (hg : li.getGeometryCommandObj = some g) (ha : li.getAttributesCommandObj = some a)
    (hkept : ∀ st c, env.resultKept st c = true) :
    ∀ (k fuel : Nat) (c : Int) (W : World) (s : shapeObj),
      (li.nrows - c).toNat = k → k + 1 ≤ fuel →
      ∃ r, nextShapeLoop env fuel W (layer.atRow c) s = some r := by
  intro k
  induction k with
  | zero =>
    intro fuel c W s hk hfuel
    obtain ⟨f, rfl⟩ : ∃ f, fuel = f + 1 := ⟨fuel - 1, by omega⟩
    have hlt : ¬ (c < li.nrows) := by omega
    by_cases hs : s.type = .MS_SHAPE_NULL
    · simp only [nextShapeLoop, hs, if_true, atRow_layerinfo layer li c hli, hlt, if_false]
      exact ⟨_, rfl⟩
    · simp only [nextShapeLoop, hs, if_false]
      exact ⟨_, rfl⟩
  | succ k ih =>
    intro fuel c W s hk hfuel
    obtain ⟨f, rfl⟩ : ∃ f, fuel = f + 1 := ⟨fuel - 1, by omega⟩
    have hlt : c < li.nrows := by omega
    by_cases hs : s.type = .MS_SHAPE_NULL
    · obtain ⟨rv, W', s', hread, _⟩ :=
        readShape_total env W (layer.atRow c) { li with rownum := c } g a s
          (atRow_layerinfo layer li c hli) hi hg ha (hkept _ _)
      simp only [nextShapeLoop, hs, if_true, atRow_layerinfo layer li c hli, hlt, hread,
        atRow_nextRow]
      by_cases hrv : rv = .MS_SUCCESS
      · by_cases hty : s'.type = .MS_SHAPE_NULL
        · simp only [hrv, ne_eq, not_true_eq_false, if_false, hty]
          exact ih f (c + 1) W' s' (by omega) (by omega)
        · simp only [hrv, ne_eq, not_true_eq_false, if_false, hty, not_false_eq_true, if_true]
          exact ⟨_, rfl⟩
      · simp only [ne_eq, hrv, not_false_eq_true, if_true]
        exact ⟨_, rfl⟩
    · simp only [nextShapeLoop, hs, if_false]
      exact ⟨_, rfl⟩

/-- On an open session, with scripts whose answers are referenced from
elsewhere than the interpreter result, msTclPlugLayerNextShape always
returns: no fetch ends the model and the bound given to its loop is never
used up. -/
theorem nextShape_returns (env : TclEnv) (w : World) (layer : layerObj)
    (li : msTclPlugLayerInfo) (g a : Nat) (shape : shapeObj)
    (hli : layer.layerinfo = some li) (hi : li.interp ≠ 0)
    (hg : li.getGeometryCommandObj = some g) (ha : li.getAttributesCommandObj = some a)
    (hk : ∀ st c, env.resultKept st c = true) :
    ∃ r, msTclPlugLayerNextShape env w layer shape = some r := by
  have hat : layer.atRow li.rownum = layer := by
    rw [atRow_eq layer li _ hli]
    cases layer
    simp only at hli
    subst hli
    rfl
  have := nextShapeLoop_returns env layer li g a hli hi hg ha hk
    (li.nrows - li.rownum).toNat ((li.nrows - li.rownum).toNat + 1) li.rownum w
    { shape with type := .MS_SHAPE_NULL } rfl (le_refl _)
  rw [hat] at this
  simpa only [msTclPlugLayerNextShape, hli] using this

/-! ## Opening and closing -/

/-- C8. On an open layer msTclPlugLayerClose returns MS_SUCCESS and leaves
the layer without a session, so that msTclPlugLayerIsOpen is false, whatever
the layer_close procedure answers, an error included. -/
theorem close_succeeds_and_detaches (env : TclEnv) (w : World) (layer : layerObj)
    (li : msTclPlugLayerInfo) (c : Nat)
    (hli : layer.layerinfo = some li) (hi : li.interp ≠ 0)
    (hc : li.layerCloseCommandObj = some c) :
    ∃ w' layer', msTclPlugLayerClose env w layer = some (.MS_SUCCESS, w', layer') ∧
      layer'.layerinfo = none ∧ msTclPlugLayerIsOpen layer' = false := by
  simp only [msTclPlugLayerClose, hli, hi, hc, if_false, msTclPlugFreeLayerInfo]
  exact ⟨_, _, rfl, rfl, rfl⟩

/-- Witness of C8: closing the example session, whose layer_close succeeds. -/
theorem close_succeeds_and_detaches_witness :
    demoSession.layerinfo = some demoInfo ∧ demoInfo.interp ≠ 0 ∧
    demoInfo.layerCloseCommandObj = some 6 ∧
    ∃ w' layer', msTclPlugLayerClose demoEnv demoWorld demoSession
        = some (.MS_SUCCESS, w', layer') ∧
      layer'.layerinfo = none ∧ msTclPlugLayerIsOpen layer' = false :=
  ⟨rfl, by decide, rfl,
    close_succeeds_and_detaches demoEnv demoWorld demoSession demoInfo 6 rfl (by decide) rfl⟩

/-- C9, the code at the failing input.  Opening the example layer in an
empty process and closing it at once, both with success, leaves the layer
without a session but two of the seven command names still referenced:
layer_open was retained twice and released once, geo_query was retained once
and never released.  The other five are back at zero and freed. -/
theorem open_close_keeps_two_references :
    ((msTclPlugLayerOpen demoEnv {} demoLayer).bind
      (fun o => (msTclPlugLayerClose demoEnv o.2.1 o.2.2).map
        (fun c => (o.1, c.1, c.2.2.layerinfo,
          (List.range 7).map (fun p => ((c.2.1.objs p).bytes, (c.2.1.objs p).refCount))))))
      = some (.MS_SUCCESS, .MS_SUCCESS, none,
          [("::layer_open", 1), ("::geo_query", 1), ("::get_items", 0), ("::get_shape", 0),
           ("::get_geometry", 0), ("::get_attributes", 0), ("::layer_close", 0)]) := by
  decide

theorem newStringObj_objs (w : World) (s : String) (p : Nat) :
    (Tcl_NewStringObj w s).2.objs p
      = if p = w.nextObj then { bytes := s, refCount := 0, freed := false } else w.objs p := by
  simp [Tcl_NewStringObj, Function.update_apply]

@[simp] theorem newStringObj_fst (w : World) (s : String) :
    (Tcl_NewStringObj w s).1 = w.nextObj := rfl

@[simp] theorem newStringObj_nextObj (w : World) (s : String) :
    (Tcl_NewStringObj w s).2.nextObj = w.nextObj + 1 := rfl

theorem appendToObj_objs (w : World) (q : Nat) (s : String) (p : Nat) :
    (Tcl_AppendToObj w q s).objs p
      = if p = q then { w.objs q with bytes := (w.objs q).bytes ++ s } else w.objs p := by
  by_cases h : p = q
  · subst h; simp [Tcl_AppendToObj]
  · simp [Tcl_AppendToObj, Function.update_noteq h, h]

theorem incrRefCount_objs (w : World) (q p : Nat) :
    (Tcl_IncrRefCount w q).objs p
      = if p = q then { w.objs q with refCount := (w.objs q).refCount + 1 } else w.objs p := by
  by_cases h : p = q
  · subst h; simp [Tcl_IncrRefCount]
  · simp [Tcl_IncrRefCount, Function.update_noteq h, h]

theorem bindCommands_names (w : World) (layer : layerObj) (li : msTclPlugLayerInfo) :
    (bindCommands w layer li).2.interp = li.interp ∧
    (bindCommands w layer li).2.layerOpenCommandObj.map
        (fun p => ((bindCommands w layer li).1.objs p).bytes)
      = some ((msLookupHashTable layer.metadata "namespace").getD "" ++ "::layer_open") ∧
    (bindCommands w layer li).2.getItemsCommandObj.map
        (fun p => ((bindCommands w layer li).1.objs p).bytes)
      = some ((msLookupHashTable layer.metadata "namespace").getD "" ++ "::get_items") ∧
    (bindCommands w layer li).2.getShapeCommandObj.map
        (fun p => ((bindCommands w layer li).1.objs p).bytes)
      = some ((msLookupHashTable layer.metadata "namespace").getD "" ++ "::get_shape") ∧
    (bindCommands w layer li).2.geoQueryCommandObj.map
        (fun p => ((bindCommands w layer li).1.objs p).bytes)
      = some ((msLookupHashTable layer.metadata "namespace").getD "" ++ "::geo_query") ∧
    (bindCommands w layer li).2.getGeometryCommandObj.map
        (fun p => ((bindCommands w layer li).1.objs p).bytes)
      = some ((msLookupHashTable layer.metadata "namespace").getD "" ++ "::get_geometry") ∧
    (bindCommands w layer li).2.getAttributesCommandObj.map
        (fun p => ((bindCommands w layer li).1.objs p).bytes)
      = some ((msLookupHashTable layer.metadata "namespace").getD "" ++ "::get_attributes") ∧
    (bindCommands w layer li).2.layerCloseCommandObj.map
        (fun p => ((bindCommands w layer li).1.objs p).bytes)
      = some ((msLookupHashTable layer.metadata "namespace").getD "" ++ "::layer_close") := by
  cases h : msLookupHashTable layer.metadata "namespace" <;>
    simp [bindCommands, h, newStringObj_objs, appendToObj_objs, incrRefCount_objs,
      Nat.add_assoc]


@[simp] theorem set_tcl_var_string_objs (w : World) (i : Int) (n : String) (v : Option String) :
    (set_tcl_var_string w i n v).objs = w.objs := by
  cases v <;> rfl

theorem parseData_objs (w w' : World) (layer : layerObj) (st : Status)
    (h : msTclPlugParseData w layer = some (st, w')) :
    st = .MS_SUCCESS ∧ w'.objs = w.objs := by
  unfold msTclPlugParseData at h
  split at h
  · cases h
  · split at h
    · cases h
    · simp only [Option.some.injEq, Prod.mk.injEq] at h
      obtain ⟨h1, h2⟩ := h
      refine ⟨h1.symm, ?_⟩
      rw [← h2]
      split <;> simp

theorem openBound_result (env : TclEnv) (w w' : World) (layer layer' : layerObj)
    (li0 : msTclPlugLayerInfo) (interp : Int) (st : Status)
    (hopen : openBound env w layer li0 interp = some (st, w', layer')) :
    layer'.layerinfo = some li0 ∧ ∀ p, (w'.objs p).bytes = (w.objs p).bytes := by
  unfold openBound at hopen
  simp only at hopen
  split at hopen
  · cases hopen
  · rename_i st1 w3 hpd
    obtain ⟨hst1, hobjs3⟩ := parseData_objs _ _ _ _ hpd
    subst hst1
    simp only [ne_eq, not_true_eq_false, if_false] at hopen
    split at hopen
    · cases hopen
    · rename_i o ho
      simp only [tclEval] at hopen
      split at hopen
      · simp only [Option.some.injEq, Prod.mk.injEq] at hopen
        obtain ⟨_, hw, hl⟩ := hopen
        refine ⟨by rw [← hl], fun p => ?_⟩
        rw [← hw]
        simp [hobjs3]
      · simp only [Option.some.injEq, Prod.mk.injEq] at hopen
        obtain ⟨_, hw, hl⟩ := hopen
        refine ⟨by rw [← hl], fun p => ?_⟩
        rw [← hw]
        simp [hobjs3]

theorem openWithInterp_names (env : TclEnv) (w w' : World) (layer layer' : layerObj)
    (li0 li : msTclPlugLayerInfo) (interp : Int) (st : Status)
    (hopen : openWithInterp env w layer li0 interp = some (st, w', layer'))
    (hli : layer'.layerinfo = some li) :
    li.layerOpenCommandObj.map (fun p => (w'.objs p).bytes)
      = some ((msLookupHashTable layer.metadata "namespace").getD "" ++ "::layer_open") ∧
    li.getItemsCommandObj.map (fun p => (w'.objs p).bytes)
      = some ((msLookupHashTable layer.metadata "namespace").getD "" ++ "::get_items") ∧
    li.getShapeCommandObj.map (fun p => (w'.objs p).bytes)
      = some ((msLookupHashTable layer.metadata "namespace").getD "" ++ "::get_shape") ∧
    li.geoQueryCommandObj.map (fun p => (w'.objs p).bytes)
      = some ((msLookupHashTable layer.metadata "namespace").getD "" ++ "::geo_query") ∧
    li.getGeometryCommandObj.map (fun p => (w'.objs p).bytes)
      = some ((msLookupHashTable layer.metadata "namespace").getD "" ++ "::get_geometry") ∧
    li.getAttributesCommandObj.map (fun p => (w'.objs p).bytes)
      = some ((msLookupHashTable layer.metadata "namespace").getD "" ++ "::get_attributes") ∧
    li.layerCloseCommandObj.map (fun p => (w'.objs p).bytes)
      = some ((msLookupHashTable layer.metadata "namespace").getD "" ++ "::layer_close") := by
  unfold openWithInterp at hopen
  obtain ⟨hl, hb⟩ := openBound_result _ _ _ _ _ _ _ _ hopen
  rw [hl] at hli
  simp only [Option.some.injEq] at hli
  have hbytes : (fun p => (w'.objs p).bytes) = _ := funext hb
  rw [hbytes, ← hli]
  exact (bindCommands_names _ layer _).2

/-- C10. When msTclPlugLayerOpen attaches a session to a layer that had
none, the seven command names of the session are the value stored under the
metadata key "namespace", or the empty string when the key is absent,
followed by ::layer_open, ::get_items, ::get_shape, ::geo_query,
::get_geometry, ::get_attributes and ::layer_close. -/
theorem open_binds_namespaced_commands (env : TclEnv) (w w' : World)
    (layer layer' : layerObj) (st : Status) (li : msTclPlugLayerInfo)
    (hclosed : layer.layerinfo = none)
    (hopen : msTclPlugLayerOpen env w layer = some (st, w', layer'))
    (hli : layer'.layerinfo = some li) :
    li.layerOpenCommandObj.map (fun p => (w'.objs p).bytes)
      = some ((msLookupHashTable layer.metadata "namespace").getD "" ++ "::layer_open") ∧
    li.getItemsCommandObj.map (fun p => (w'.objs p).bytes)
      = some ((msLookupHashTable layer.metadata "namespace").getD "" ++ "::get_items") ∧
    li.getShapeCommandObj.map (fun p => (w'.objs p).bytes)
      = some ((msLookupHashTable layer.metadata "namespace").getD "" ++ "::get_shape") ∧
    li.geoQueryCommandObj.map (fun p => (w'.objs p).bytes)
      = some ((msLookupHashTable layer.metadata "namespace").getD "" ++ "::geo_query") ∧
    li.getGeometryCommandObj.map (fun p => (w'.objs p).bytes)
      = some ((msLookupHashTable layer.metadata "namespace").getD "" ++ "::get_geometry") ∧
    li.getAttributesCommandObj.map (fun p => (w'.objs p).bytes)
      = some ((msLookupHashTable layer.metadata "namespace").getD "" ++ "::get_attributes") ∧
    li.layerCloseCommandObj.map (fun p => (w'.objs p).bytes)
      = some ((msLookupHashTable layer.metadata "namespace").getD "" ++ "::layer_close") := by
  unfold msTclPlugLayerOpen at hopen
  rw [hclosed] at hopen
  simp only [Option.isSome_none, Bool.false_eq_true, if_false] at hopen
  split at hopen
  · -- no DATA: the layer is returned as it was
    simp only [Option.some.injEq, Prod.mk.injEq] at hopen
    rw [← hopen.2.2, hclosed] at hli
    cases hli
  · rcases hacq : acquireInterp env w layer with ⟨w1, oi⟩
    rw [hacq] at hopen
    cases oi with
    | none =>
      simp only [Option.some.injEq, Prod.mk.injEq] at hopen
      rw [← hopen.2.2, hclosed] at hli
      cases hli
    | some interp =>
      exact openWithInterp_names env w1 w' layer layer' _ li interp st hopen hli

theorem decrRefCount_objs (w : World) (q p : Nat) :
    (Tcl_DecrRefCount w q).objs p
      = if p = q then { w.objs q with
            refCount := (w.objs q).refCount - 1,
            freed := (w.objs q).freed || decide ((w.objs q).refCount - 1 ≤ 0) }
        else w.objs p := by
  by_cases h : p = q
  · subst h; simp [Tcl_DecrRefCount]
  · simp [Tcl_DecrRefCount, Function.update_noteq h, h]

theorem bindCommands_cells (w : World) (layer : layerObj) (li : msTclPlugLayerInfo) :
    (bindCommands w layer li).2.layerOpenCommandObj = some w.nextObj ∧
    (bindCommands w layer li).2.geoQueryCommandObj = some (w.nextObj + 1) ∧
    (bindCommands w layer li).2.getItemsCommandObj = some (w.nextObj + 2) ∧
    (bindCommands w layer li).2.getShapeCommandObj = some (w.nextObj + 3) ∧
    (bindCommands w layer li).2.getGeometryCommandObj = some (w.nextObj + 4) ∧
    (bindCommands w layer li).2.getAttributesCommandObj = some (w.nextObj + 5) ∧
    (bindCommands w layer li).2.layerCloseCommandObj = some (w.nextObj + 6) ∧
    ((bindCommands w layer li).1.objs w.nextObj).refCount = 1 ∧
    ((bindCommands w layer li).1.objs (w.nextObj + 1)).refCount = 1 ∧
    ((bindCommands w layer li).1.objs w.nextObj).freed = false ∧
    ((bindCommands w layer li).1.objs (w.nextObj + 1)).freed = false := by
  simp [bindCommands, newStringObj_objs, appendToObj_objs, incrRefCount_objs, Nat.add_assoc]

theorem parseData_objs_eq (w w' : World) (layer : layerObj) (st : Status)
    (h : msTclPlugParseData w layer = some (st, w')) : w'.objs = w.objs :=
  (parseData_objs w w' layer st h).2

theorem openBound_objs (env : TclEnv) (w w' : World) (layer layer' : layerObj)
    (li0 : msTclPlugLayerInfo) (interp : Int) (st : Status)
    (hopen : openBound env w layer li0 interp = some (st, w', layer')) :
    ∃ o, li0.layerOpenCommandObj = some o ∧ w'.objs = (Tcl_IncrRefCount w o).objs := by
  unfold openBound at hopen
  simp only at hopen
  split at hopen
  · cases hopen
  · rename_i st1 w3 hpd
    obtain ⟨hst1, hobjs3⟩ := parseData_objs _ _ _ _ hpd
    subst hst1
    simp only [ne_eq, not_true_eq_false, if_false] at hopen
    split at hopen
    · cases hopen
    · rename_i o ho
      refine ⟨o, ho, ?_⟩
      simp only [tclEval] at hopen
      split at hopen
      · simp only [Option.some.injEq, Prod.mk.injEq] at hopen
        obtain ⟨_, hw, _⟩ := hopen
        rw [← hw]
        funext p
        simp [incrRefCount_objs, hobjs3]
      · simp only [Option.some.injEq, Prod.mk.injEq] at hopen
        obtain ⟨_, hw, _⟩ := hopen
        rw [← hw]
        funext p
        simp [incrRefCount_objs, hobjs3]

theorem decrIfBound_objs_congr (w w' : World) (p : Option Nat) (h : w.objs = w'.objs) :
    (decrIfBound w p).objs = (decrIfBound w' p).objs := by
  cases p with
  | none => exact h
  | some q =>
    funext x
    simp only [decrIfBound, decrRefCount_objs, h]

theorem closeCallout_objs (env : TclEnv) (w : World) (layer : layerObj) (i : Int) (c : Nat) :
    (closeCallout env w layer i c).objs = w.objs := by
  simp only [closeCallout, tclEval]
  split <;> simp

theorem freeLayerInfo_objs (w w' : World) (layer layer' : layerObj) (li : msTclPlugLayerInfo)
    (hli : layer.layerinfo = some li)
    (h : msTclPlugFreeLayerInfo w layer = some (w', layer')) :
    layer'.layerinfo = none ∧
    w'.objs = (decrIfBound (decrIfBound (decrIfBound (decrIfBound (decrIfBound
      (decrIfBound w li.layerOpenCommandObj) li.getItemsCommandObj) li.getShapeCommandObj)
      li.getGeometryCommandObj) li.getAttributesCommandObj) li.layerCloseCommandObj).objs := by
  simp only [msTclPlugFreeLayerInfo, hli, Option.some.injEq, Prod.mk.injEq] at h
  obtain ⟨hw, hl⟩ := h
  refine ⟨by rw [← hl], ?_⟩
  rw [← hw]
  split_ifs <;> rfl

theorem close_objs (env : TclEnv) (w1 w2 : World) (layer1 layer2 : layerObj) (st2 : Status)
    (li : msTclPlugLayerInfo)
    (hli : layer1.layerinfo = some li)
    (hclose : msTclPlugLayerClose env w1 layer1 = some (st2, w2, layer2)) :
    layer2.layerinfo = none ∧
    w2.objs = (decrIfBound (decrIfBound (decrIfBound (decrIfBound (decrIfBound
      (decrIfBound w1 li.layerOpenCommandObj) li.getItemsCommandObj) li.getShapeCommandObj)
      li.getGeometryCommandObj) li.getAttributesCommandObj) li.layerCloseCommandObj).objs := by
  unfold msTclPlugLayerClose at hclose
  rw [hli] at hclose
  simp only at hclose
  split at hclose
  · cases hclose
  · split at hclose
    · cases hclose
    · rename_i c hc
      split at hclose
      · cases hclose
      · rename_i wf lf hfree
        simp only [Option.some.injEq, Prod.mk.injEq] at hclose
        obtain ⟨_, hw2, hl2⟩ := hclose
        subst hw2 hl2
        obtain ⟨h1, h2⟩ := freeLayerInfo_objs _ _ _ _ li hli hfree
        refine ⟨h1, ?_⟩
        rw [h2]
        exact decrIfBound_objs_congr _ _ li.layerCloseCommandObj
          (decrIfBound_objs_congr _ _ li.getAttributesCommandObj
            (decrIfBound_objs_congr _ _ li.getGeometryCommandObj
              (decrIfBound_objs_congr _ _ li.getShapeCommandObj
                (decrIfBound_objs_congr _ _ li.getItemsCommandObj
                  (decrIfBound_objs_congr _ w1 li.layerOpenCommandObj
                    (closeCallout_objs env w1 layer1 li.interp c))))))

/-- Whatever the world, the layer and the scripts, an Open that attaches a
session followed by Close leaves the geo_query command name with one
reference and the layer_open command name with one reference, neither
freed: msTclPlugFreeLayerInfo does not release the first, and the second was
retained twice. -/
theorem open_close_leaves_references (env : TclEnv) (w w1 w2 : World)
    (layer layer1 layer2 : layerObj) (st st2 : Status) (li : msTclPlugLayerInfo)
    (hclosed : layer.layerinfo = none)
    (hopen : msTclPlugLayerOpen env w layer = some (st, w1, layer1))
    (hli : layer1.layerinfo = some li)
    (hclose : msTclPlugLayerClose env w1 layer1 = some (st2, w2, layer2)) :
    layer2.layerinfo = none ∧
    ∃ o q, li.layerOpenCommandObj = some o ∧ li.geoQueryCommandObj = some q ∧
      (w2.objs o).refCount = 1 ∧ (w2.objs o).freed = false ∧
      (w2.objs q).refCount = 1 ∧ (w2.objs q).freed = false := by
  -- the state after Open
  have hafter : ∃ (n : Nat) (B : World),
      li.layerOpenCommandObj = some n ∧ li.geoQueryCommandObj = some (n + 1) ∧
      li.getItemsCommandObj = some (n + 2) ∧ li.getShapeCommandObj = some (n + 3) ∧
      li.getGeometryCommandObj = some (n + 4) ∧ li.getAttributesCommandObj = some (n + 5) ∧
      li.layerCloseCommandObj = some (n + 6) ∧
      (B.objs n).refCount = 1 ∧ (B.objs (n + 1)).refCount = 1 ∧
      (B.objs n).freed = false ∧ (B.objs (n + 1)).freed = false ∧
      w1.objs = (Tcl_IncrRefCount B n).objs := by
    unfold msTclPlugLayerOpen at hopen
    rw [hclosed] at hopen
    simp only [Option.isSome_none, Bool.false_eq_true, if_false] at hopen
    split at hopen
    · simp only [Option.some.injEq, Prod.mk.injEq] at hopen
      rw [← hopen.2.2, hclosed] at hli
      cases hli
    · rcases hacq : acquireInterp env w layer with ⟨w0, oi⟩
      rw [hacq] at hopen
      cases oi with
      | none =>
        simp only [Option.some.injEq, Prod.mk.injEq] at hopen
        rw [← hopen.2.2, hclosed] at hli
        cases hli
      | some interp =>
        simp only [openWithInterp] at hopen
        have hcells := bindCommands_cells
          (w0.setInterp interp { w0.interps interp with pluglayer := some layer.addr }) layer
          { msTclPlugCreateLayerInfo with interp := interp }
        generalize bindCommands
          (w0.setInterp interp { w0.interps interp with pluglayer := some layer.addr }) layer
          { msTclPlugCreateLayerInfo with interp := interp } = B at hopen hcells
        obtain ⟨hl, _⟩ := openBound_result _ _ _ _ _ _ _ _ hopen
        obtain ⟨o, ho, hobjs⟩ := openBound_objs _ _ _ _ _ _ _ _ hopen
        rw [hl] at hli
        simp only [Option.some.injEq] at hli
        subst hli
        obtain ⟨c1, c2, c3, c4, c5, c6, c7, r1, r2, f1, f2⟩ := hcells
        rw [c1] at ho
        simp only [Option.some.injEq] at ho
        subst ho
        exact ⟨_, B.1, c1, c2, c3, c4, c5, c6, c7, r1, r2, f1, f2, hobjs⟩
  obtain ⟨n, B, c1, c2, c3, c4, c5, c6, c7, r1, r2, f1, f2, hobjs1⟩ := hafter
  obtain ⟨hl2, hobjs2⟩ := close_objs env w1 w2 layer1 layer2 st2 li hli hclose
  refine ⟨hl2, n, n + 1, c1, c2, ?_⟩
  have h2 := decrIfBound_objs_congr _ _ li.layerCloseCommandObj
    (decrIfBound_objs_congr _ _ li.getAttributesCommandObj
      (decrIfBound_objs_congr _ _ li.getGeometryCommandObj
        (decrIfBound_objs_congr _ _ li.getShapeCommandObj
          (decrIfBound_objs_congr _ _ li.getItemsCommandObj
            (decrIfBound_objs_congr w1 (Tcl_IncrRefCount B n) li.layerOpenCommandObj hobjs1)))))
  rw [hobjs2, h2, c1, c3, c4, c5, c6, c7]
  simp only [decrIfBound, decrRefCount_objs, incrRefCount_objs]
  simp [r1, r2, f1, f2]

/-! ## Opening: the DATA check and the layer_open callout -/

/-- C11 (amended to a missing DATA statement).  On a layer that is not open
and whose DATA is absent (NULL) msTclPlugLayerOpen returns MS_FAILURE, reports
the error, enters no interpreter, so that no script procedure runs, and
leaves the layer as it was, closed. -/
theorem open_without_data_fails (env : TclEnv) (w : World) (layer : layerObj)
    (hclosed : layer.layerinfo = none) (hdata : layer.data = none) :
    msTclPlugLayerOpen env w layer
      = some (.MS_FAILURE,
          msSetError w .MS_QUERYERR "Nothing specified in DATA statement."
            "msTclPlugLayerOpen()" [],
          layer) ∧
    (msSetError w .MS_QUERYERR "Nothing specified in DATA statement."
        "msTclPlugLayerOpen()" []).interps = w.interps ∧
    msTclPlugLayerIsOpen layer = false := by
  refine ⟨?_, rfl, ?_⟩
  · simp [msTclPlugLayerOpen, hclosed, hdata]
  · simp [msTclPlugLayerIsOpen, hclosed]

/-- C11, the claim at an empty DATA string.  The example layer with DATA ""
is opened with success: layer_open is called with the layer name and the
layer is open afterwards. -/
theorem open_accepts_empty_data :
    demoEmptyDataLayer.layerinfo = none ∧ demoEmptyDataLayer.data = some "" ∧
    (msTclPlugLayerOpen demoEnv {} demoEmptyDataLayer).map
        (fun o => (o.1, o.2.1.calls 1, msTclPlugLayerIsOpen o.2.2))
      = some (.MS_SUCCESS, [.Tcl_EvalObjv "::layer_open" [.string "roads"]], true) := by
  decide

/-- When every call of layer_open with the layer name is answered with an
error, msTclPlugLayerOpen on a closed layer never returns MS_SUCCESS. -/
theorem open_fails_when_layer_open_errors (env : TclEnv) (w : World) (layer : layerObj)
    (hclosed : layer.layerinfo = none)
    (herr : ∀ st cmd, (env.script st (.Tcl_EvalObjv cmd [.string (layer.name.getD "")])).1
      = .TCL_ERROR)
    (r : Status × World × layerObj) (h : msTclPlugLayerOpen env w layer = some r) :
    r.1 = .MS_FAILURE := by
  simp only [msTclPlugLayerOpen, hclosed, Option.isSome_none, Bool.false_eq_true, if_false] at h
  split at h
  · cases h; rfl
  · split at h
    · cases h; rfl
    · simp only [openWithInterp, openBound] at h
      split at h
      · cases h
      · split at h
        · cases h; rfl
        · split at h
          · cases h
          · simp only [tclEval, herr, if_true] at h
            cases h; rfl

/-- C12, the code at the failing input.  The example layer, with DATA set,
is opened with a script that has no layer_open procedure: the call of
layer_open is an error, msTclPlugLayerOpen reports it and returns MS_FAILURE,
and the session stays attached, so that the layer counts as open. -/
theorem open_fails_on_layer_open_error :
    (msTclPlugLayerOpen demoNoOpenHookEnv {} demoLayer).map
        (fun o => (o.1, o.2.1.calls 1, msTclPlugLayerIsOpen o.2.2, o.2.1.errors))
      = some (.MS_FAILURE, [.Tcl_EvalObjv "::layer_open" [.string "roads"]], true,
          [{ code := .MS_QUERYERR, message := "Error opening layer: %s.",
             routine := "msTclPlugLayerLayerOpen()",
             args := [.str "invalid command name \"::layer_open\""] }]) := by
  decide

/-! ## The query step -/

theorem connectionAnswer_eq (env : TclEnv) (w : World) (layer : layerObj) (i : Int)
    (rect : rectObj) (connection : String) :
    (connectionAnswer env w layer i rect connection).2.2.objs = w.objs := by
  simp [connectionAnswer, tclEval, set_tcl_var_obj]

theorem whichShapes_steps (env : TclEnv) (w : World) (layer : layerObj) (rect : rectObj)
    (li : msTclPlugLayerInfo) (q : Nat) (connection : String)
    (hli : layer.layerinfo = some li) (hi : li.interp ≠ 0)
    (hq : li.geoQueryCommandObj = some q) (hconn : layer.connection = some connection) :
    msTclPlugLayerWhichShapes env w layer rect =
      if (connectionAnswer env w layer li.interp rect connection).1 = .TCL_ERROR then
        some (.MS_FAILURE,
          Tcl_BackgroundError
            (Tcl_AddErrorInfo
              (Tcl_AddErrorInfo
                (Tcl_AddErrorInfo
                  (msSetError (connectionAnswer env w layer li.interp rect connection).2.2
                    .MS_QUERYERR "Error executing connection script: %s: %s."
                    "msTclPlugLayerWhichShapes()"
                    [.str connection,
                     .str (((connectionAnswer env w layer li.interp rect connection).2.2.interps
                        li.interp).result)])
                  li.interp " while executing connection command '")
                li.interp connection)
              li.interp "', while executing layer plugin")
            li.interp,
          layer)
      else if (geoQueryAnswer env w layer li.interp rect connection q).1 = .TCL_ERROR then
        some (.MS_FAILURE,
          Tcl_BackgroundError
            (Tcl_AddErrorInfo
              (msSetError (geoQueryAnswer env w layer li.interp rect connection q).2.2
                .MS_QUERYERR "Error executing geo_query: %s." "msTclPlugLayerWhichShapes()"
                [.str (((geoQueryAnswer env w layer li.interp rect connection q).2.2.interps
                    li.interp).result)])
              li.interp " while executing layer plugin geo_query function")
            li.interp,
          layer)
      else
        match Tcl_GetLongFromObj (geoQueryAnswer env w layer li.interp rect connection q).2.1 with
        | .error m =>
          some (.MS_FAILURE,
            Tcl_BackgroundError
              (Tcl_AddErrorInfo
                (msSetError
                  (Tcl_SetObjResult (geoQueryAnswer env w layer li.interp rect connection q).2.2
                    li.interp m)
                  .MS_QUERYERR "Error getting row count: %s." "msTclPlugLayerWhichShapes()"
                  [.str m])
                li.interp " while reading row count returned by layer plugin geo_query function")
              li.interp,
            layer)
        | .ok n =>
          some (.MS_SUCCESS, (geoQueryAnswer env w layer li.interp rect connection q).2.2,
            { layer with layerinfo := some { li with nrows := n, rownum := 0 } }) := by
  have hobjs : ∀ (W : World) (c : Call), (tclEval env W li.interp layer.addr c).2.2.objs = W.objs := by
    intro W c
    simp [tclEval]
  simp only [msTclPlugLayerWhichShapes, hli, hi, if_false, msTclPlugSnagRectangleAndUID, hconn,
    hq, geoQueryAnswer, connectionAnswer, incrRefCount_bytes, hobjs, set_tcl_var_obj,
    setVar2Ex_objs]
  split
  · rfl
  · split
    · rfl
    · split <;> simp_all

theorem geoQueryAnswer_calls (env : TclEnv) (w : World) (layer : layerObj) (i : Int)
    (rect : rectObj) (connection : String) (q : Nat) :
    (geoQueryAnswer env w layer i rect connection q).2.2.calls i
      = w.calls i ++ [.Tcl_Eval connection, .Tcl_EvalObjv (w.objs q).bytes [.stringList layer.items]] := by
  simp [geoQueryAnswer, connectionAnswer, tclEval, set_tcl_var_obj, msTclPlugLayerItemNamesToList]

/-- C13. On an open session whose connection string evaluates without error
and whose geo_query answer converts to the integer n,
msTclPlugLayerWhichShapes returns MS_SUCCESS, the session has row count n
and cursor 0 afterwards, and the two evaluations it made are the connection
string and geo_query with one argument, the list of the item names of the
layer in their order. -/
theorem whichShapes_sets_row_count (env : TclEnv) (w : World) (layer : layerObj)
    (rect : rectObj) (li : msTclPlugLayerInfo) (q : Nat) (connection : String) (n : Int)
    (hli : layer.layerinfo = some li) (hi : li.interp ≠ 0)
    (hq : li.geoQueryCommandObj = some q) (hconn : layer.connection = some connection)
    (hc : (connectionAnswer env w layer li.interp rect connection).1 = .TCL_OK)
    (hg : (geoQueryAnswer env w layer li.interp rect connection q).1 = .TCL_OK)
    (hn : Tcl_GetLongFromObj (geoQueryAnswer env w layer li.interp rect connection q).2.1
      = .ok n) :
    ∃ w' layer', msTclPlugLayerWhichShapes env w layer rect = some (.MS_SUCCESS, w', layer') ∧
      layer'.nrows = n ∧ layer'.rownum = 0 ∧
      layer'.layerinfo = some { li with nrows := n, rownum := 0 } ∧
      w'.calls li.interp = w.calls li.interp ++
        [.Tcl_Eval connection, .Tcl_EvalObjv (w.objs q).bytes [.stringList layer.items]] := by
  rw [whichShapes_steps env w layer rect li q connection hli hi hq hconn]
  simp only [hc, hg, hn, reduceCtorEq, if_false]
  exact ⟨_, _, rfl, rfl, rfl, rfl, geoQueryAnswer_calls env w layer li.interp rect connection q⟩

/-- C14. On an open session, when the connection string raises an error, or
geo_query raises an error, or the geo_query answer does not convert to an
integer, msTclPlugLayerWhichShapes returns MS_FAILURE and the layer, with the
cursor and the row count of its session, is as it was before the call. -/
theorem whichShapes_failure_keeps_cursor (env : TclEnv) (w : World) (layer : layerObj)
    (rect : rectObj) (li : msTclPlugLayerInfo) (q : Nat) (connection : String)
    (hli : layer.layerinfo = some li) (hi : li.interp ≠ 0)
    (hq : li.geoQueryCommandObj = some q) (hconn : layer.connection = some connection)
    (hbad : (connectionAnswer env w layer li.interp rect connection).1 = .TCL_ERROR ∨
      (geoQueryAnswer env w layer li.interp rect connection q).1 = .TCL_ERROR ∨
      ∃ m, Tcl_GetLongFromObj (geoQueryAnswer env w layer li.interp rect connection q).2.1
        = .error m) :
    ∃ w' layer', msTclPlugLayerWhichShapes env w layer rect = some (.MS_FAILURE, w', layer') ∧
      layer' = layer ∧ layer'.rownum = layer.rownum ∧ layer'.nrows = layer.nrows := by
  rw [whichShapes_steps env w layer rect li q connection hli hi hq hconn]
  split
  · exact ⟨_, _, rfl, rfl, rfl, rfl⟩
  · split
    · exact ⟨_, _, rfl, rfl, rfl, rfl⟩
    · rename_i h1 h2
      rcases hbad with h | h | ⟨m, hm⟩
      · exact absurd h h1
      · exact absurd h h2
      · rw [hm]
        exact ⟨_, _, rfl, rfl, rfl, rfl⟩

/-! ## The cursor and the row count -/

theorem nextRow_layerinfo (layer : layerObj) (li : msTclPlugLayerInfo)
    (hli : layer.layerinfo = some li) :
    layer.nextRow.layerinfo = some { li with rownum := li.rownum + 1 } := by
  simp [layerObj.nextRow, hli]

/-- The loop of msTclPlugLayerNextShape moves the cursor forward only, and
never past the row count. -/
theorem nextShapeLoop_cursor (env : TclEnv) :
    ∀ (fuel : Nat) (w : World) (layer : layerObj) (shape : shapeObj) (li : msTclPlugLayerInfo)
      (r : Status × World × layerObj × shapeObj),
      layer.layerinfo = some li → nextShapeLoop env fuel w layer shape = some r →
      ∃ k : Int, r.2.2.1.layerinfo = some { li with rownum := k } ∧ li.rownum ≤ k ∧
        (k ≤ li.nrows ∨ k = li.rownum) := by
  intro fuel
  induction fuel with
  | zero =>
    intro w layer shape li r _ h
    simp [nextShapeLoop] at h
  | succ fuel ih =>
    intro w layer shape li r hli h
    simp only [nextShapeLoop, hli] at h
    split at h
    · split at h
      · rename_i hlt
        split at h
        · cases h
        · rename_i rv w1 s1 _
          split at h
          · cases h
            exact ⟨li.rownum, by simp [hli], le_refl _, Or.inr rfl⟩
          · split at h
            · cases h
              exact ⟨li.rownum + 1, nextRow_layerinfo layer li hli, by omega, Or.inl (by omega)⟩
            · obtain ⟨k, hk, hle, hor⟩ := ih w1 layer.nextRow s1 _ r
                (nextRow_layerinfo layer li hli) h
              refine ⟨k, by simpa using hk, ?_, ?_⟩
              · simp only at hle
                omega
              · simp only at hle hor
                omega
      · cases h
        exact ⟨li.rownum, by simp [hli], le_refl _, Or.inr rfl⟩
    · cases h
      exact ⟨li.rownum, by simp [hli], le_refl _, Or.inr rfl⟩

theorem nextShape_cursor (env : TclEnv) (w : World) (layer : layerObj) (shape : shapeObj)
    (li : msTclPlugLayerInfo) (r : Status × World × layerObj × shapeObj)
    (hli : layer.layerinfo = some li)
    (h : msTclPlugLayerNextShape env w layer shape = some r) :
    ∃ k : Int, r.2.2.1.layerinfo = some { li with rownum := k } ∧ li.rownum ≤ k ∧
      (k ≤ li.nrows ∨ k = li.rownum) := by
  simp only [msTclPlugLayerNextShape, hli] at h
  exact nextShapeLoop_cursor env _ w layer _ li r hli h

theorem getShape_cursor (env : TclEnv) (w : World) (layer : layerObj) (shape : shapeObj)
    (tile record : Int) (li : msTclPlugLayerInfo) (r : Status × World × layerObj × shapeObj)
    (hli : layer.layerinfo = some li)
    (h : msTclPlugLayerGetShape env w layer shape tile record = some r) :
    r.2.2.1.layerinfo = some li ∨ r.2.2.1.layerinfo = some { li with rownum := 0 } := by
  have hat : (layer.atRow 0).layerinfo = some { li with rownum := 0 } := by
    simp [layerObj.atRow, hli]
  simp only [msTclPlugLayerGetShape, hli] at h
  split at h
  · cases h
  · split at h
    · cases h
    · split at h
      · cases h
      · split at h
        · cases h; exact Or.inl hli
        · split at h
          · split at h
            · cases h
            · split at h
              · cases h; exact Or.inr hat
              · cases h; exact Or.inr hat
          · cases h; exact Or.inr hat

theorem whichShapes_cursor (env : TclEnv) (w : World) (layer : layerObj) (rect : rectObj)
    (li : msTclPlugLayerInfo) (r : Status × World × layerObj)
    (hli : layer.layerinfo = some li)
    (h : msTclPlugLayerWhichShapes env w layer rect = some r) :
    r.2.2.layerinfo = some li ∨ ∃ n, r.2.2.layerinfo = some { li with nrows := n, rownum := 0 } := by
  simp only [msTclPlugLayerWhichShapes, hli] at h
  split at h
  · cases h
  · split at h
    · cases h
    · split at h
      · cases h
      · split at h
        · cases h; exact Or.inl hli
        · split at h
          · cases h
          · split at h
            · cases h; exact Or.inl hli
            · split at h
              · cases h; exact Or.inl hli
              · cases h; exact Or.inr ⟨_, rfl⟩

theorem open_cursor (env : TclEnv) (w : World) (layer : layerObj)
    (r : Status × World × layerObj) (hclosed : layer.layerinfo = none)
    (h : msTclPlugLayerOpen env w layer = some r) :
    r.2.2.rownum = 0 ∧ r.2.2.nrows = 0 := by
  have h0 : layer.rownum = 0 ∧ layer.nrows = 0 := by
    simp [layerObj.rownum, layerObj.nrows, hclosed]
  simp only [msTclPlugLayerOpen, hclosed, Option.isSome_none, Bool.false_eq_true, if_false] at h
  split at h
  · cases h; exact h0
  · split at h
    · cases h; exact h0
    · simp only [openWithInterp, openBound] at h
      split at h
      · cases h
      · split at h
        · cases h; exact ⟨rfl, rfl⟩
        · split at h
          · cases h
          · split at h
            · cases h; exact ⟨rfl, rfl⟩
            · cases h; exact ⟨rfl, rfl⟩

theorem rownum_of_layerinfo (layer : layerObj) (li : msTclPlugLayerInfo)
    (h : layer.layerinfo = some li) : layer.rownum = li.rownum ∧ layer.nrows = li.nrows := by
  simp [layerObj.rownum, layerObj.nrows, h]

/-- C15 (amended at negative row counts).  After msTclPlugLayerOpen on a
closed layer the cursor and the row count are both 0, so 0 <= cursor <= row
count holds.  From a session where 0 <= cursor <= row count holds,
msTclPlugLayerNextShape and msTclPlugLayerGetShape lead to a session where
it holds, whatever the scripts answer, and so does
msTclPlugLayerWhichShapes unless the row count it leaves is negative.  The
bound 0 <= cursor <= max (row count, 0) is kept by all three operations for
every answer of the scripts. -/
theorem session_cursor_bounded (env : TclEnv) (w : World) (layer : layerObj) :
    (layer.layerinfo = none →
      ∀ r, msTclPlugLayerOpen env w layer = some r → r.2.2.cursorInRange) ∧
    (layer.cursorInRange →
      (∀ rect r, msTclPlugLayerWhichShapes env w layer rect = some r →
        0 ≤ r.2.2.nrows → r.2.2.cursorInRange) ∧
      (∀ shape r, msTclPlugLayerNextShape env w layer shape = some r →
        r.2.2.1.cursorInRange) ∧
      (∀ shape tile record r, msTclPlugLayerGetShape env w layer shape tile record = some r →
        r.2.2.1.cursorInRange)) ∧
    (layer.cursorBounded →
      (∀ rect r, msTclPlugLayerWhichShapes env w layer rect = some r →
        r.2.2.cursorBounded) ∧
      (∀ shape r, msTclPlugLayerNextShape env w layer shape = some r →
        r.2.2.1.cursorBounded) ∧
      (∀ shape tile record r, msTclPlugLayerGetShape env w layer shape tile record = some r →
        r.2.2.1.cursorBounded)) := by
  refine ⟨?_, ?_, ?_⟩
  · intro hclosed r h
    obtain ⟨h1, h2⟩ := open_cursor env w layer r hclosed h
    simp [layerObj.cursorInRange, h1, h2]
  · intro hinv
    refine ⟨?_, ?_, ?_⟩
    · intro rect r h hn
      cases hli : layer.layerinfo with
      | none => simp [msTclPlugLayerWhichShapes, hli] at h
      | some li =>
        obtain ⟨e1, e2⟩ := rownum_of_layerinfo layer li hli
        simp only [layerObj.cursorInRange, e1, e2] at hinv
        rcases whichShapes_cursor env w layer rect li r hli h with h' | ⟨n, h'⟩
        · obtain ⟨f1, f2⟩ := rownum_of_layerinfo _ _ h'
          simpa only [layerObj.cursorInRange, f1, f2] using hinv
        · obtain ⟨f1, f2⟩ := rownum_of_layerinfo _ _ h'
          simp only [f2] at hn
          simp only [layerObj.cursorInRange, f1, f2]
          exact ⟨le_refl _, hn⟩
    · intro shape r h
      cases hli : layer.layerinfo with
      | none => simp [msTclPlugLayerNextShape, hli] at h
      | some li =>
        obtain ⟨e1, e2⟩ := rownum_of_layerinfo layer li hli
        simp only [layerObj.cursorInRange, e1, e2] at hinv
        obtain ⟨k, hk, h1, h2⟩ := nextShape_cursor env w layer shape li r hli h
        obtain ⟨f1, f2⟩ := rownum_of_layerinfo _ _ hk
        simp only [layerObj.cursorInRange, f1, f2]
        omega
    · intro shape tile record r h
      cases hli : layer.layerinfo with
      | none => simp [msTclPlugLayerGetShape, hli] at h
      | some li =>
        obtain ⟨e1, e2⟩ := rownum_of_layerinfo layer li hli
        simp only [layerObj.cursorInRange, e1, e2] at hinv
        rcases getShape_cursor env w layer shape tile record li r hli h with h' | h'
        · obtain ⟨f1, f2⟩ := rownum_of_layerinfo _ _ h'
          simpa only [layerObj.cursorInRange, f1, f2] using hinv
        · obtain ⟨f1, f2⟩ := rownum_of_layerinfo _ _ h'
          simp only [layerObj.cursorInRange, f1, f2]
          omega
  · intro hinv
    refine ⟨?_, ?_, ?_⟩
    · intro rect r h
      cases hli : layer.layerinfo with
      | none => simp [msTclPlugLayerWhichShapes, hli] at h
      | some li =>
        obtain ⟨e1, e2⟩ := rownum_of_layerinfo layer li hli
        simp only [layerObj.cursorBounded, e1, e2] at hinv
        rcases whichShapes_cursor env w layer rect li r hli h with h' | ⟨n, h'⟩
        · obtain ⟨f1, f2⟩ := rownum_of_layerinfo _ _ h'
          simpa only [layerObj.cursorBounded, f1, f2] using hinv
        · obtain ⟨f1, f2⟩ := rownum_of_layerinfo _ _ h'
          simp only [layerObj.cursorBounded, f1, f2]
          exact ⟨le_refl _, le_max_right _ _⟩
    · intro shape r h
      cases hli : layer.layerinfo with
      | none => simp [msTclPlugLayerNextShape, hli] at h
      | some li =>
        obtain ⟨e1, e2⟩ := rownum_of_layerinfo layer li hli
        simp only [layerObj.cursorBounded, e1, e2] at hinv
        obtain ⟨k, hk, h1, h2⟩ := nextShape_cursor env w layer shape li r hli h
        obtain ⟨f1, f2⟩ := rownum_of_layerinfo _ _ hk
        simp only [layerObj.cursorBounded, f1, f2]
        simp only [le_max_iff] at hinv ⊢
        omega
    · intro shape tile record r h
      cases hli : layer.layerinfo with
      | none => simp [msTclPlugLayerGetShape, hli] at h
      | some li =>
        obtain ⟨e1, e2⟩ := rownum_of_layerinfo layer li hli
        simp only [layerObj.cursorBounded, e1, e2] at hinv
        rcases getShape_cursor env w layer shape tile record li r hli h with h' | h'
        · obtain ⟨f1, f2⟩ := rownum_of_layerinfo _ _ h'
          simpa only [layerObj.cursorBounded, f1, f2] using hinv
        · obtain ⟨f1, f2⟩ := rownum_of_layerinfo _ _ h'
          simp only [layerObj.cursorBounded, f1, f2]
          exact ⟨le_refl _, le_max_right _ _⟩

/-- C15, the claim at a negative row count.  On the example session, where
0 <= cursor <= row count holds, a geo_query that answers -1 makes
msTclPlugLayerWhichShapes return MS_SUCCESS with cursor 0 and row count -1,
where it does not hold. -/
theorem whichShapes_stores_negative_count :
    demoSession.cursorInRange ∧
    (msTclPlugLayerWhichShapes demoNegativeCountEnv demoWorld demoSession demoRect).map
        (fun r => (r.1, r.2.2.rownum, r.2.2.nrows)) = some (.MS_SUCCESS, 0, -1) ∧
    ¬ ∀ r, msTclPlugLayerWhichShapes demoNegativeCountEnv demoWorld demoSession demoRect = some r →
        r.2.2.cursorInRange := by
  have hmap : (msTclPlugLayerWhichShapes demoNegativeCountEnv demoWorld demoSession demoRect).map
      (fun r => (r.1, r.2.2.rownum, r.2.2.nrows)) = some (.MS_SUCCESS, 0, -1) := by decide
  refine ⟨by unfold layerObj.cursorInRange; decide, hmap, ?_⟩
  intro h
  cases hw : msTclPlugLayerWhichShapes demoNegativeCountEnv demoWorld demoSession demoRect with
  | none => simp [hw] at hmap
  | some r =>
    have hr := h r hw
    simp only [hw, Option.map_some', Option.some.injEq, Prod.mk.injEq] at hmap
    simp only [layerObj.cursorInRange, hmap.2.1, hmap.2.2] at hr
    omega

/-! ## The meta command -/

theorem lookup_nil (k : String) : msLookupHashTable [] k = none := rfl

theorem lookup_cons (a : String × String) (t : hashTableObj) (k : String) :
    msLookupHashTable (a :: t) k = if a.1 = k then some a.2 else msLookupHashTable t k := by
  by_cases h : a.1 = k
  · simp [msLookupHashTable, List.find?, h]
  · have hb : (a.1 == k) = false := by simpa using h
    simp [msLookupHashTable, List.find?, h, hb]

theorem lookup_overwrite_same (t : hashTableObj) (k v : String)
    (h : (msLookupHashTable t k).isSome) :
    msLookupHashTable (t.map (fun kv => if kv.1 == k then (kv.1, v) else kv)) k = some v := by
  induction t with
  | nil => simp [lookup_nil] at h
  | cons a t ih =>
    by_cases ha : a.1 = k
    · simp [lookup_cons, ha]
    · have hb : (a.1 == k) = false := by simpa using ha
      simp only [lookup_cons, ha, if_false] at h
      simp only [List.map_cons, hb, Bool.false_eq_true, if_false, lookup_cons, ha]
      exact ih h

theorem lookup_append_same (t : hashTableObj) (k v : String)
    (h : msLookupHashTable t k = none) :
    msLookupHashTable (t ++ [(k, v)]) k = some v := by
  induction t with
  | nil => simp [lookup_cons]
  | cons a t ih =>
    by_cases ha : a.1 = k
    · simp [lookup_cons, ha] at h
    · simp only [lookup_cons, ha, if_false] at h
      simp only [List.cons_append, lookup_cons, ha, if_false]
      exact ih h

theorem lookup_insert_same (t : hashTableObj) (k v : String) :
    msLookupHashTable (msInsertHashTable t k v) k = some v := by
  unfold msInsertHashTable
  split
  · rename_i h
    exact lookup_overwrite_same t k v h
  · rename_i h
    exact lookup_append_same t k v (by simpa using h)

theorem lookup_overwrite_other (t : hashTableObj) (k v k' : String) (hne : k' ≠ k) :
    msLookupHashTable (t.map (fun kv => if kv.1 == k then (kv.1, v) else kv)) k'
      = msLookupHashTable t k' := by
  induction t with
  | nil => rfl
  | cons a t ih =>
    by_cases ha : a.1 = k
    · have hk : ¬ a.1 = k' := fun h => hne (h.symm.trans ha)
      have hb : (a.1 == k) = true := by simpa using ha
      simp only [List.map_cons, hb, if_true, lookup_cons, hk, if_false, ih]
    · have hb : (a.1 == k) = false := by simpa using ha
      simp only [List.map_cons, hb, Bool.false_eq_true, if_false, lookup_cons, ih]

theorem lookup_append_other (t : hashTableObj) (k v k' : String) (hne : k' ≠ k) :
    msLookupHashTable (t ++ [(k, v)]) k' = msLookupHashTable t k' := by
  induction t with
  | nil => simp [lookup_cons, lookup_nil, hne.symm]
  | cons a t ih => simp only [List.cons_append, lookup_cons, ih]

theorem lookup_insert_other (t : hashTableObj) (k v k' : String) (hne : k' ≠ k) :
    msLookupHashTable (msInsertHashTable t k v) k' = msLookupHashTable t k' := by
  unfold msInsertHashTable
  split
  · exact lookup_overwrite_other t k v k' hne
  · exact lookup_append_other t k v k' hne

theorem remove_cons (a : String × String) (t : hashTableObj) (k : String) :
    msRemoveHashTable (a :: t) k
      = if a.1 = k then msRemoveHashTable t k else a :: msRemoveHashTable t k := by
  by_cases h : a.1 = k
  · have hb : (a.1 != k) = false := by simpa using h
    rw [if_pos h]
    simp only [msRemoveHashTable, List.filter_cons, hb, Bool.false_eq_true, if_false]
  · have hb : (a.1 != k) = true := by simpa using h
    rw [if_neg h]
    simp only [msRemoveHashTable, List.filter_cons, hb, if_true]

theorem lookup_remove_same (t : hashTableObj) (k : String) :
    msLookupHashTable (msRemoveHashTable t k) k = none := by
  induction t with
  | nil => rfl
  | cons a t ih =>
    by_cases ha : a.1 = k
    · simp only [remove_cons, ha, if_true, ih]
    · simp only [remove_cons, ha, if_false, lookup_cons, ih]

theorem lookup_remove_other (t : hashTableObj) (k k' : String) (hne : k' ≠ k) :
    msLookupHashTable (msRemoveHashTable t k) k' = msLookupHashTable t k' := by
  induction t with
  | nil => rfl
  | cons a t ih =>
    by_cases ha : a.1 = k
    · have hk : ¬ a.1 = k' := fun h => hne (h.symm.trans ha)
      simp only [remove_cons, ha, if_true, ih, lookup_cons]
      simp only [← ha, hk, if_false]
    · simp only [remove_cons, ha, if_false, lookup_cons, ih]

theorem remove_absent (t : hashTableObj) (k : String) (h : msLookupHashTable t k = none) :
    msRemoveHashTable t k = t := by
  induction t with
  | nil => rfl
  | cons a t ih =>
    by_cases ha : a.1 = k
    · simp [lookup_cons, ha] at h
    · simp only [lookup_cons, ha, if_false] at h
      simp only [remove_cons, ha, if_false, ih h]

theorem meta_set_eq (w : World) (layers : Nat → layerObj) (interp : Int) (p : Nat)
    (k v : String) (hp : (w.interps interp).pluglayer = some p) :
    metaObjCmd w layers interp ["meta", "set", k, v]
      = (.TCL_OK, .empty, w,
          Function.update layers p
            { layers p with metadata := msInsertHashTable (layers p).metadata k v }) := by
  simp [metaObjCmd, Tcl_GetIndexFromObj, metaOptions, hp, List.find?]

theorem meta_get_eq (w : World) (layers : Nat → layerObj) (interp : Int) (p : Nat)
    (k : String) (hp : (w.interps interp).pluglayer = some p) :
    metaObjCmd w layers interp ["meta", "get", k]
      = (.TCL_OK,
          match msLookupHashTable (layers p).metadata k with
          | none => .empty
          | some value => .string value,
          w, layers) := by
  cases h : msLookupHashTable (layers p).metadata k <;>
    simp [metaObjCmd, Tcl_GetIndexFromObj, metaOptions, hp, List.find?, h]

theorem meta_exists_eq (w : World) (layers : Nat → layerObj) (interp : Int) (p : Nat)
    (k : String) (hp : (w.interps interp).pluglayer = some p) :
    metaObjCmd w layers interp ["meta", "exists", k]
      = (.TCL_OK, .boolean (msLookupHashTable (layers p).metadata k).isSome, w, layers) := by
  cases h : msLookupHashTable (layers p).metadata k <;>
    simp [metaObjCmd, Tcl_GetIndexFromObj, metaOptions, hp, List.find?, h]

theorem meta_unset_eq (w : World) (layers : Nat → layerObj) (interp : Int) (p : Nat)
    (k : String) (hp : (w.interps interp).pluglayer = some p) :
    metaObjCmd w layers interp ["meta", "unset", k]
      = (.TCL_OK, .empty, w,
          if msLookupHashTable (layers p).metadata k = none then layers
          else Function.update layers p
            { layers p with metadata := msRemoveHashTable (layers p).metadata k }) := by
  cases h : msLookupHashTable (layers p).metadata k <;>
    simp [metaObjCmd, Tcl_GetIndexFromObj, metaOptions, hp, List.find?, h]

theorem meta_readers_keep_layers (w : World) (layers : Nat → layerObj) (interp : Int)
    (verb : String) (args : List String)
    (hverb : verb = "get" ∨ verb = "exists" ∨ verb = "names") :
    (metaObjCmd w layers interp ("meta" :: verb :: args)).2.2.2 = layers := by
  rcases hverb with h | h | h <;> subst h <;>
    simp only [metaObjCmd, Tcl_GetIndexFromObj, metaOptions, List.find?, List.getD_cons_succ,
      List.getD_cons_zero] <;>
    (repeat' split) <;> first | rfl | simp_all

/-- C16. In an interpreter whose "pluglayer" reference points at a layer,
the meta command is a key-value map over the metadata of that layer.  After
`meta set k v`, `meta get k` returns v and `meta exists k` returns true,
whatever the table held before; after `meta unset k`, `meta exists k`
returns false and `meta get k` leaves the empty result; `meta unset k` of an
absent key succeeds and changes nothing; set and unset of k leave the value
of every other key, and every other layer, as they were; and get, exists and
names, whatever their arguments, leave all layers as they were. -/
theorem meta_is_key_value_map (w : World) (layers : Nat → layerObj) (interp : Int) (p : Nat)
    (k v : String) (hp : (w.interps interp).pluglayer = some p) :
    (∃ layers',
      metaObjCmd w layers interp ["meta", "set", k, v] = (.TCL_OK, .empty, w, layers') ∧
      metaObjCmd w layers' interp ["meta", "get", k] = (.TCL_OK, .string v, w, layers') ∧
      metaObjCmd w layers' interp ["meta", "exists", k] = (.TCL_OK, .boolean true, w, layers') ∧
      (∀ k', k' ≠ k →
        msLookupHashTable (layers' p).metadata k' = msLookupHashTable (layers p).metadata k') ∧
      (∀ p', p' ≠ p → layers' p' = layers p')) ∧
    (∃ layers',
      metaObjCmd w layers interp ["meta", "unset", k] = (.TCL_OK, .empty, w, layers') ∧
      metaObjCmd w layers' interp ["meta", "exists", k] = (.TCL_OK, .boolean false, w, layers') ∧
      metaObjCmd w layers' interp ["meta", "get", k] = (.TCL_OK, .empty, w, layers') ∧
      (∀ k', k' ≠ k →
        msLookupHashTable (layers' p).metadata k' = msLookupHashTable (layers p).metadata k') ∧
      (∀ p', p' ≠ p → layers' p' = layers p') ∧
      (msLookupHashTable (layers p).metadata k = none → layers' = layers)) ∧
    (∀ verb args, verb = "get" ∨ verb = "exists" ∨ verb = "names" →
      (metaObjCmd w layers interp ("meta" :: verb :: args)).2.2.2 = layers) := by
  refine ⟨⟨_, meta_set_eq w layers interp p k v hp, ?_, ?_, ?_, ?_⟩,
    ⟨_, meta_unset_eq w layers interp p k hp, ?_, ?_, ?_, ?_, ?_⟩,
    fun verb args h => meta_readers_keep_layers w layers interp verb args h⟩
  · rw [meta_get_eq _ _ _ p k hp]
    simp [lookup_insert_same]
  · rw [meta_exists_eq _ _ _ p k hp]
    simp [lookup_insert_same]
  · intro k' hk
    simp [lookup_insert_other _ _ _ _ hk]
  · intro p' hp'
    simp [Function.update_noteq hp']
  · rw [meta_exists_eq _ _ _ p k hp]
    by_cases h : msLookupHashTable (layers p).metadata k = none
    · simp [h]
    · simp [h, lookup_remove_same]
  · rw [meta_get_eq _ _ _ p k hp]
    by_cases h : msLookupHashTable (layers p).metadata k = none
    · simp [h]
    · simp [h, lookup_remove_same]
  · intro k' hk
    split
    · rfl
    · simp [lookup_remove_other _ _ _ hk]
  · intro p' hp'
    split
    · rfl
    · simp [Function.update_noteq hp']
  · intro h
    simp [h]

/-- C17. In an interpreter whose "pluglayer" reference is not set, the meta
command called with any of its five options, whatever the other words,
returns TCL_ERROR; its outcome is the same whatever the layers hold, and it
leaves all layers as they were. -/
theorem meta_without_layer_fails (w : World) (interp : Int) (verb : String)
    (args : List String)
    (hno : (w.interps interp).pluglayer = none)
    (hverb : verb ∈ ["get", "set", "exists", "unset", "names"]) :
    ∃ result w', ∀ layers : Nat → layerObj,
      metaObjCmd w layers interp ("meta" :: verb :: args) = (.TCL_ERROR, result, w', layers) := by
  simp only [List.mem_cons, List.mem_singleton, List.not_mem_nil, or_false] at hverb
  by_cases hargs : args.length + 2 > 4
  · refine ⟨.wrongNumArgs 1 "option ?var?", w, fun layers => ?_⟩
    simp [metaObjCmd, hargs]
  · refine ⟨.empty, Tcl_AddErrorInfo w interp
      "tcl plugin software failure: associated data \"pluglayer\" not set in interpreter.",
      fun layers => ?_⟩
    have h2 : ¬ (args.length + 1 + 1 < 2 ∨ args.length + 1 + 1 > 4) := by omega
    rcases hverb with h | h | h | h | h <;> subst h <;>
      simp [metaObjCmd, Tcl_GetIndexFromObj, metaOptions, List.find?, hno, h2]

/-! ## The item schema -/

/-- The loop of msTclPlugLayerInitItemInfo, entered at index `i` with the
elements below `i` already equal to their index, leaves the indexes
0 .. numitems - 1. -/
theorem itemIndexLoop_identity (n : Nat) :
    ∀ (fuel i : Nat) (arr : List Int), arr.length = n → i + fuel = n →
      (∀ j, j < i → arr[j]? = some (j : Int)) →
      itemIndexLoop n fuel i arr = List.map Int.ofNat (List.range n) := by
  intro fuel
  induction fuel with
  | zero =>
    intro i arr hlen hi hpre
    simp only [itemIndexLoop]
    apply List.ext_getElem?
    intro j
    by_cases hj : j < n
    · rw [hpre j (by omega), List.getElem?_map, List.getElem?_range hj]
      rfl
    · rw [List.getElem?_eq_none (by omega), List.getElem?_eq_none (by simp only [List.length_map, List.length_range]; omega)]
  | succ fuel ih =>
    intro i arr hlen hi hpre
    have hlt : i < n := by omega
    simp only [itemIndexLoop, hlt, if_true]
    apply ih
    · simp [hlen]
    · omega
    · intro j hj
      by_cases hji : j = i
      · subst hji
        simp [hlen, hlt]
      · rw [List.getElem?_set_ne (Ne.symm hji)]
        exact hpre j (by omega)

theorem getItems_of_list (env : TclEnv) (w : World) (layer : layerObj)
    (li : msTclPlugLayerInfo) (g : Nat) (obj : TclObj) (names : List TclObj) (allocated : Bool)
    (hli : layer.layerinfo = some li) (hi : li.interp ≠ 0)
    (hg : li.getItemsCommandObj = some g)
    (hans : env.script (w.interps li.interp) (.Tcl_EvalObjEx (w.objs g).bytes) = (.TCL_OK, obj))
    (hnames : Tcl_ListObjGetElements obj = .ok names) :
    msTclPlugLayerGetItems env w layer allocated =
      some (msTclPlugLayerInitItemInfo
        ((Tcl_IncrRefCount w g).logCall env li.interp layer.addr
          (.Tcl_EvalObjEx (w.objs g).bytes) (Tcl_GetString obj))
        { layer with items := names.map Tcl_GetString } allocated) := by
  have he := tclEval_eq env (Tcl_IncrRefCount w g) li.interp layer.addr
    (.Tcl_EvalObjEx (w.objs g).bytes) .TCL_OK obj (by simpa using hans)
  simp only [msTclPlugLayerGetItems, hli, hi, hg, incrRefCount_bytes, he]
  simp [hnames]

theorem initItemInfo_result (w : World) (layer : layerObj) (allocated : Bool) :
    msTclPlugLayerInitItemInfo w layer allocated =
      if layer.items = [] then (.MS_SUCCESS, w, layer)
      else if allocated = false then
        (.MS_FAILURE,
          msSetError w .MS_MEMERR "Out of memory." "msTclPlugLayerInitItemInfo()" [],
          { layer with iteminfo := none })
      else
        (.MS_SUCCESS, w,
          { layer with iteminfo := some (List.map Int.ofNat (List.range layer.items.length)) })
    := by
  have h0 : layer.numitems = 0 ↔ layer.items = [] := by
    simp [layerObj.numitems, List.length_eq_zero]
  by_cases hn : layer.items = []
  · simp [msTclPlugLayerInitItemInfo, h0, hn]
  · cases allocated
    · simp [msTclPlugLayerInitItemInfo, h0, hn]
    · have hloop := itemIndexLoop_identity layer.items.length layer.items.length 0
        (List.replicate layer.items.length 0) (by simp) (by simp) (by intro j hj; omega)
      simp [msTclPlugLayerInitItemInfo, h0, hn, hloop]

/-- C18 (amended at an empty list of names).  When msTclPlugLayerGetItems
returns MS_SUCCESS on an open session whose get_items answer is a list of n
names, the items of the layer afterwards are the string forms of those n
names in order, in place of the items it had, and the item count is n; for n
greater than 0 the index array is 0, 1, ..., n-1; for n = 0 the index array
is the one the layer had before the call. -/
theorem getItems_installs_schema (env : TclEnv) (w w' : World) (layer layer' : layerObj)
    (li : msTclPlugLayerInfo) (g : Nat) (obj : TclObj) (names : List TclObj) (allocated : Bool)
    (hli : layer.layerinfo = some li) (hi : li.interp ≠ 0)
    (hg : li.getItemsCommandObj = some g)
    (hans : env.script (w.interps li.interp) (.Tcl_EvalObjEx (w.objs g).bytes) = (.TCL_OK, obj))
    (hnames : Tcl_ListObjGetElements obj = .ok names)
    (hsucc : msTclPlugLayerGetItems env w layer allocated = some (.MS_SUCCESS, w', layer')) :
    layer'.items = names.map Tcl_GetString ∧
    layer'.numitems = names.length ∧
    (names ≠ [] → layer'.iteminfo = some (List.map Int.ofNat (List.range names.length))) ∧
    (names = [] → layer'.iteminfo = layer.iteminfo) := by
  rw [getItems_of_list env w layer li g obj names allocated hli hi hg hans hnames,
    initItemInfo_result] at hsucc
  simp only [List.map_eq_nil_iff, List.length_map] at hsucc
  split at hsucc
  · rename_i hn
    have hn' : names = [] := by simpa using hn
    simp only [Option.some.injEq, Prod.mk.injEq, true_and] at hsucc
    rw [← hsucc.2]
    simp [layerObj.numitems, hn']
  · rename_i hn
    have hn' : names ≠ [] := by simpa using hn
    split at hsucc
    · simp at hsucc
    · simp only [Option.some.injEq, Prod.mk.injEq, true_and] at hsucc
      rw [← hsucc.2]
      simp [layerObj.numitems, hn']

/-- On an open session whose get_items answer is a list of names,
msTclPlugLayerGetItems returns MS_SUCCESS, unless the list is not empty and
the memory for the index array cannot be had. -/
theorem getItems_succeeds (env : TclEnv) (w : World) (layer : layerObj)
    (li : msTclPlugLayerInfo) (g : Nat) (obj : TclObj) (names : List TclObj) (allocated : Bool)
    (hli : layer.layerinfo = some li) (hi : li.interp ≠ 0)
    (hg : li.getItemsCommandObj = some g)
    (hans : env.script (w.interps li.interp) (.Tcl_EvalObjEx (w.objs g).bytes) = (.TCL_OK, obj))
    (hnames : Tcl_ListObjGetElements obj = .ok names)
    (hmem : names ≠ [] → allocated = true) :
    ∃ w' layer', msTclPlugLayerGetItems env w layer allocated
      = some (.MS_SUCCESS, w', layer') := by
  rw [getItems_of_list env w layer li g obj names allocated hli hi hg hans hnames,
    initItemInfo_result]
  simp only [List.map_eq_nil_iff]
  split
  · exact ⟨_, _, rfl⟩
  · rename_i hn
    have hn' : names ≠ [] := by simpa using hn
    simp only [hmem hn', Bool.true_eq_false, if_false]
    exact ⟨_, _, rfl⟩

/-- C18, the claim at an empty list of names after a schema of two items.
The example session has the items id and name and the index array 0, 1; with
a get_items that answers the empty list msTclPlugLayerGetItems returns
MS_SUCCESS, the layer has no items, and the index array is still 0, 1, not
the empty sequence. -/
theorem getItems_keeps_index_array_without_items :
    demoIndexed.items = ["id", "name"] ∧ demoIndexed.iteminfo = some [0, 1] ∧
    (msTclPlugLayerGetItems demoNoItemsEnv demoWorld demoIndexed true).map
        (fun r => (r.1, r.2.2.items, r.2.2.iteminfo))
      = some (.MS_SUCCESS, [], some [0, 1]) := by
  decide

/-! ## The life of the default interpreter -/

theorem sameLifecycle_refl (w : World) : w.sameLifecycle w := ⟨rfl, rfl, rfl, fun _ => rfl⟩

theorem sameLifecycle_trans (w1 w2 w3 : World) (h12 : w1.sameLifecycle w2)
    (h23 : w2.sameLifecycle w3) : w1.sameLifecycle w3 :=
  ⟨h23.1.trans h12.1, h23.2.1.trans h12.2.1, h23.2.2.1.trans h12.2.2.1,
    fun j => (h23.2.2.2 j).trans (h12.2.2.2 j)⟩

theorem setInterp_sameLifecycle (w : World) (i : Int) (st : Interp)
    (h : st.deleted = (w.interps i).deleted) : w.sameLifecycle (w.setInterp i st) := by
  refine ⟨rfl, rfl, rfl, fun j => ?_⟩
  by_cases hj : j = i
  · subst hj
    simp [h]
  · rw [setInterp_interps_other w i j st hj]

theorem addErrorInfo_sameLifecycle (w : World) (i : Int) (m : String) :
    w.sameLifecycle (Tcl_AddErrorInfo w i m) :=
  setInterp_sameLifecycle w i _ rfl

theorem backgroundError_sameLifecycle (w : World) (i : Int) :
    w.sameLifecycle (Tcl_BackgroundError w i) :=
  setInterp_sameLifecycle w i _ rfl

theorem setObjResult_sameLifecycle (w : World) (i : Int) (m : String) :
    w.sameLifecycle (Tcl_SetObjResult w i m) :=
  setInterp_sameLifecycle w i _ rfl

theorem setVar2Ex_sameLifecycle (w : World) (i : Int) (n : String) (v : TclArg) :
    w.sameLifecycle (Tcl_SetVar2Ex w i n v) :=
  setInterp_sameLifecycle w i _ rfl

theorem logCall_sameLifecycle (w : World) (env : TclEnv) (i : Int) (f : Nat) (c : Call) (r : String) :
    w.sameLifecycle (w.logCall env i f c r) :=
  setInterp_sameLifecycle w i _ rfl

theorem msSetError_sameLifecycle (w : World) (c : MS_ERRCODE) (m r : String)
    (args : List ErrArg) : w.sameLifecycle (msSetError w c m r args) :=
  ⟨rfl, rfl, rfl, fun _ => rfl⟩

theorem incrRefCount_sameLifecycle (w : World) (p : Nat) :
    w.sameLifecycle (Tcl_IncrRefCount w p) := ⟨rfl, rfl, rfl, fun _ => rfl⟩

theorem decrRefCount_sameLifecycle (w : World) (p : Nat) :
    w.sameLifecycle (Tcl_DecrRefCount w p) := ⟨rfl, rfl, rfl, fun _ => rfl⟩

theorem newStringObj_sameLifecycle (w : World) (s : String) :
    w.sameLifecycle (Tcl_NewStringObj w s).2 := ⟨rfl, rfl, rfl, fun _ => rfl⟩

theorem appendToObj_sameLifecycle (w : World) (p : Nat) (s : String) :
    w.sameLifecycle (Tcl_AppendToObj w p s) := ⟨rfl, rfl, rfl, fun _ => rfl⟩

theorem tclEval_sameLifecycle (env : TclEnv) (w : World) (i : Int) (f : Nat) (c : Call) :
    w.sameLifecycle (tclEval env w i f c).2.2 :=
  logCall_sameLifecycle w env i f c _

theorem set_tcl_var_string_sameLifecycle (w : World) (i : Int) (n : String)
    (v : Option String) : w.sameLifecycle (set_tcl_var_string w i n v) := by
  cases v
  · exact sameLifecycle_refl w
  · exact setVar2Ex_sameLifecycle w i n _

theorem decrIfBound_sameLifecycle (w : World) (p : Option Nat) :
    w.sameLifecycle (decrIfBound w p) := by
  cases p
  · exact sameLifecycle_refl w
  · exact decrRefCount_sameLifecycle w _

theorem World.sameLifecycle.trans {w1 w2 w3 : World} (h12 : w1.sameLifecycle w2)
    (h23 : w2.sameLifecycle w3) : w1.sameLifecycle w3 :=
  sameLifecycle_trans w1 w2 w3 h12 h23

theorem bindCommands_sameLifecycle (w : World) (layer : layerObj) (li : msTclPlugLayerInfo) :
    w.sameLifecycle (bindCommands w layer li).1 := by
  cases h : msLookupHashTable layer.metadata "namespace" <;>
    simp [World.sameLifecycle, bindCommands, h, Tcl_NewStringObj, Tcl_AppendToObj,
      Tcl_IncrRefCount]

theorem bindCommands_interp (w : World) (layer : layerObj) (li : msTclPlugLayerInfo) :
    (bindCommands w layer li).2.interp = li.interp := rfl

theorem parseData_sameLifecycle (w w' : World) (layer : layerObj) (st : Status)
    (h : msTclPlugParseData w layer = some (st, w')) : w.sameLifecycle w' := by
  unfold msTclPlugParseData at h
  split at h
  · cases h
  · rename_i li _
    split at h
    · cases h
    · simp only [Option.some.injEq, Prod.mk.injEq] at h
      obtain ⟨_, rfl⟩ := h
      have s := fun (W : World) (n : String) (v : Option String) =>
        set_tcl_var_string_sameLifecycle W li.interp n v
      have h10 := (((((((((s w "data" layer.data).trans (s _ "template" layer.template)).trans
        (s _ "name" layer.name)).trans (s _ "connection" layer.connection)).trans
        (s _ "plugin_library" layer.plugin_library)).trans
        (s _ "filter_item" layer.filteritem)).trans (s _ "style_item" layer.styleitem)).trans
        (s _ "requires" layer.requires)).trans (s _ "label_requires" layer.labelrequires)).trans
        (s _ "classgroup" layer.classgroup)
      cases layer.type <;> exact h10.trans (s _ "type" _)

theorem openBound_sameLifecycle (env : TclEnv) (w w' : World) (layer layer' : layerObj)
    (li : msTclPlugLayerInfo) (interp : Int) (st : Status)
    (h : openBound env w layer li interp = some (st, w', layer')) :
    w.sameLifecycle w' ∧ layer' = { layer with layerinfo := some li } := by
  unfold openBound at h
  simp only at h
  split at h
  · cases h
  · rename_i st1 w1 hpd
    have h1 := parseData_sameLifecycle _ _ _ _ hpd
    obtain ⟨hst1, _⟩ := parseData_objs _ _ _ _ hpd
    subst hst1
    simp only [ne_eq, not_true_eq_false, if_false] at h
    split at h
    · cases h
    · rename_i o _
      have h2 := h1.trans (incrRefCount_sameLifecycle w1 o)
      have h3 := h2.trans (tclEval_sameLifecycle env (Tcl_IncrRefCount w1 o) interp layer.addr
        (.Tcl_EvalObjv ((Tcl_IncrRefCount w1 o).objs o).bytes [.string (layer.name.getD "")]))
      split at h
      · simp only [Option.some.injEq, Prod.mk.injEq] at h
        obtain ⟨_, hw, hl⟩ := h
        rw [← hw, ← hl]
        exact ⟨((h3.trans (addErrorInfo_sameLifecycle _ _ _)).trans
          (msSetError_sameLifecycle _ _ _ _ _)).trans (backgroundError_sameLifecycle _ _), rfl⟩
      · simp only [Option.some.injEq, Prod.mk.injEq] at h
        obtain ⟨_, hw, hl⟩ := h
        rw [← hw, ← hl]
        exact ⟨h3, rfl⟩

theorem openWithInterp_sameLifecycle (env : TclEnv) (w w' : World) (layer layer' : layerObj)
    (li : msTclPlugLayerInfo) (interp : Int) (st : Status)
    (h : openWithInterp env w layer li interp = some (st, w', layer')) :
    w.sameLifecycle w' ∧ ∃ li', layer' = { layer with layerinfo := some li' } ∧
      li'.interp = interp := by
  unfold openWithInterp at h
  obtain ⟨h1, h2⟩ := openBound_sameLifecycle env _ _ _ _ _ _ _ h
  have h0 : w.sameLifecycle
      (w.setInterp interp { w.interps interp with pluglayer := some layer.addr }) :=
    setInterp_sameLifecycle w interp _ rfl
  exact ⟨(h0.trans (bindCommands_sameLifecycle _ layer _)).trans h1, _, h2,
    bindCommands_interp _ layer _⟩

theorem closeCallout_sameLifecycle (env : TclEnv) (w : World) (layer : layerObj) (i : Int)
    (c : Nat) : w.sameLifecycle (closeCallout env w layer i c) := by
  unfold closeCallout
  have h1 := tclEval_sameLifecycle env w i layer.addr (.Tcl_EvalObjEx (w.objs c).bytes)
  simp only
  split
  · exact ((h1.trans (addErrorInfo_sameLifecycle _ _ _)).trans
      (msSetError_sameLifecycle _ _ _ _ _)).trans (backgroundError_sameLifecycle _ _)
  · exact h1

/-- Freeing the layerinfo of a session that runs in the default interpreter
deletes no interpreter. -/
theorem freeLayerInfo_sameLifecycle (w w' : World) (layer layer' : layerObj)
    (li : msTclPlugLayerInfo) (hli : layer.layerinfo = some li)
    (hdef : li.interp = w.tclplug_global_interp)
    (h : msTclPlugFreeLayerInfo w layer = some (w', layer')) :
    w.sameLifecycle w' ∧ layer' = { layer with layerinfo := none } := by
  simp only [msTclPlugFreeLayerInfo, hli, Option.some.injEq, Prod.mk.injEq] at h
  obtain ⟨h1, h2⟩ := h
  have d := fun (W : World) (p : Option Nat) => decrIfBound_sameLifecycle W p
  have h6 := (((((d w li.layerOpenCommandObj).trans (d _ li.getItemsCommandObj)).trans
    (d _ li.getShapeCommandObj)).trans (d _ li.getGeometryCommandObj)).trans
    (d _ li.getAttributesCommandObj)).trans (d _ li.layerCloseCommandObj)
  refine ⟨?_, h2.symm⟩
  rw [← h1]
  have hg : li.interp = (decrIfBound (decrIfBound (decrIfBound (decrIfBound (decrIfBound
      (decrIfBound w li.layerOpenCommandObj) li.getItemsCommandObj) li.getShapeCommandObj)
      li.getGeometryCommandObj) li.getAttributesCommandObj)
      li.layerCloseCommandObj).tclplug_global_interp := by
    rw [h6.1]; exact hdef
  split
  · rw [if_neg (by simpa using hg)]
    exact h6
  · exact h6

theorem close_sameLifecycle (env : TclEnv) (w w' : World) (layer layer' : layerObj)
    (li : msTclPlugLayerInfo) (st : Status) (hli : layer.layerinfo = some li)
    (hdef : li.interp = w.tclplug_global_interp)
    (h : msTclPlugLayerClose env w layer = some (st, w', layer')) :
    w.sameLifecycle w' ∧ layer' = { layer with layerinfo := none } := by
  simp only [msTclPlugLayerClose, hli] at h
  split at h
  · cases h
  · split at h
    · cases h
    · rename_i c _
      have h1 := closeCallout_sameLifecycle env w layer li.interp c
      split at h
      · cases h
      · rename_i w2 layer2 hf
        cases h
        obtain ⟨h2, h3⟩ := freeLayerInfo_sameLifecycle _ _ _ _ li hli (by rw [h1.1]; exact hdef) hf
        exact ⟨h1.trans h2, h3⟩

theorem linkAndRegister_cases (env : TclEnv) (w : World) (layer : layerObj) (interp : Int) :
    ((linkAndRegister env w layer interp).2 = none ∧
        (env.Tcl_LinkVar (w.interps interp)).1 = .TCL_ERROR ∧
        w.sameLifecycle (linkAndRegister env w layer interp).1) ∨
    ((linkAndRegister env w layer interp).2 = some interp ∧
        (linkAndRegister env w layer interp).1.tclplug_global_interp = interp ∧
        (linkAndRegister env w layer interp).1.iCreatedTheTclInterpreter
          = w.iCreatedTheTclInterpreter ∧
        (linkAndRegister env w layer interp).1.nextInterp = w.nextInterp ∧
        ∀ j, (((linkAndRegister env w layer interp).1.interps j).deleted
          = (w.interps j).deleted)) := by
  unfold linkAndRegister
  simp only
  split
  · rename_i h
    exact Or.inl ⟨rfl, h,
      (setObjResult_sameLifecycle w interp _).trans (msSetError_sameLifecycle _ _ _ _ _)⟩
  · refine Or.inr ⟨rfl, rfl, rfl, rfl, fun j => ?_⟩
    by_cases hj : j = interp
    · subst hj
      simp [World.setInterp]
    · simp [World.setInterp, Function.update_noteq hj]

/-- The process state right after `Tcl_CreateInterp`. -/
theorem createInterp_eq (w : World) :
    Tcl_CreateInterp w = ((w.nextInterp : Int) + 1,
      { w with nextInterp := w.nextInterp + 1,
               interps := Function.update w.interps ((w.nextInterp : Int) + 1) {} }) := rfl

theorem created_deleted (w : World) (j : Int)
    (h : ((Function.update w.interps ((w.nextInterp : Int) + 1) {}) j).deleted = true) :
    (w.interps j).deleted = true := by
  by_cases hj : j = (w.nextInterp : Int) + 1
  · subst hj
    simp at h
  · simpa [Function.update_noteq hj] using h

/-- The outcomes of the interpreter set-up of msTclPlugLayerOpen: the
default interpreter exists and is used; or there is none and a handle from
the metadata is attached, or cannot be linked; or there is none and an
interpreter is created, which then fails to initialise, or fails to be
linked after the creation flag is set, or becomes the default one. -/
theorem acquireInterp_outcome (env : TclEnv) (w : World) (layer : layerObj) :
    (w.tclplug_global_interp ≠ 0 ∧
      acquireInterp env w layer = (w, some w.tclplug_global_interp)) ∨
    (w.tclplug_global_interp = 0 ∧ (acquireInterp env w layer).2 = none ∧
      w.sameLifecycle (acquireInterp env w layer).1) ∨
    (w.tclplug_global_interp = 0 ∧
      ∃ h : Int, h ≠ 0 ∧ (acquireInterp env w layer).2 = some h ∧
      (acquireInterp env w layer).1.tclplug_global_interp = h ∧
      (acquireInterp env w layer).1.iCreatedTheTclInterpreter = w.iCreatedTheTclInterpreter ∧
      (acquireInterp env w layer).1.nextInterp = w.nextInterp ∧
      ∀ j, ((acquireInterp env w layer).1.interps j).deleted = (w.interps j).deleted) ∨
    (w.tclplug_global_interp = 0 ∧ (acquireInterp env w layer).2 = none ∧
      (acquireInterp env w layer).1.tclplug_global_interp = 0 ∧
      (acquireInterp env w layer).1.nextInterp = w.nextInterp + 1 ∧
      (∀ j, ((acquireInterp env w layer).1.interps j).deleted = true →
        (w.interps j).deleted = true) ∧
      ((acquireInterp env w layer).1.iCreatedTheTclInterpreter = w.iCreatedTheTclInterpreter ∨
        ((acquireInterp env w layer).1.iCreatedTheTclInterpreter = true ∧
          (env.Tcl_LinkVar {}).1 = .TCL_ERROR))) ∨
    (w.tclplug_global_interp = 0 ∧
      (acquireInterp env w layer).2 = some ((w.nextInterp : Int) + 1) ∧
      (acquireInterp env w layer).1.tclplug_global_interp = (w.nextInterp : Int) + 1 ∧
      (acquireInterp env w layer).1.iCreatedTheTclInterpreter = true ∧
      (acquireInterp env w layer).1.nextInterp = w.nextInterp + 1 ∧
      ∀ j, ((acquireInterp env w layer).1.interps j).deleted = true →
        (w.interps j).deleted = true) := by
  by_cases hg : w.tclplug_global_interp ≠ 0
  · exact Or.inl ⟨hg, by simp [acquireInterp, hg]⟩
  · simp only [ne_eq, not_not] at hg
    right
    simp only [acquireInterp, hg, ne_eq, not_true_eq_false, if_false]
    split
    · -- no usable handle in the metadata: create an interpreter
      simp only [createInterp_eq, Function.update_same]
      split
      · -- Tcl_Init fails
        right; right; left
        refine ⟨trivial, rfl, hg, rfl, fun j h => ?_, Or.inl rfl⟩
        have h' : ((Function.update w.interps ((w.nextInterp : Int) + 1) {}) j).deleted = true := by
          by_cases hj : j = (w.nextInterp : Int) + 1
          · subst hj
            simp [Tcl_SetObjResult, msSetError, World.setInterp] at h
          · simpa [Tcl_SetObjResult, msSetError, World.setInterp, Function.update_noteq hj]
              using h
        exact created_deleted w j h'
      · rcases linkAndRegister_cases env
            { w with nextInterp := w.nextInterp + 1,
                     interps := Function.update w.interps ((w.nextInterp : Int) + 1) {},
                     iCreatedTheTclInterpreter := true } layer ((w.nextInterp : Int) + 1)
          with ⟨h1, h2, h3⟩ | ⟨h1, h2, h3, h4, h5⟩
        · right; right; left
          refine ⟨trivial, h1, ?_, ?_, fun j h => ?_, Or.inr ⟨?_, ?_⟩⟩
          · rw [h3.1]; exact hg
          · rw [h3.2.2.1]
          · rw [h3.2.2.2 j] at h
            exact created_deleted w j h
          · rw [h3.2.1]
          · simpa using h2
        · right; right; right
          refine ⟨trivial, h1, h2, ?_, ?_, fun j h => ?_⟩
          · rw [h3]
          · rw [h4]
          · rw [h5 j] at h
            exact created_deleted w j h
    · -- a handle from the metadata
      rename_i hz
      rcases linkAndRegister_cases env w layer
          (match msLookupHashTable layer.metadata "interpreter" with
            | some interpreterString =>
              if (strtoll16 interpreterString).2 = true then (strtoll16 interpreterString).1 else 0
            | none => 0)
        with ⟨h1, _, h3⟩ | ⟨h1, h2, h3, h4, h5⟩
      · left
        exact ⟨trivial, h1, h3⟩
      · right; left
        exact ⟨trivial, _, hz, h1, h2, h3, h4, h5⟩

/-- The outcomes of msTclPlugLayerOpen for the life-cycle data and the
session of the layer, following those of the interpreter set-up. -/
theorem open_outcome (env : TclEnv) (w w' : World) (layer layer' : layerObj) (st : Status)
    (h : msTclPlugLayerOpen env w layer = some (st, w', layer')) :
    (layer' = layer ∧ w.sameLifecycle w') ∨
    (w.tclplug_global_interp ≠ 0 ∧ w.sameLifecycle w' ∧
      ∃ li', layer' = { layer with layerinfo := some li' } ∧
        li'.interp = w.tclplug_global_interp) ∨
    (w.tclplug_global_interp = 0 ∧
      ∃ handle : Int, handle ≠ 0 ∧ w'.tclplug_global_interp = handle ∧
      w'.iCreatedTheTclInterpreter = w.iCreatedTheTclInterpreter ∧
      w'.nextInterp = w.nextInterp ∧
      (∀ j, (w'.interps j).deleted = (w.interps j).deleted) ∧
      ∃ li', layer' = { layer with layerinfo := some li' } ∧ li'.interp = handle) ∨
    (w.tclplug_global_interp = 0 ∧ layer' = layer ∧ w'.tclplug_global_interp = 0 ∧
      w'.nextInterp = w.nextInterp + 1 ∧
      (∀ j, (w'.interps j).deleted = true → (w.interps j).deleted = true) ∧
      (w'.iCreatedTheTclInterpreter = w.iCreatedTheTclInterpreter ∨
        (w'.iCreatedTheTclInterpreter = true ∧ (env.Tcl_LinkVar {}).1 = .TCL_ERROR))) ∨
    (w.tclplug_global_interp = 0 ∧
      w'.tclplug_global_interp = (w.nextInterp : Int) + 1 ∧
      w'.iCreatedTheTclInterpreter = true ∧ w'.nextInterp = w.nextInterp + 1 ∧
      (∀ j, (w'.interps j).deleted = true → (w.interps j).deleted = true) ∧
      ∃ li', layer' = { layer with layerinfo := some li' } ∧
        li'.interp = (w.nextInterp : Int) + 1) := by
  unfold msTclPlugLayerOpen at h
  split at h
  · cases h
    exact Or.inl ⟨rfl, sameLifecycle_refl w⟩
  · split at h
    · cases h
      exact Or.inl ⟨rfl, msSetError_sameLifecycle _ _ _ _ _⟩
    · simp only at h
      rcases acquireInterp_outcome env w layer with
        ⟨hg, he⟩ | ⟨hg, h1, h2⟩ | ⟨hg, hd, hne, h1, h2, h3, h4, h5⟩ |
        ⟨hg, h1, h2, h3, h4, h5⟩ | ⟨hg, h1, h2, h3, h4, h5⟩
      · rw [he] at h
        simp only at h
        obtain ⟨s1, li', hl, hi⟩ := openWithInterp_sameLifecycle env _ _ _ _ _ _ _ h
        exact Or.inr (Or.inl ⟨hg, s1, li', hl, hi⟩)
      · generalize hr : acquireInterp env w layer = r at h h1 h2
        obtain ⟨rw_, ri⟩ := r
        simp only at h1
        subst h1
        simp only [Option.some.injEq, Prod.mk.injEq] at h
        obtain ⟨_, hw, hl⟩ := h
        subst hw hl
        exact Or.inl ⟨rfl, h2⟩
      · generalize hr : acquireInterp env w layer = r at h h1 h2 h3 h4 h5
        obtain ⟨rw_, ri⟩ := r
        simp only at h1 h2 h3 h4 h5
        subst h1
        simp only at h
        obtain ⟨s1, li', hl, hi⟩ := openWithInterp_sameLifecycle env _ _ _ _ _ _ _ h
        refine Or.inr (Or.inr (Or.inl ⟨hg, hd, hne, ?_, ?_, ?_, ?_, li', hl, hi⟩))
        · rw [s1.1, h2]
        · rw [s1.2.1, h3]
        · rw [s1.2.2.1, h4]
        · intro j
          rw [s1.2.2.2 j, h5 j]
      · generalize hr : acquireInterp env w layer = r at h h1 h2 h3 h4 h5
        obtain ⟨rw_, ri⟩ := r
        simp only at h1 h2 h3 h4 h5
        subst h1
        simp only [Option.some.injEq, Prod.mk.injEq] at h
        obtain ⟨_, hw, hl⟩ := h
        subst hw hl
        exact Or.inr (Or.inr (Or.inr (Or.inl ⟨hg, rfl, h2, h3, h4, h5⟩)))
      · generalize hr : acquireInterp env w layer = r at h h1 h2 h3 h4 h5
        obtain ⟨rw_, ri⟩ := r
        simp only at h1 h2 h3 h4 h5
        subst h1
        simp only at h
        obtain ⟨s1, li', hl, hi⟩ := openWithInterp_sameLifecycle env _ _ _ _ _ _ _ h
        refine Or.inr (Or.inr (Or.inr (Or.inr ⟨hg, ?_, ?_, ?_, ?_, li', hl, hi⟩)))
        · rw [s1.1, h2]
        · rw [s1.2.1, h3]
        · rw [s1.2.2.1, h4]
        · intro j hj
          rw [s1.2.2.2 j] at hj
          exact h5 j hj

/-- One call of a sequence, made in a state where every session runs in the
default interpreter: afterwards every session still does, no interpreter has
been deleted, and no fewer interpreters have been created.  When linking
`layerDebug` succeeds in a new interpreter, the creation flag is set only
with the interpreter created last as the default one. -/
theorem call_step (env : TclEnv) (c : LayerCall) (w w' : World)
    (layers layers' : Nat → layerObj) (st : Status) (B : Nat)
    (h : c.run env w layers = some (st, w', layers'))
    (hinv : sessionsUseDefault w layers) :
    sessionsUseDefault w' layers' ∧
    (∀ j, (w'.interps j).deleted = true → (w.interps j).deleted = true) ∧
    w.nextInterp ≤ w'.nextInterp ∧
    ((env.Tcl_LinkVar {}).1 = .TCL_OK → B ≤ w.nextInterp →
      (w.iCreatedTheTclInterpreter = true →
        w.tclplug_global_interp = (w.nextInterp : Int) ∧ B < w.nextInterp) →
      (w'.iCreatedTheTclInterpreter = true →
        w'.tclplug_global_interp = (w'.nextInterp : Int) ∧ B < w'.nextInterp)) := by
  cases c with
  | LayerOpen p =>
    simp only [LayerCall.run, Option.map_eq_some', Prod.mk.injEq] at h
    obtain ⟨⟨st1, w1, layer1⟩, ho, hst, hw, hl⟩ := h
    simp only at hst hw hl
    subst hst hw hl
    rcases open_outcome env w w1 (layers p) layer1 _ ho with
      ⟨hl, hs⟩ | ⟨hg, hs, li', hl, hi⟩ | ⟨hg, hd, hne, h2, h3, h4, h5, li', hl, hi⟩ |
      ⟨hg, hl, h2, h3, h4, h5⟩ | ⟨hg, h2, h3, h4, h5, li', hl, hi⟩
    · refine ⟨?_, fun j hj => by rw [hs.2.2.2 j] at hj; exact hj, le_of_eq hs.2.2.1.symm, ?_⟩
      · intro q li hq
        by_cases hqp : q = p
        · subst hqp
          simp only [Function.update_same, hl] at hq
          have := hinv q li hq
          rw [hs.1]
          exact this
        · simp only [Function.update_noteq hqp] at hq
          have := hinv q li hq
          rw [hs.1]
          exact this
      · intro _ _ hK hf
        rw [hs.2.1] at hf
        rw [hs.1, hs.2.2.1]
        exact hK hf
    · refine ⟨?_, fun j hj => by rw [hs.2.2.2 j] at hj; exact hj, le_of_eq hs.2.2.1.symm, ?_⟩
      · intro q li hq
        by_cases hqp : q = p
        · subst hqp
          simp only [Function.update_same, hl, Option.some.injEq] at hq
          subst hq
          rw [hs.1]
          exact ⟨hi, hg⟩
        · simp only [Function.update_noteq hqp] at hq
          have := hinv q li hq
          rw [hs.1]
          exact this
      · intro _ _ hK hf
        rw [hs.2.1] at hf
        rw [hs.1, hs.2.2.1]
        exact hK hf
    · have hnone : ∀ q li, (layers q).layerinfo = some li → False := by
        intro q li hq
        exact (hinv q li hq).2 hg
      refine ⟨?_, fun j hj => by rw [h5 j] at hj; exact hj, le_of_eq h4.symm, ?_⟩
      · intro q li hq
        by_cases hqp : q = p
        · subst hqp
          simp only [Function.update_same, hl, Option.some.injEq] at hq
          subst hq
          rw [h2]
          exact ⟨hi, hne⟩
        · simp only [Function.update_noteq hqp] at hq
          exact (hnone q li hq).elim
      · intro _ hB hK hf
        rw [h3] at hf
        have := hK hf
        rw [hg] at this
        omega
    · have hnone : ∀ q li, (layers q).layerinfo = some li → False := by
        intro q li hq
        exact (hinv q li hq).2 hg
      refine ⟨?_, h4, by omega, ?_⟩
      · intro q li hq
        by_cases hqp : q = p
        · subst hqp
          simp only [Function.update_same, hl] at hq
          exact (hnone q li hq).elim
        · simp only [Function.update_noteq hqp] at hq
          exact (hnone q li hq).elim
      · intro hlink hB hK hf
        rcases h5 with h5 | ⟨_, h5⟩
        · rw [h5] at hf
          have := hK hf
          rw [hg] at this
          omega
        · rw [hlink] at h5
          cases h5
    · have hnone : ∀ q li, (layers q).layerinfo = some li → False := by
        intro q li hq
        exact (hinv q li hq).2 hg
      refine ⟨?_, h5, by omega, ?_⟩
      · intro q li hq
        by_cases hqp : q = p
        · subst hqp
          simp only [Function.update_same, hl, Option.some.injEq] at hq
          subst hq
          rw [h2]
          exact ⟨hi, by omega⟩
        · simp only [Function.update_noteq hqp] at hq
          exact (hnone q li hq).elim
      · intro _ hB _ _
        rw [h2, h4]
        exact ⟨by push_cast; rfl, by omega⟩
  | LayerClose p =>
    simp only [LayerCall.run, Option.map_eq_some', Prod.mk.injEq] at h
    obtain ⟨⟨st1, w1, layer1⟩, hc, hst, hw, hl⟩ := h
    simp only at hst hw hl
    subst hst hw hl
    cases hli : (layers p).layerinfo with
    | none => simp [msTclPlugLayerClose, hli] at hc
    | some li =>
      obtain ⟨hs, hl⟩ := close_sameLifecycle env w w1 (layers p) layer1 li _ hli
        (hinv p li hli).1 hc
      refine ⟨?_, fun j hj => by rw [hs.2.2.2 j] at hj; exact hj, le_of_eq hs.2.2.1.symm, ?_⟩
      · intro q li' hq
        by_cases hqp : q = p
        · subst hqp
          simp [Function.update_same, hl] at hq
        · simp only [Function.update_noteq hqp] at hq
          have := hinv q li' hq
          rw [hs.1]
          exact this
      · intro _ _ hK hf
        rw [hs.2.1] at hf
        rw [hs.1, hs.2.2.1]
        exact hK hf

/-- Over a sequence of msTclPlugLayerOpen and msTclPlugLayerClose calls
that starts where every session runs in the default interpreter, as when no
layer is open, no call deletes an interpreter, and every session runs in the
default interpreter at the end.  When linking `layerDebug` succeeds in a new
interpreter and the creation flag is not set at the start, the flag is set
at the end only with an interpreter created during the sequence as the
default one. -/
theorem layer_calls_lifecycle (env : TclEnv) :
    ∀ (calls : List LayerCall) (w0 w : World) (layers0 layers : Nat → layerObj)
      (sts : List Status) (B : Nat),
      runCalls env calls w0 layers0 = some (sts, w, layers) →
      sessionsUseDefault w0 layers0 →
      sessionsUseDefault w layers ∧
      (∀ j, (w.interps j).deleted = true → (w0.interps j).deleted = true) ∧
      w0.nextInterp ≤ w.nextInterp ∧
      ((env.Tcl_LinkVar {}).1 = .TCL_OK → B ≤ w0.nextInterp →
        (w0.iCreatedTheTclInterpreter = true →
          w0.tclplug_global_interp = (w0.nextInterp : Int) ∧ B < w0.nextInterp) →
        (w.iCreatedTheTclInterpreter = true →
          w.tclplug_global_interp = (w.nextInterp : Int) ∧ B < w.nextInterp)) := by
  intro calls
  induction calls with
  | nil =>
    intro w0 w layers0 layers sts B h hinv
    simp only [runCalls, Option.some.injEq, Prod.mk.injEq] at h
    obtain ⟨_, hw, hl⟩ := h
    subst hw hl
    exact ⟨hinv, fun j hj => hj, le_refl _, fun _ _ hK => hK⟩
  | cons c cs ih =>
    intro w0 w layers0 layers sts B h hinv
    simp only [runCalls] at h
    split at h
    · cases h
    · rename_i st1 w1 layers1 hc
      split at h
      · cases h
      · rename_i sts2 w2 layers2 hr
        simp only [Option.some.injEq, Prod.mk.injEq] at h
        obtain ⟨_, hw, hl⟩ := h
        subst hw hl
        obtain ⟨a1, a2, a3, a4⟩ := call_step env c w0 w1 layers0 layers1 st1 B hc hinv
        obtain ⟨b1, b2, b3, b4⟩ := ih w1 w2 layers1 layers2 sts2 B hr a1
        exact ⟨b1, fun j hj => a2 j (b2 j hj), le_trans a3 b3,
          fun hlink hB hK => b4 hlink (le_trans hB a3) (a4 hlink hB hK)⟩

/-- When linking `layerDebug` succeeds in a new interpreter: after a
sequence of msTclPlugLayerOpen and msTclPlugLayerClose calls made from a
process with no open layer and the creation flag not set,
msTclPlugCloseConnection deletes at most the default interpreter, and only
one that was created during the sequence. -/
theorem shutdown_destroys_created_default (env : TclEnv) (calls : List LayerCall)
    (w0 w : World) (layers0 layers : Nat → layerObj) (sts : List Status)
    (hlink : (env.Tcl_LinkVar {}).1 = .TCL_OK)
    (hclosed : ∀ p, (layers0 p).layerinfo = none)
    (hflag : w0.iCreatedTheTclInterpreter = false)
    (h : runCalls env calls w0 layers0 = some (sts, w, layers)) (j : Int)
    (hj : ((msTclPlugCloseConnection w).interps j).deleted = true) :
    (w0.interps j).deleted = true ∨
    (j = w.tclplug_global_interp ∧ (w0.nextInterp : Int) < j ∧ j ≤ (w.nextInterp : Int)) := by
  have hinv : sessionsUseDefault w0 layers0 := by
    intro p li hp
    rw [hclosed p] at hp
    cases hp
  obtain ⟨_, b2, _, b4⟩ := layer_calls_lifecycle env calls w0 w layers0 layers sts w0.nextInterp
    h hinv
  unfold msTclPlugCloseConnection at hj
  split at hj
  · rename_i hf
    obtain ⟨k1, k2⟩ := b4 hlink (le_refl _) (by rw [hflag]; intro hc; cases hc) hf
    by_cases hjg : j = w.tclplug_global_interp
    · right
      refine ⟨hjg, ?_, ?_⟩
      · rw [hjg, k1]
        exact_mod_cast k2
      · rw [hjg, k1]
    · left
      rw [Tcl_DeleteInterp, setInterp_interps_other _ _ _ _ hjg] at hj
      exact b2 j hj
  · exact Or.inl (b2 j hj)

/-- C19, the code at the failing input.  In a process embedded in an
application, msTclPlugLayerOpen on the example layer creates the interpreter
at address 1 and sets the creation flag, then fails to link `layerDebug`
and returns MS_FAILURE with no default interpreter.  msTclPlugLayerOpen on
the second layer attaches the interpreter of the application, at 0x7f10,
from the handle in the metadata, and makes it the default one;
msTclPlugLayerClose closes that layer.  Neither call deletes an
interpreter.  Then msTclPlugCloseConnection, finding the flag set, deletes
the default interpreter, which is the one of the application; the
interpreter the process created is not deleted. -/
theorem shutdown_destroys_attached_interpreter :
    (runCalls demoUnlinkableEnv [.LayerOpen 1, .LayerOpen 2, .LayerClose 2]
        demoHostWorld demoTwoLayers).map
      (fun r => (r.1, r.2.1.iCreatedTheTclInterpreter, r.2.1.tclplug_global_interp,
        r.2.1.nextInterp, (r.2.1.interps 32528).deleted, (r.2.1.interps 1).deleted,
        ((msTclPlugCloseConnection r.2.1).interps 32528).deleted,
        ((msTclPlugCloseConnection r.2.1).interps 1).deleted))
      = some ([.MS_FAILURE, .MS_SUCCESS, .MS_SUCCESS], true, 32528, 1, false, false,
          true, false) := by
  rfl

/-! ## Rows without geometry -/

theorem readGeometry_of_empty_parts (parts : List TclObj)
    (hempty : ∀ part ∈ parts, Tcl_ListObjGetElements part = .ok []) :
    ∀ (shape : shapeObj) (haveGeometry : Bool),
      readGeometry parts shape haveGeometry = .ok (shape, haveGeometry) := by
  induction parts with
  | nil => intro shape hv; rfl
  | cons part rest ih =>
    intro shape hv
    have h1 := hempty part (List.mem_cons_self _ _)
    simp only [readGeometry, h1, List.length_nil, if_true]
    exact ih (fun p hp => hempty p (List.mem_cons_of_mem _ hp)) shape hv

/-- C20. On an open session whose get_geometry answer for the current row is
a list with no parts, or with empty parts only, msTclPlugReadShape returns
MS_SUCCESS with geometry kind "none", the parts of the record are those it
had when handed in, and the only call made is the one of get_geometry:
get_attributes is not called. -/
theorem readShape_without_geometry (env : TclEnv) (w : World) (layer : layerObj)
    (li : msTclPlugLayerInfo) (g : Nat) (shape : shapeObj) (geo : TclObj) (parts : List TclObj)
    (hli : layer.layerinfo = some li) (hi : li.interp ≠ 0)
    (hg : li.getGeometryCommandObj = some g)
    (hgeo : env.script (w.interps li.interp) (.Tcl_EvalObjv (w.objs g).bytes [.int (longToInt li.rownum)])
      = (.TCL_OK, geo))
    (hparts : Tcl_ListObjGetElements geo = .ok parts)
    (hempty : ∀ part ∈ parts, Tcl_ListObjGetElements part = .ok []) :
    ∃ w' shape', msTclPlugReadShape env w layer shape = some (.MS_SUCCESS, w', shape') ∧
      shape'.type = .MS_SHAPE_NULL ∧ shape'.line = shape.line ∧
      w'.calls li.interp
        = w.calls li.interp ++ [.Tcl_EvalObjv (w.objs g).bytes [.int (longToInt li.rownum)]] ∧
      ∀ j, j ≠ li.interp → w'.calls j = w.calls j := by
  rw [readShape_of_list env w layer li g shape geo parts hli hi hg hgeo hparts]
  simp only [shapeFromGeometry, readGeometry_of_empty_parts parts hempty, Bool.not_false,
    if_true, ne_eq, not_true_eq_false, if_false]
  refine ⟨_, _, rfl, rfl, ?_, ?_, ?_⟩
  · split
    · split <;> rfl
    · rfl
  · simp
  · intro j hj
    simp [logCall_calls_other _ _ _ _ _ _ _ hj]

/-! ## Layers that are not point, line or polygon layers -/

/-- The loop over the parts of a well-formed answer appends every part that
has points to the record, in order. -/
theorem readGeometry_of_parts_filter (parts : List TclObj) :
    ∀ (pts : List (List pointObj)) (shape : shapeObj) (have_ : Bool),
      List.Forall₂ TclObj.holdsPoints parts pts →
      readGeometry parts shape have_ =
        .ok ({ shape with line := shape.line ++
                (pts.filter (fun p => !p.isEmpty)).map (fun p => { point := p }) },
             have_ || pts.any (fun p => !p.isEmpty)) := by
  induction parts with
  | nil =>
    intro pts shape hv h
    cases h
    simp [readGeometry]
  | cons part rest ih =>
    intro pts shape hv h
    cases h with
    | cons hp hrest =>
      rename_i p ps
      obtain ⟨es, hes, hco⟩ := hp
      have hlen : es.length = 2 * p.length := by
        have := congrArg List.length hco
        simpa [coordsOf_length] using this
      by_cases hp0 : p = []
      · subst hp0
        have hl := ih ps shape hv hrest
        simp [readGeometry, hes, hlen, hl]
      · have hplen : 0 < p.length := List.length_pos.mpr hp0
        have h1 : es.length ≠ 0 := by omega
        have h2 : ¬ es.length % 2 = 1 := by omega
        have hrp := readPairs_of_coords p es hco
        have hl := ih ps (msAddLine shape { point := p }) true hrest
        have hpe : p.isEmpty = false := by
          cases p with
          | nil => exact absurd rfl hp0
          | cons _ _ => rfl
        simp only [msAddLine] at hl
        simp [readGeometry, hes, h1, h2, hrp, hl, msAddLine, hpe]

theorem shapeFromGeometry_unknown_type (env : TclEnv) (w : World) (layer : layerObj)
    (li : msTclPlugLayerInfo) (parts : List TclObj) (pts : List (List pointObj))
    (shape : shapeObj)
    (htype : layer.type ≠ .MS_LAYER_POINT ∧ layer.type ≠ .MS_LAYER_LINE ∧
      layer.type ≠ .MS_LAYER_POLYGON)
    (hpts : List.Forall₂ TclObj.holdsPoints parts pts) :
    shapeFromGeometry env w layer li parts shape
      = some (.MS_SUCCESS, w,
          { shape with type := .MS_SHAPE_NULL,
                       line := shape.line ++
                        (pts.filter (fun p => !p.isEmpty)).map (fun p => { point := p }) }) := by
  have hrg := fun (s : shapeObj) (hv : Bool) => readGeometry_of_parts_filter parts pts s hv hpts
  obtain ⟨h1, h2, h3⟩ := htype
  cases hty : layer.type <;> first
    | exact absurd hty h1
    | exact absurd hty h2
    | exact absurd hty h3
    | (simp only [shapeFromGeometry, hty, hrg]
       split <;> split <;> simp)

/-- C21 (amended on the parts).  On an open session of a layer whose type
is not point, line or polygon, with a well-formed get_geometry answer,
msTclPlugReadShape returns MS_SUCCESS with geometry kind "none" and calls
get_geometry only, not get_attributes; the parts of the answer that have
points are appended to the parts of the record all the same. -/
theorem readShape_unknown_layer_type (env : TclEnv) (w : World) (layer : layerObj)
    (li : msTclPlugLayerInfo) (g : Nat) (shape : shapeObj) (geo : TclObj) (parts : List TclObj)
    (pts : List (List pointObj))
    (hli : layer.layerinfo = some li) (hi : li.interp ≠ 0)
    (hg : li.getGeometryCommandObj = some g)
    (htype : layer.type ≠ .MS_LAYER_POINT ∧ layer.type ≠ .MS_LAYER_LINE ∧
      layer.type ≠ .MS_LAYER_POLYGON)
    (hgeo : env.script (w.interps li.interp) (.Tcl_EvalObjv (w.objs g).bytes [.int (longToInt li.rownum)])
      = (.TCL_OK, geo))
    (hparts : Tcl_ListObjGetElements geo = .ok parts)
    (hpts : List.Forall₂ TclObj.holdsPoints parts pts) :
    ∃ w' shape', msTclPlugReadShape env w layer shape = some (.MS_SUCCESS, w', shape') ∧
      shape'.type = .MS_SHAPE_NULL ∧
      shape'.line = shape.line ++
        (pts.filter (fun p => !p.isEmpty)).map (fun p => { point := p }) ∧
      w'.calls li.interp
        = w.calls li.interp ++ [.Tcl_EvalObjv (w.objs g).bytes [.int (longToInt li.rownum)]] ∧
      ∀ j, j ≠ li.interp → w'.calls j = w.calls j := by
  rw [readShape_of_list env w layer li g shape geo parts hli hi hg hgeo hparts,
    shapeFromGeometry_unknown_type env _ layer li parts pts shape htype hpts]
  refine ⟨_, _, rfl, rfl, rfl, ?_, ?_⟩
  · simp
  · intro j hj
    simp [logCall_calls_other _ _ _ _ _ _ _ hj]

/-- C21, the claim at a non-empty answer.  Row 0 of the example, the line
from (0,0) to (1,1), fetched on an annotation layer: the fetch succeeds with
geometry kind "none" and without a call of get_attributes, but the part is
in the record. -/
theorem readShape_keeps_parts_of_unknown_type :
    demoAnnotation.type = .MS_LAYER_ANNOTATION ∧
    (msTclPlugReadShape demoEnv demoQueriedWorld demoAnnotation demoShape).map
        (fun r => (r.1, r.2.2.type, r.2.2.line, (r.2.1.calls 1).drop (demoQueriedWorld.calls 1).length))
      = some (.MS_SUCCESS, .MS_SHAPE_NULL,
          [{ point := [{ x := 0, y := 0 }, { x := 1, y := 1 }] }],
          [.Tcl_EvalObjv "::get_geometry" [.int 0]]) := by
  refine ⟨rfl, ?_⟩
  decide

/-! ## What a successful fetch puts in the record -/

theorem readAttributes_success (env : TclEnv) (w w' : World) (layer : layerObj)
    (li : msTclPlugLayerInfo) (a : Nat) (shape shape' : shapeObj)
    (ha : li.getAttributesCommandObj = some a)
    (h : readAttributes env w layer li shape = some (.MS_SUCCESS, w', shape')) :
    ∃ attrs list,
      env.script (w.interps li.interp) (.Tcl_EvalObjv (w.objs a).bytes [.int (longToInt li.rownum)])
        = (.TCL_OK, attrs) ∧
      Tcl_ListObjGetElements attrs = .ok list ∧ (list.length : Int) = layer.numitems ∧
      w' = (Tcl_IncrRefCount w a).logCall env li.interp layer.addr
          (.Tcl_EvalObjv (w.objs a).bytes [.int (longToInt li.rownum)]) (Tcl_GetString attrs) ∧
      shape' = find_bounds { shape with values := list.map Tcl_GetString, index := li.rownum,
                                        numvalues := layer.numitems } := by
  simp only [readAttributes, ha, tclEval, incrRefCount_bytes, incrRefCount_interps] at h
  split at h
  · simp at h
  · rename_i hcode
    split at h
    · simp at h
    · rename_i list hlist
      split at h
      · simp at h
      · rename_i hn
        simp only [Option.some.injEq, Prod.mk.injEq, true_and] at h
        have hc : (env.script (w.interps li.interp)
            (.Tcl_EvalObjv (w.objs a).bytes [.int (longToInt li.rownum)])).1 = .TCL_OK := by
          cases hx : (env.script (w.interps li.interp)
            (.Tcl_EvalObjv (w.objs a).bytes [.int (longToInt li.rownum)])).1
          · rfl
          · exact absurd hx hcode
        refine ⟨_, list, Prod.ext hc rfl, hlist, ?_, h.1.symm, h.2.symm⟩
        simp only [ne_eq, not_not] at hn
        exact hn.symm

/-- What holds of C22 for every cursor. When msTclPlugReadShape returns
MS_SUCCESS with a geometry kind other than "none" on an open session with
cursor r, the calls it made are get_geometry and then get_attributes, both
with r as `Tcl_NewIntObj` narrows it; the values of the record
are the string forms of the elements of the get_attributes answer, in order,
as many as the layer has items; and the row identifier of the record is r.
The function is handed the layer and writes neither the cursor nor the row
count: it yields a status, the process state and the record only. -/
theorem readShape_success_carries_attributes (env : TclEnv) (w w' : World)
    (layer : layerObj) (li : msTclPlugLayerInfo) (g a : Nat) (shape shape' : shapeObj)
    (hli : layer.layerinfo = some li)
    (hg : li.getGeometryCommandObj = some g) (ha : li.getAttributesCommandObj = some a)
    (h : msTclPlugReadShape env w layer shape = some (.MS_SUCCESS, w', shape'))
    (hkind : shape'.type ≠ .MS_SHAPE_NULL) :
    ∃ (W : World) (attrs : TclObj) (list : List TclObj),
      W.calls li.interp
        = w.calls li.interp ++ [.Tcl_EvalObjv (w.objs g).bytes [.int (longToInt li.rownum)]] ∧
      env.script (W.interps li.interp) (.Tcl_EvalObjv (w.objs a).bytes [.int (longToInt li.rownum)])
        = (.TCL_OK, attrs) ∧
      Tcl_ListObjGetElements attrs = .ok list ∧
      w'.calls li.interp
        = w.calls li.interp ++ [.Tcl_EvalObjv (w.objs g).bytes [.int (longToInt li.rownum)],
            .Tcl_EvalObjv (w.objs a).bytes [.int (longToInt li.rownum)]] ∧
      shape'.values = list.map Tcl_GetString ∧
      (shape'.values.length : Int) = layer.numitems ∧
      shape'.numvalues = layer.numitems ∧
      shape'.index = li.rownum := by
  simp only [msTclPlugReadShape, hli, hg, tclEval, incrRefCount_bytes,
    incrRefCount_interps] at h
  split at h
  · cases h
  · split at h
    · simp at h
    · split at h
      · simp at h
      · rename_i geoList _
        generalize hW : (Tcl_IncrRefCount w g).logCall env li.interp layer.addr
          (.Tcl_EvalObjv (w.objs g).bytes [.int (longToInt li.rownum)]) _ = W at h
        have hWc : W.calls li.interp
            = w.calls li.interp ++ [.Tcl_EvalObjv (w.objs g).bytes [.int (longToInt li.rownum)]] := by
          rw [← hW]; simp
        have hWo : ∀ p, (W.objs p).bytes = (w.objs p).bytes := by
          intro p; rw [← hW]; simp
        unfold shapeFromGeometry at h
        simp only at h
        split at h
        · split at h
          · cases h
          · simp at h
        · rename_i s hv _
          generalize (if (!hv) = true then { s with type := MS_SHAPE_TYPE.MS_SHAPE_NULL }
            else s) = s2 at h
          by_cases hty : s2.type = .MS_SHAPE_NULL
          · simp only [hty, ne_eq, not_true_eq_false, if_false, Option.some.injEq,
              Prod.mk.injEq, true_and] at h
            rw [← h.2] at hkind
            exact absurd hty hkind
          · simp only [hty, ne_eq, not_false_eq_true, if_true] at h
            obtain ⟨attrs, list, h1, h2, h3, h4, h5⟩ :=
              readAttributes_success env W w' layer li a _ shape' ha h
            rw [hWo a] at h1
            refine ⟨W, attrs, list, hWc, h1, h2, ?_, ?_, ?_, ?_, ?_⟩
            · rw [h4]
              simp [hWc, hWo]
            · rw [h5]; rfl
            · rw [h5]
              simpa using h3
            · rw [h5]; rfl
            · rw [h5]; rfl

set_option maxRecDepth 8000 in
/-- C22, the code at a failing input. In the example session with the
cursor at row 2^32 (below the row count 2^32 + 1), msTclPlugReadShape passes
the cursor to both procedures through `Tcl_NewIntObj`, which takes an `int`:
get_geometry and get_attributes are called with 0, so the geometry and the
attributes are those of row 0, while the row identifier of the record is the
cursor, 4294967296. With the cursor at row 0 the same two calls give the
same record with the row identifier 0. -/
theorem readShape_narrows_row_number :
    demoFar.rownum = 4294967296 ∧ demoFar.nrows = 4294967297 ∧
    (msTclPlugReadShape demoEnv demoQueriedWorld demoFar demoShape).map
        (fun r => (r.1, (r.2.1.calls 1).drop (demoQueriedWorld.calls 1).length,
          r.2.2.values, r.2.2.index))
      = some (.MS_SUCCESS,
          [.Tcl_EvalObjv "::get_geometry" [.int 0], .Tcl_EvalObjv "::get_attributes" [.int 0]],
          ["1", "Alpha"], 4294967296) ∧
    (msTclPlugReadShape demoEnv demoQueriedWorld demoQueried demoShape).map
        (fun r => (r.1, (r.2.1.calls 1).drop (demoQueriedWorld.calls 1).length,
          r.2.2.values, r.2.2.index))
      = some (.MS_SUCCESS,
          [.Tcl_EvalObjv "::get_geometry" [.int 0], .Tcl_EvalObjv "::get_attributes" [.int 0]],
          ["1", "Alpha"], 0) := by
  refine ⟨?_, ?_, ?_, ?_⟩ <;> decide

/-! ## A failing fetch during the iteration -/

/-- The loop of msTclPlugLayerNextShape over rows without geometry that are
followed by a row whose fetch fails: it returns the status of that fetch
with the cursor on that row. -/
theorem nextShapeLoop_failing (env : TclEnv) (layer : layerObj)
    (li : msTclPlugLayerInfo) (g a : Nat) (shape : shapeObj) (rv : Status) (t : MS_SHAPE_TYPE)
    (hli : layer.layerinfo = some li) (hi : li.interp ≠ 0)
    (hg : li.getGeometryCommandObj = some g) (ha : li.getAttributesCommandObj = some a)
    (hrv : rv ≠ .MS_SUCCESS) :
    ∀ (outs : List (Status × MS_SHAPE_TYPE)) (c fuel : Nat) (W : World) (s : shapeObj),
      fetchRows env layer shape (outs.length + 1) c W = some (outs ++ [(rv, t)]) →
      (∀ o ∈ outs, o = (.MS_SUCCESS, .MS_SHAPE_NULL)) →
      ((c + outs.length : Nat) : Int) < li.nrows → outs.length + 1 ≤ fuel →
      s.type = .MS_SHAPE_NULL →
      ∃ W' s', nextShapeLoop env fuel W (layer.atRow c) s
          = some (rv, W', layer.atRow ((c + outs.length : Nat) : Int), s') := by
  intro outs
  induction outs with
  | nil =>
    intro c fuel W s hfetch _ hck hfuel hs
    obtain ⟨f, rfl⟩ : ∃ f, fuel = f + 1 := ⟨fuel - 1, by simp at hfuel; omega⟩
    simp only [List.length_nil, Nat.add_zero] at hck
    simp only [List.length_nil, Nat.zero_add, List.nil_append] at hfetch
    obtain ⟨w1, out, hread0, _, _⟩ := fetchRows_cons env layer shape 0 c W _ [] hfetch
    have hli' := atRow_layerinfo layer li c hli
    obtain ⟨rv', W', t1, t2, e1, e2, _⟩ :=
      readShape_shape_indep env W (layer.atRow c) { li with rownum := c } g a shape s
        hli' hi hg ha (by rw [hread0]; rfl)
    rw [hread0] at e1
    simp only [Option.some.injEq, Prod.mk.injEq] at e1
    obtain ⟨h1, h2, _⟩ := e1
    subst h1 h2
    refine ⟨w1, t2, ?_⟩
    simp only [nextShapeLoop, hs, if_true, hli', hck, e2, ne_eq, hrv, not_false_eq_true,
      Nat.add_zero, List.length_nil]
  | cons o os ih =>
    intro c fuel W s hfetch hok hck hfuel hs
    simp only [List.length_cons, List.cons_append] at hfetch hck hfuel
    obtain ⟨f, rfl⟩ : ∃ f, fuel = f + 1 := ⟨fuel - 1, by omega⟩
    have hlt : (c : Int) < li.nrows := by omega
    obtain ⟨w1, out, hread0, hout, hrest⟩ :=
      fetchRows_cons env layer shape _ c W o (os ++ [(rv, t)]) hfetch
    have ho : o = (.MS_SUCCESS, .MS_SHAPE_NULL) := hok o (by simp)
    subst ho
    simp only at hread0 hout
    have hli' := atRow_layerinfo layer li c hli
    obtain ⟨rv', W', t1, t2, e1, e2, hty⟩ :=
      readShape_shape_indep env W (layer.atRow c) { li with rownum := c } g a shape s
        hli' hi hg ha (by rw [hread0]; rfl)
    rw [hread0] at e1
    simp only [Option.some.injEq, Prod.mk.injEq] at e1
    obtain ⟨h1, h2, h3⟩ := e1
    subst h1 h2 h3
    have hty2 : t2.type = .MS_SHAPE_NULL := by rw [← hty rfl]; exact hout
    obtain ⟨W'', s'', hloop⟩ :=
      ih (c + 1) f w1 t2 hrest (fun x hx => hok x (by simp [hx])) (by
        have : c + 1 + os.length = c + (os.length + 1) := by omega
        rw [this]; exact hck) (by omega) hty2
    refine ⟨W'', s'', ?_⟩
    simp only [nextShapeLoop, hs, if_true, hli', hlt, e2, ne_eq, not_true_eq_false,
      if_false, hty2, atRow_nextRow]
    have h1 : ((c : Int) + 1) = ((c + 1 : Nat) : Int) := by push_cast; rfl
    have h2 : c + (os.length + 1) = c + 1 + os.length := by omega
    rw [h1, List.length_cons, h2]
    exact hloop

/-- With the cursor below the row count msTclPlugLayerNextShape begins by
fetching the row at the cursor. Either the model ends in that fetch, which
takes a get_geometry answer that is referenced by the interpreter result
only; or the fetch returns, having called get_geometry for that row first:
when it fails msTclPlugLayerNextShape returns its status and leaves the
cursor, when it gives a record msTclPlugLayerNextShape returns the record and
moves the cursor past the row. -/
theorem nextShape_first_fetch (env : TclEnv) (W : World) (layer : layerObj)
    (li : msTclPlugLayerInfo) (g a : Nat) (shape : shapeObj)
    (hli : layer.layerinfo = some li) (hi : li.interp ≠ 0)
    (hg : li.getGeometryCommandObj = some g) (ha : li.getAttributesCommandObj = some a)
    (hlt : li.rownum < li.nrows) :
    (msTclPlugReadShape env W layer { shape with type := .MS_SHAPE_NULL } = none ∧
      msTclPlugLayerNextShape env W layer shape = none ∧
      env.resultKept (W.interps li.interp)
        (.Tcl_EvalObjv (W.objs g).bytes [.int (longToInt li.rownum)]) = false) ∨
    ∃ rv W2 s2,
      msTclPlugReadShape env W layer { shape with type := .MS_SHAPE_NULL } = some (rv, W2, s2) ∧
      (∃ rest, W2.calls li.interp
        = W.calls li.interp ++ [.Tcl_EvalObjv (W.objs g).bytes [.int (longToInt li.rownum)]] ++ rest) ∧
      (rv ≠ .MS_SUCCESS →
        msTclPlugLayerNextShape env W layer shape = some (rv, W2, layer, s2)) ∧
      (rv = .MS_SUCCESS → s2.type ≠ .MS_SHAPE_NULL →
        msTclPlugLayerNextShape env W layer shape = some (.MS_SUCCESS, W2, layer.nextRow, s2)) := by
  rcases readShape_cases env W layer li g a { shape with type := .MS_SHAPE_NULL } hli hi hg ha
    with ⟨hnone, hk⟩ | ⟨rv, W2, s2, hread, _, ⟨rest, hcalls, _⟩, _, _, _⟩
  · left
    refine ⟨hnone, ?_, hk⟩
    simp only [msTclPlugLayerNextShape, hli, nextShapeLoop, if_true, hlt, hnone]
  right
  refine ⟨rv, W2, s2, hread, ⟨rest, hcalls⟩, ?_, ?_⟩
  · intro hrv
    simp only [msTclPlugLayerNextShape, hli, nextShapeLoop, if_true, hlt, hread, ne_eq, hrv,
      not_false_eq_true]
  · intro hrv hty
    subst hrv
    simp only [msTclPlugLayerNextShape, hli, nextShapeLoop, if_true, hlt, hread, ne_eq,
      not_true_eq_false, if_false, hty, not_false_eq_true]

/-- C23. In an open session with the cursor at row c, let the fetches of
the rows c, c+1, ... succeed without geometry for the rows before row c+k and
let the fetch of row c+k, which is below the row count, end with a status rv
other than MS_SUCCESS. Then msTclPlugLayerNextShape returns rv; the session
it leaves is the one it got with the cursor at c+k (the k rows before it are
consumed) and the same row count; and a repeated msTclPlugLayerNextShape
starts by fetching row c+k again. That fetch calls get_geometry with c+k as
`Tcl_NewIntObj` narrows it; unless the model ends in it, which takes an
answer that is referenced by the interpreter result only, the repeated call
returns the status of the fetch with the cursor still at c+k when the fetch
fails, and the record with the cursor at c+k+1 when the fetch gives one. -/
theorem nextShape_failing_fetch_keeps_cursor (env : TclEnv) (W : World) (layer : layerObj)
    (li : msTclPlugLayerInfo) (g a c : Nat) (shape : shapeObj) (rv : Status) (t : MS_SHAPE_TYPE)
    (outs : List (Status × MS_SHAPE_TYPE))
    (hli : layer.layerinfo = some li) (hi : li.interp ≠ 0)
    (hg : li.getGeometryCommandObj = some g) (ha : li.getAttributesCommandObj = some a)
    (hcur : li.rownum = (c : Int))
    (hfetch : fetchRows env layer shape (outs.length + 1) c W = some (outs ++ [(rv, t)]))
    (hempty : ∀ o ∈ outs, o = (.MS_SUCCESS, .MS_SHAPE_NULL))
    (hrv : rv ≠ .MS_SUCCESS)
    (hbelow : ((c + outs.length : Nat) : Int) < li.nrows) :
    ∃ W' s' layer',
      msTclPlugLayerNextShape env W layer shape = some (rv, W', layer', s') ∧
      layer' = { layer with layerinfo := some { li with rownum := ((c + outs.length : Nat) : Int) } } ∧
      ∀ shape2 : shapeObj,
        (msTclPlugReadShape env W' layer' { shape2 with type := .MS_SHAPE_NULL } = none ∧
          msTclPlugLayerNextShape env W' layer' shape2 = none ∧
          env.resultKept (W'.interps li.interp)
            (.Tcl_EvalObjv (W'.objs g).bytes
              [.int (longToInt ((c + outs.length : Nat) : Int))]) = false) ∨
        ∃ rv2 W2 s2,
          msTclPlugReadShape env W' layer' { shape2 with type := .MS_SHAPE_NULL }
            = some (rv2, W2, s2) ∧
          (∃ rest, W2.calls li.interp = W'.calls li.interp ++
            [.Tcl_EvalObjv (W'.objs g).bytes
              [.int (longToInt ((c + outs.length : Nat) : Int))]] ++ rest) ∧
          (rv2 ≠ .MS_SUCCESS →
            msTclPlugLayerNextShape env W' layer' shape2 = some (rv2, W2, layer', s2)) ∧
          (rv2 = .MS_SUCCESS → s2.type ≠ .MS_SHAPE_NULL →
            msTclPlugLayerNextShape env W' layer' shape2
              = some (.MS_SUCCESS, W2, { layer with
                  layerinfo := some { li with rownum := ((c + outs.length : Nat) : Int) + 1 } },
                  s2)) := by
  have hat : layer.atRow (c : Int) = layer := by
    rw [atRow_eq layer li _ hli, ← hcur]
    cases layer
    simp only at hli
    subst hli
    rfl
  obtain ⟨W', s', hloop⟩ :=
    nextShapeLoop_failing env layer li g a shape rv t hli hi hg ha hrv outs c
      ((li.nrows - li.rownum).toNat + 1) W { shape with type := .MS_SHAPE_NULL }
      hfetch hempty hbelow (by push_cast at hbelow; omega) rfl
  rw [hat] at hloop
  have hli2 := atRow_layerinfo layer li ((c + outs.length : Nat) : Int) hli
  refine ⟨W', s', layer.atRow ((c + outs.length : Nat) : Int), ?_, atRow_eq layer li _ hli, ?_⟩
  · simp only [msTclPlugLayerNextShape, hli]
    exact hloop
  · intro shape2
    rcases nextShape_first_fetch env W' (layer.atRow ((c + outs.length : Nat) : Int))
        { li with rownum := ((c + outs.length : Nat) : Int) } g a shape2 hli2 hi hg ha hbelow
      with h | ⟨rv2, W2, s2, hread, hcalls, hfail, hok⟩
    · exact Or.inl h
    · refine Or.inr ⟨rv2, W2, s2, hread, hcalls, hfail, ?_⟩
      intro h1 h2
      rw [hok h1 h2, atRow_nextRow, atRow_eq layer li _ hli]

/-! ## The shape handed back after a failing fetch -/

set_option maxRecDepth 8000 in
/-- C24, the code at the failing input. In the example session with the
cursor at row 5, the geometry of row 7 is a part of two points followed by a
part of three elements. msTclPlugReadShape on row 7 returns MS_FAILURE and
has added the first part to the shape; msTclPlugLayerNextShape from row 5
returns MS_FAILURE with the cursor at row 7 and hands back the shape with
that part in it. -/
theorem nextShape_keeps_parts_of_failed_row :
    (msTclPlugReadShape demoEnv demoQueriedWorld (demoLong.atRow 7) demoShape).map
        (fun r => (r.1, r.2.2.line))
      = some (.MS_FAILURE, [{ point := [{ x := 0, y := 0 }, { x := 1, y := 1 }] }]) ∧
    (msTclPlugLayerNextShape demoEnv demoQueriedWorld demoLong demoShape).map
        (fun r => (r.1, r.2.2.1.layerinfo.map (fun li => li.rownum), r.2.2.2.line))
      = some (.MS_FAILURE, some 7, [{ point := [{ x := 0, y := 0 }, { x := 1, y := 1 }] }]) := by
  refine ⟨?_, ?_⟩ <;> decide

/-! ## The context variables over a query -/

/-- An evaluation leaves the array `layer` of the interpreter it ran in as
the script left it. -/
theorem logCall_layerArray_same (w : World) (env : TclEnv) (i : Int) (f : Nat) (c : Call)
    (r : String) :
    ((w.logCall env i f c r).interps i).layerArray = env.layerArray (w.interps i) c := by
  simp [World.logCall]

theorem logCall_layerArray_other (w : World) (env : TclEnv) (i j : Int) (f : Nat) (c : Call)
    (r : String) (h : j ≠ i) :
    ((w.logCall env i f c r).interps j).layerArray = (w.interps j).layerArray := by
  simp [World.logCall, setInterp_interps_other _ _ _ _ h]

@[simp] theorem addErrorInfo_layerArray (w : World) (i j : Int) (m : String) :
    ((Tcl_AddErrorInfo w i m).interps j).layerArray = (w.interps j).layerArray := by
  by_cases h : j = i
  · subst h; simp [Tcl_AddErrorInfo]
  · simp [Tcl_AddErrorInfo, setInterp_interps_other _ _ _ _ h]

@[simp] theorem backgroundError_layerArray (w : World) (i j : Int) :
    ((Tcl_BackgroundError w i).interps j).layerArray = (w.interps j).layerArray := by
  by_cases h : j = i
  · subst h; simp [Tcl_BackgroundError]
  · simp [Tcl_BackgroundError, setInterp_interps_other _ _ _ _ h]

@[simp] theorem setObjResult_layerArray (w : World) (i j : Int) (m : String) :
    ((Tcl_SetObjResult w i m).interps j).layerArray = (w.interps j).layerArray := by
  by_cases h : j = i
  · subst h; simp [Tcl_SetObjResult]
  · simp [Tcl_SetObjResult, setInterp_interps_other _ _ _ _ h]

theorem tclEval_layerArray_same (env : TclEnv) (w : World) (i : Int) (f : Nat) (c : Call) :
    ((tclEval env w i f c).2.2.interps i).layerArray = env.layerArray (w.interps i) c := by
  simp [tclEval, logCall_layerArray_same]

@[simp] theorem msSetError_layerArray (w : World) (code : MS_ERRCODE) (m r : String)
    (args : List ErrArg) (j : Int) :
    ((msSetError w code m r args).interps j).layerArray = (w.interps j).layerArray := by
  simp [msSetError]

/-- Writing element `n` of the array `layer` leaves every other element as
it was. -/
theorem setVar2Ex_layerVar_other (w : World) (i : Int) (n m : String) (v : TclArg)
    (h : m ≠ n) :
    ((Tcl_SetVar2Ex w i n v).interps i).layerVar m = (w.interps i).layerVar m := by
  simp only [Tcl_SetVar2Ex, setInterp_interps_same, Interp.layerVar]
  congr 1
  generalize (w.interps i).layerArray = l
  induction l with
  | nil =>
    have hnm : (n == m) = false := by simpa using Ne.symm h
    simp [List.find?, hnm]
  | cons kv l ih =>
    by_cases hk : kv.1 = n
    · have hm : ¬ kv.1 = m := fun e => h (e ▸ hk)
      simp only [List.filter_cons, hk, bne_self_eq_false, Bool.false_eq_true, if_false]
      rw [List.find?_cons_of_neg _ (by simpa using hm)]
      have := ih
      simpa [hk] using this
    · simp only [List.filter_cons, bne_iff_ne, ne_eq, hk, not_false_eq_true, if_true,
        List.cons_append]
      by_cases hm : kv.1 = m
      · simp [List.find?_cons, hm]
      · rw [List.find?_cons_of_neg _ (by simpa using hm),
          List.find?_cons_of_neg _ (by simpa using hm)]
        exact ih

/-- Writing element `n` of the array `layer` makes it read as the value
written. -/
theorem setVar2Ex_layerVar_same (w : World) (i : Int) (n : String) (v : TclArg) :
    ((Tcl_SetVar2Ex w i n v).interps i).layerVar n = some v := by
  simp only [Tcl_SetVar2Ex, setInterp_interps_same, Interp.layerVar]
  generalize (w.interps i).layerArray = l
  induction l with
  | nil => simp [List.find?]
  | cons kv l ih =>
    by_cases hk : kv.1 = n
    · simp only [List.filter_cons, hk, bne_self_eq_false, Bool.false_eq_true, if_false]
      exact ih
    · simp only [List.filter_cons, bne_iff_ne, ne_eq, hk, not_false_eq_true, if_true,
        List.cons_append]
      rw [List.find?_cons_of_neg _ (by simpa using hk)]
      exact ih

/-- The array `layer` after msTclPlugLayerWhichShapes is the one the last
evaluation it made has left: the plugin writes it before the connection
script is evaluated and not after. -/
theorem whichShapes_layerArray (env : TclEnv) (w : World) (layer : layerObj)
    (li : msTclPlugLayerInfo) (rect : rectObj) (q : Nat) (connection : String)
    (st : Status) (w' : World) (layer' : layerObj)
    (hli : layer.layerinfo = some li) (hi : li.interp ≠ 0)
    (hq : li.geoQueryCommandObj = some q) (hconn : layer.connection = some connection)
    (h : msTclPlugLayerWhichShapes env w layer rect = some (st, w', layer')) :
    (w'.interps li.interp).layerArray
      = if (connectionAnswer env w layer li.interp rect connection).1 = .TCL_ERROR then
          ((connectionAnswer env w layer li.interp rect connection).2.2.interps
            li.interp).layerArray
        else
          ((geoQueryAnswer env w layer li.interp rect connection q).2.2.interps
            li.interp).layerArray := by
  rw [whichShapes_steps env w layer rect li q connection hli hi hq hconn] at h
  by_cases h1 : (connectionAnswer env w layer li.interp rect connection).1 = .TCL_ERROR
  · simp only [h1, if_true, Option.some.injEq, Prod.mk.injEq] at h ⊢
    obtain ⟨_, rfl, _⟩ := h
    simp
  · simp only [h1, if_false] at h ⊢
    by_cases h2 : (geoQueryAnswer env w layer li.interp rect connection q).1 = .TCL_ERROR
    · simp only [h2, if_true, Option.some.injEq, Prod.mk.injEq] at h
      obtain ⟨_, rfl, _⟩ := h
      simp
    · simp only [h2, if_false] at h
      split at h
      · simp only [Option.some.injEq, Prod.mk.injEq] at h
        obtain ⟨_, rfl, _⟩ := h
        simp
      · simp only [Option.some.injEq, Prod.mk.injEq] at h
        obtain ⟨_, rfl, _⟩ := h
        rfl

/-- An open session with a connection string and a geo_query command:
msTclPlugLayerWhichShapes returns. -/
theorem whichShapes_returns (env : TclEnv) (w : World) (layer : layerObj) (rect : rectObj)
    (li : msTclPlugLayerInfo) (q : Nat) (connection : String)
    (hli : layer.layerinfo = some li) (hi : li.interp ≠ 0)
    (hq : li.geoQueryCommandObj = some q) (hconn : layer.connection = some connection) :
    ∃ st w' layer', msTclPlugLayerWhichShapes env w layer rect = some (st, w', layer') := by
  rw [whichShapes_steps env w layer rect li q connection hli hi hq hconn]
  split
  · exact ⟨_, _, _, rfl⟩
  · split
    · exact ⟨_, _, _, rfl⟩
    · split <;> exact ⟨_, _, _, rfl⟩

set_option maxRecDepth 8000 in
/-- What the element uid reads after msTclPlugLayerWhichShapes is up to the
scripts it runs: in the example with a connection script that unsets uid,
the row identifier 42 published before the call is gone after it, and the
rectangle is published. -/
theorem whichShapes_uid_as_scripts_leave_it :
    (demoIdentifiedWorld.interps 1).layerVar "uid" = some (.long 42) ∧
    (msTclPlugLayerWhichShapes demoClearingEnv demoIdentifiedWorld demoQueried demoRect).map
        (fun r => (r.1, (r.2.1.interps 1).layerVar "uid", (r.2.1.interps 1).layerVar "rectangle"))
      = some (.MS_SUCCESS, none, some (.doubleList [0, 0, 10, 10])) := by
  refine ⟨?_, ?_⟩ <;> decide

/-! ## The back-reference of the meta command -/

@[simp] theorem logCall_pluglayer (w : World) (env : TclEnv) (i j : Int) (f : Nat) (c : Call) (r : String) :
    ((w.logCall env i f c r).interps j).pluglayer = (w.interps j).pluglayer := by
  by_cases h : j = i
  · subst h; simp [World.logCall]
  · simp [World.logCall, setInterp_interps_other _ _ _ _ h]

@[simp] theorem addErrorInfo_pluglayer (w : World) (i j : Int) (m : String) :
    ((Tcl_AddErrorInfo w i m).interps j).pluglayer = (w.interps j).pluglayer := by
  by_cases h : j = i
  · subst h; simp [Tcl_AddErrorInfo]
  · simp [Tcl_AddErrorInfo, setInterp_interps_other _ _ _ _ h]

@[simp] theorem backgroundError_pluglayer (w : World) (i j : Int) :
    ((Tcl_BackgroundError w i).interps j).pluglayer = (w.interps j).pluglayer := by
  by_cases h : j = i
  · subst h; simp [Tcl_BackgroundError]
  · simp [Tcl_BackgroundError, setInterp_interps_other _ _ _ _ h]

@[simp] theorem setObjResult_pluglayer (w : World) (i j : Int) (m : String) :
    ((Tcl_SetObjResult w i m).interps j).pluglayer = (w.interps j).pluglayer := by
  by_cases h : j = i
  · subst h; simp [Tcl_SetObjResult]
  · simp [Tcl_SetObjResult, setInterp_interps_other _ _ _ _ h]

@[simp] theorem setVar2Ex_pluglayer (w : World) (i j : Int) (n : String) (v : TclArg) :
    ((Tcl_SetVar2Ex w i n v).interps j).pluglayer = (w.interps j).pluglayer := by
  by_cases h : j = i
  · subst h; simp [Tcl_SetVar2Ex]
  · simp [Tcl_SetVar2Ex, setInterp_interps_other _ _ _ _ h]

@[simp] theorem set_tcl_var_string_pluglayer (w : World) (i j : Int) (n : String)
    (v : Option String) :
    ((set_tcl_var_string w i n v).interps j).pluglayer = (w.interps j).pluglayer := by
  cases v <;> simp [set_tcl_var_string]

@[simp] theorem tclEval_pluglayer (env : TclEnv) (w : World) (i j : Int) (f : Nat) (c : Call) :
    ((tclEval env w i f c).2.2.interps j).pluglayer = (w.interps j).pluglayer := by
  simp [tclEval]

@[simp] theorem logCall_history (w : World) (env : TclEnv) (i : Int) (f : Nat) (c : Call) (r : String) :
    ((w.logCall env i f c r).interps i).history = (w.interps i).history ++
      [{ call := c, forLayer := f, pluglayer := (w.interps i).pluglayer }] := by
  simp [World.logCall]

@[simp] theorem tclEval_history (env : TclEnv) (w : World) (i : Int) (f : Nat) (c : Call) :
    ((tclEval env w i f c).2.2.interps i).history = (w.interps i).history ++
      [{ call := c, forLayer := f, pluglayer := (w.interps i).pluglayer }] := by
  simp [tclEval]

@[simp] theorem addErrorInfo_history (w : World) (i j : Int) (m : String) :
    ((Tcl_AddErrorInfo w i m).interps j).history = (w.interps j).history := by
  by_cases h : j = i
  · subst h; simp [Tcl_AddErrorInfo]
  · simp [Tcl_AddErrorInfo, setInterp_interps_other _ _ _ _ h]

@[simp] theorem backgroundError_history (w : World) (i j : Int) :
    ((Tcl_BackgroundError w i).interps j).history = (w.interps j).history := by
  by_cases h : j = i
  · subst h; simp [Tcl_BackgroundError]
  · simp [Tcl_BackgroundError, setInterp_interps_other _ _ _ _ h]

@[simp] theorem setObjResult_history (w : World) (i j : Int) (m : String) :
    ((Tcl_SetObjResult w i m).interps j).history = (w.interps j).history := by
  by_cases h : j = i
  · subst h; simp [Tcl_SetObjResult]
  · simp [Tcl_SetObjResult, setInterp_interps_other _ _ _ _ h]

@[simp] theorem setVar2Ex_history (w : World) (i j : Int) (n : String) (v : TclArg) :
    ((Tcl_SetVar2Ex w i n v).interps j).history = (w.interps j).history := by
  by_cases h : j = i
  · subst h; simp [Tcl_SetVar2Ex]
  · simp [Tcl_SetVar2Ex, setInterp_interps_other _ _ _ _ h]

theorem bindCommands_interps (w : World) (layer : layerObj) (li : msTclPlugLayerInfo) :
    (bindCommands w layer li).1.interps = w.interps := by
  cases h : msLookupHashTable layer.metadata "namespace" <;>
    simp [bindCommands, h, Tcl_NewStringObj, Tcl_AppendToObj, Tcl_IncrRefCount]

theorem parseData_pluglayer (w w' : World) (layer : layerObj) (st : Status)
    (h : msTclPlugParseData w layer = some (st, w')) (j : Int) :
    (w'.interps j).pluglayer = (w.interps j).pluglayer := by
  unfold msTclPlugParseData at h
  split at h
  · cases h
  · split at h
    · cases h
    · simp only [Option.some.injEq, Prod.mk.injEq] at h
      obtain ⟨_, rfl⟩ := h
      cases layer.type <;> simp

theorem openBound_pluglayer (env : TclEnv) (w w' : World) (layer layer' : layerObj)
    (li : msTclPlugLayerInfo) (interp : Int) (st : Status)
    (h : openBound env w layer li interp = some (st, w', layer')) (j : Int) :
    (w'.interps j).pluglayer = (w.interps j).pluglayer := by
  unfold openBound at h
  simp only at h
  split at h
  · cases h
  · rename_i st1 w1 hpd
    have h1 := parseData_pluglayer _ _ _ _ hpd j
    obtain ⟨hst1, _⟩ := parseData_objs _ _ _ _ hpd
    subst hst1
    simp only [ne_eq, not_true_eq_false, if_false] at h
    split at h
    · cases h
    · split at h
      · simp only [Option.some.injEq, Prod.mk.injEq] at h
        obtain ⟨_, hw, _⟩ := h
        rw [← hw, ← h1]
        simp
      · simp only [Option.some.injEq, Prod.mk.injEq] at h
        obtain ⟨_, hw, _⟩ := h
        rw [← hw, ← h1]
        simp

/-- An msTclPlugLayerOpen that attaches a session to a closed layer leaves
the back-reference "pluglayer" of the interpreter of that session at the
layer. -/
theorem open_sets_pluglayer (env : TclEnv) (w w' : World) (layer layer' : layerObj)
    (st : Status) (li : msTclPlugLayerInfo)
    (hclosed : layer.layerinfo = none)
    (hopen : msTclPlugLayerOpen env w layer = some (st, w', layer'))
    (hli : layer'.layerinfo = some li) :
    (w'.interps li.interp).pluglayer = some layer.addr := by
  unfold msTclPlugLayerOpen at hopen
  rw [hclosed] at hopen
  simp only [Option.isSome_none, Bool.false_eq_true, if_false] at hopen
  split at hopen
  · simp only [Option.some.injEq, Prod.mk.injEq] at hopen
    rw [← hopen.2.2, hclosed] at hli
    cases hli
  · rcases hacq : acquireInterp env w layer with ⟨w0, oi⟩
    rw [hacq] at hopen
    cases oi with
    | none =>
      simp only [Option.some.injEq, Prod.mk.injEq] at hopen
      rw [← hopen.2.2, hclosed] at hli
      cases hli
    | some interp =>
      simp only at hopen
      obtain ⟨_, li', hl, hint⟩ := openWithInterp_sameLifecycle env _ _ _ _ _ _ _ hopen
      rw [hl] at hli
      simp only [Option.some.injEq] at hli
      subst hli
      rw [hint]
      unfold openWithInterp at hopen
      rw [openBound_pluglayer env _ _ _ _ _ _ _ hopen interp, bindCommands_interps]
      simp

/-- The evaluations of msTclPlugLayerWhichShapes: it logs at least one, each
made on behalf of its layer under the back-reference "pluglayer" that the
interpreter had when the function was called, and it leaves that
back-reference as it was. -/
theorem whichShapes_history (env : TclEnv) (w : World) (layer : layerObj)
    (li : msTclPlugLayerInfo) (rect : rectObj) (st : Status) (w' : World) (layer' : layerObj)
    (hli : layer.layerinfo = some li)
    (h : msTclPlugLayerWhichShapes env w layer rect = some (st, w', layer')) :
    (w'.interps li.interp).pluglayer = (w.interps li.interp).pluglayer ∧
    ∃ new, (w'.interps li.interp).history = (w.interps li.interp).history ++ new ∧ new ≠ [] ∧
      ∀ e ∈ new, e.forLayer = layer.addr ∧ e.pluglayer = (w.interps li.interp).pluglayer := by
  simp only [msTclPlugLayerWhichShapes, hli, msTclPlugSnagRectangleAndUID, set_tcl_var_obj] at h
  by_cases hi : li.interp = 0
  · simp [hi] at h
  · simp only [hi, if_false] at h
    cases hc : layer.connection with
    | none => simp [hc] at h
    | some connection =>
      simp only [hc] at h
      split at h
      · simp only [Option.some.injEq, Prod.mk.injEq] at h
        obtain ⟨_, rfl, _⟩ := h
        refine ⟨by simp, [_], by simp; rfl, by simp, ?_⟩
        simp
      · cases hq : li.geoQueryCommandObj with
        | none => simp [hq] at h
        | some q =>
          simp only [hq] at h
          split at h
          · simp only [Option.some.injEq, Prod.mk.injEq] at h
            obtain ⟨_, rfl, _⟩ := h
            refine ⟨by simp, [_, _], by simp; exact ⟨rfl, rfl⟩, by simp, ?_⟩
            simp
          · split at h
            · simp only [Option.some.injEq, Prod.mk.injEq] at h
              obtain ⟨_, rfl, _⟩ := h
              refine ⟨by simp, [_, _], by simp; exact ⟨rfl, rfl⟩, by simp, ?_⟩
              simp
            · simp only [Option.some.injEq, Prod.mk.injEq] at h
              obtain ⟨_, rfl, _⟩ := h
              refine ⟨by simp, [_, _], by simp; exact ⟨rfl, rfl⟩, by simp, ?_⟩
              simp

/-- C26, what the code does instead. Let a layer A have an open session and
let msTclPlugLayerOpen attach a session to another layer B in the same
interpreter afterwards. Then the back-reference "pluglayer" designates B,
and an msTclPlugLayerWhichShapes for A returns having made at least one
evaluation, every one of them on behalf of A while the back-reference
designates B, and leaves the back-reference at B: the command meta get run
in that state reads the metadata of B. Only msTclPlugLayerOpen sets the
back-reference. -/
theorem whichShapes_runs_under_last_opened_layer (env : TclEnv) (w w1 : World)
    (layerA layerB layerB' : layerObj) (liA liB : msTclPlugLayerInfo) (rect : rectObj)
    (q : Nat) (connection : String) (stB : Status)
    (hA : layerA.layerinfo = some liA) (hiA : liA.interp ≠ 0)
    (hq : liA.geoQueryCommandObj = some q) (hconn : layerA.connection = some connection)
    (hclosed : layerB.layerinfo = none)
    (hopen : msTclPlugLayerOpen env w layerB = some (stB, w1, layerB'))
    (hB : layerB'.layerinfo = some liB) (hshare : liB.interp = liA.interp) :
    (w1.interps liA.interp).pluglayer = some layerB.addr ∧
    ∃ st w2 layerA' new,
      msTclPlugLayerWhichShapes env w1 layerA rect = some (st, w2, layerA') ∧
      (w2.interps liA.interp).history = (w1.interps liA.interp).history ++ new ∧ new ≠ [] ∧
      (∀ e ∈ new, e.forLayer = layerA.addr ∧ e.pluglayer = some layerB.addr) ∧
      (w2.interps liA.interp).pluglayer = some layerB.addr ∧
      ∀ (layers : Nat → layerObj) (k : String),
        metaObjCmd w2 layers liA.interp ["meta", "get", k]
          = (.TCL_OK,
              match msLookupHashTable (layers layerB.addr).metadata k with
              | none => .empty
              | some value => .string value,
              w2, layers) := by
  have hp := open_sets_pluglayer env w w1 layerB layerB' stB liB hclosed hopen hB
  rw [hshare] at hp
  obtain ⟨st, w2, layerA', h⟩ :=
    whichShapes_returns env w1 layerA rect liA q connection hA hiA hq hconn
  obtain ⟨hpl, new, hhist, hne, hall⟩ := whichShapes_history env w1 layerA liA rect st w2 layerA' hA h
  rw [hp] at hpl hall
  exact ⟨hp, st, w2, layerA', new, h, hhist, hne, hall, hpl,
    fun layers k => meta_get_eq w2 layers liA.interp layerB.addr k hpl⟩

/-! ## The report of a part of odd length -/

/-- The loop over the parts stops at the first part with an odd number of
elements that follows well-formed parts, with the string form of that
part. -/
theorem readGeometry_odd_after (pre : List TclObj) (bad : TclObj) (post : List TclObj)
    (es : List TclObj) (hbad : Tcl_ListObjGetElements bad = .ok es) (hodd : es.length % 2 = 1) :
    ∀ (pts : List (List pointObj)) (shape : shapeObj) (have_ : Bool),
      List.Forall₂ TclObj.holdsPoints pre pts →
      readGeometry (pre ++ bad :: post) shape have_ =
        .error (.odd (Tcl_GetString bad),
          { shape with line := shape.line ++
              (pts.filter (fun p => !p.isEmpty)).map (fun p => { point := p }) }) := by
  induction pre with
  | nil =>
    intro pts shape hv h
    cases h
    have h0 : es.length ≠ 0 := by omega
    simp [readGeometry, hbad, h0, hodd]
  | cons part rest ih =>
    intro pts shape hv h
    cases h with
    | cons hp hrest =>
      rename_i p ps
      obtain ⟨cs, hcs, hco⟩ := hp
      have hlen : cs.length = 2 * p.length := by
        have := congrArg List.length hco
        simpa [coordsOf_length] using this
      by_cases hp0 : p = []
      · subst hp0
        have hl := ih ps shape hv hrest
        simp [readGeometry, hcs, hlen, hl]
      · have hplen : 0 < p.length := List.length_pos.mpr hp0
        have h1 : cs.length ≠ 0 := by omega
        have h2 : ¬ cs.length % 2 = 1 := by omega
        have hrp := readPairs_of_coords p cs hco
        have hl := ih ps (msAddLine shape { point := p }) true hrest
        have hpe : p.isEmpty = false := by
          cases p with
          | nil => exact absurd rfl hp0
          | cons _ _ => rfl
        simp only [msAddLine] at hl
        simp [readGeometry, hcs, h1, h2, hrp, hl, msAddLine, hpe]

/-- C27, as the code has it. When the list get_geometry answers with has,
after any number of well-formed parts, a part with an odd number of
elements, the report of msTclPlugReadShape names that part by its string
form and not by its index. The code reads the string form once it has set a
new interpreter result: when the answer list is referenced by the
interpreter result only, the read is one of released memory and the model
ends. Otherwise the function returns MS_FAILURE, has added one MapServer
error with the fixed message "odd number of elements in geometry sublist."
and no argument, and has handed the background error handler one report:
the message "odd number of elements in geometry sublist: '" with an error
information made of that message, the string form of the part and the text
"', returned from get_geometry"; the interpreter result and error
information are empty afterwards. The number of parts before the offending
one appears nowhere in it. -/
theorem readShape_odd_part_report (env : TclEnv) (w : World) (layer : layerObj)
    (li : msTclPlugLayerInfo) (g : Nat) (shape : shapeObj) (geo bad : TclObj)
    (pre post es : List TclObj) (pts : List (List pointObj))
    (hli : layer.layerinfo = some li) (hi : li.interp ≠ 0)
    (hg : li.getGeometryCommandObj = some g)
    (hgeo : env.script (w.interps li.interp) (.Tcl_EvalObjv (w.objs g).bytes [.int (longToInt li.rownum)])
      = (.TCL_OK, geo))
    (hparts : Tcl_ListObjGetElements geo = .ok (pre ++ bad :: post))
    (hpre : List.Forall₂ TclObj.holdsPoints pre pts)
    (hbad : Tcl_ListObjGetElements bad = .ok es) (hodd : es.length % 2 = 1) :
    (env.resultKept (w.interps li.interp)
        (.Tcl_EvalObjv (w.objs g).bytes [.int (longToInt li.rownum)]) = false →
      msTclPlugReadShape env w layer shape = none) ∧
    (env.resultKept (w.interps li.interp)
        (.Tcl_EvalObjv (w.objs g).bytes [.int (longToInt li.rownum)]) = true →
      ∃ w' shape', msTclPlugReadShape env w layer shape = some (.MS_FAILURE, w', shape') ∧
        errorReport w' li.interp
          = (w.errors ++
              [{ code := .MS_QUERYERR, message := "odd number of elements in geometry sublist.",
                 routine := "msTclPlugReadShape()", args := [] }],
             (w.interps li.interp).reports ++
               [{ message := "odd number of elements in geometry sublist: '",
                  errorInfo := ["odd number of elements in geometry sublist: '",
                    Tcl_GetString bad, "', returned from get_geometry", ""] }],
             "", [])) := by
  rw [readShape_of_list env w layer li g shape geo _ hli hi hg hgeo hparts]
  have hrg := fun (s : shapeObj) (hv : Bool) =>
    readGeometry_odd_after pre bad post es hbad hodd pts s hv hpre
  have hs : ∀ W : World, ∃ s', shapeFromGeometry env W layer li (pre ++ bad :: post) shape
      = (reportGeometryError W li.interp (.odd (Tcl_GetString bad))).map
          (fun W' => (.MS_FAILURE, W', s')) := by
    intro W
    unfold shapeFromGeometry
    simp only [hrg]
    cases reportGeometryError W li.interp (.odd (Tcl_GetString bad)) with
    | none => exact ⟨shape, rfl⟩
    | some W' => exact ⟨_, rfl⟩
  obtain ⟨s', hs'⟩ := hs ((Tcl_IncrRefCount w g).logCall env li.interp layer.addr
    (.Tcl_EvalObjv (w.objs g).bytes [.int (longToInt li.rownum)]) (Tcl_GetString geo))
  rw [hs']
  refine ⟨?_, ?_⟩
  · intro hk
    simp [reportGeometryError, World.logCall, Tcl_IncrRefCount, World.setInterp, hk]
  · intro hk
    have hkW : (((Tcl_IncrRefCount w g).logCall env li.interp layer.addr
        (.Tcl_EvalObjv (w.objs g).bytes [.int (longToInt li.rownum)])
        (Tcl_GetString geo)).interps li.interp).resultKept = true := by
      simp [World.logCall, Tcl_IncrRefCount, World.setInterp, hk]
    have hWe : ((Tcl_IncrRefCount w g).logCall env li.interp layer.addr
        (.Tcl_EvalObjv (w.objs g).bytes [.int (longToInt li.rownum)])
        (Tcl_GetString geo)).errors = w.errors := by
      simp [World.logCall, Tcl_IncrRefCount, World.setInterp]
    have hWr : (((Tcl_IncrRefCount w g).logCall env li.interp layer.addr
        (.Tcl_EvalObjv (w.objs g).bytes [.int (longToInt li.rownum)])
        (Tcl_GetString geo)).interps li.interp).reports = (w.interps li.interp).reports := by
      simp [World.logCall, Tcl_IncrRefCount, World.setInterp]
    have hWi : (((Tcl_IncrRefCount w g).logCall env li.interp layer.addr
        (.Tcl_EvalObjv (w.objs g).bytes [.int (longToInt li.rownum)])
        (Tcl_GetString geo)).interps li.interp).errorInfo = [] := by
      simp [World.logCall, Tcl_IncrRefCount, World.setInterp]
    generalize (Tcl_IncrRefCount w g).logCall env li.interp layer.addr
        (.Tcl_EvalObjv (w.objs g).bytes [.int (longToInt li.rownum)])
        (Tcl_GetString geo) = W0 at hkW hWe hWr hWi ⊢
    have hrep : reportGeometryError W0 li.interp (.odd (Tcl_GetString bad))
        = some (Tcl_BackgroundError
            (msSetError
              (Tcl_AddErrorInfo
                (Tcl_AddErrorInfo
                  (Tcl_SetObjResult W0 li.interp "odd number of elements in geometry sublist: '")
                  li.interp (Tcl_GetString bad))
                li.interp "', returned from get_geometry")
              .MS_QUERYERR "odd number of elements in geometry sublist." "msTclPlugReadShape()" [])
            li.interp) := by
      simp [reportGeometryError, hkW]
    rw [hrep]
    refine ⟨_, s', rfl, ?_⟩
    simp [errorReport, Tcl_BackgroundError, Tcl_AddErrorInfo, msSetError,
      Tcl_SetObjResult, World.setInterp, Interp.errorInfoWith, hWe, hWr, hWi]

set_option maxRecDepth 8000 in
/-- C27, the code at a counterexample. In the example session the answer
of get_geometry for row 7 has the part of three elements at index 1, after a
well-formed part, and the answer for row 9 has the same part at index 0. Both fetches
return MS_FAILURE and leave the same report, in which the part appears by
its string form "5 6 7" and no index appears. -/
theorem readShape_odd_part_report_has_no_index :
    (Tcl_ListObjGetElements
        (demoOddFirstEnv.script {} (.Tcl_EvalObjv "::get_geometry" [.int 7])).2).toOption.map
        (fun l => l.map Tcl_GetString) = some ["0 0 1 1", "5 6 7"] ∧
    (Tcl_ListObjGetElements
        (demoOddFirstEnv.script {} (.Tcl_EvalObjv "::get_geometry" [.int 9])).2).toOption.map
        (fun l => l.map Tcl_GetString) = some ["5 6 7"] ∧
    (msTclPlugReadShape demoOddFirstEnv demoQueriedWorld (demoQueried.atRow 7) demoShape).map
        (fun r => (r.1, errorReport r.2.1 1))
      = some (.MS_FAILURE,
          [{ code := .MS_QUERYERR, message := "odd number of elements in geometry sublist.",
             routine := "msTclPlugReadShape()", args := [] }],
          [{ message := "odd number of elements in geometry sublist: '",
             errorInfo := ["odd number of elements in geometry sublist: '", "5 6 7",
               "', returned from get_geometry", ""] }],
          "", []) ∧
    (msTclPlugReadShape demoOddFirstEnv demoQueriedWorld (demoQueried.atRow 9) demoShape).map
        (fun r => (r.1, errorReport r.2.1 1))
      = some (.MS_FAILURE,
          [{ code := .MS_QUERYERR, message := "odd number of elements in geometry sublist.",
             routine := "msTclPlugReadShape()", args := [] }],
          [{ message := "odd number of elements in geometry sublist: '",
             errorInfo := ["odd number of elements in geometry sublist: '", "5 6 7",
               "', returned from get_geometry", ""] }],
          "", []) := by
  refine ⟨?_, ?_, ?_, ?_⟩ <;> decide

/-! ## The time filter -/

/-- For a discrete time and a layer whose filter is the expression F, a
successful msTclPlugLayerSetTimeFilter loads the text "(F) and " followed by
the time condition, and makes the time field the filter item. -/
theorem setTimeFilter_discrete (menv : MapEnv) (lp lp' : layerObj)
    (timestring timefield F : String)
    (hd : ',' ∉ timestring.toList ∧ '/' ∉ timestring.toList)
    (hF : lp.filter = { string := some F, type := .MS_EXPRESSION })
    (h : msTclPlugLayerSetTimeFilter menv (some lp) (some timestring) (some timefield)
      = some (true, some lp')) :
    ∃ res c, resolutionName (menv.msTimeGetResolution timestring) = some res ∧
      timeCompletion res timestring = some c ∧
      lp'.filter = menv.loadExpressionString lp.filter
        ("(" ++ F ++ ") and " ++ "(" ++ dateTrunc res timefield ++ " = " ++ "'" ++ timestring
          ++ c ++ "'" ++ ")") ∧
      lp'.filteritem = some timefield := by
  simp only [msTclPlugLayerSetTimeFilter, firstTime, hd, not_false_eq_true, and_self,
    if_true] at h
  split at h
  · simp at h
  · split at h
    · simp at h
    · rename_i res hres
      simp only [filterPrefix, hF, if_true] at h
      split at h
      · simp at h
      · rename_i c hc
        simp only [loadBuffer] at h
        split at h
        · simp at h
        · simp only [Option.map_some', Option.some.injEq, Prod.mk.injEq, true_and] at h
          refine ⟨res, c, hres, hc, ?_, ?_⟩
          · rw [← h, ← hF]
          · rw [← h]

/-- For a list of times or of ranges and a layer whose filter is the
expression F, a msTclPlugLayerSetTimeFilter that succeeds and installs a
filter loads the time conditions followed by the text "(F) and ". -/
theorem setTimeFilter_list (menv : MapEnv) (lp lp' : layerObj)
    (timestring timefield F : String)
    (hd : ¬ (',' ∉ timestring.toList ∧ '/' ∉ timestring.toList))
    (hF : lp.filter = { string := some F, type := .MS_EXPRESSION })
    (h : msTclPlugLayerSetTimeFilter menv (some lp) (some timestring) (some timefield)
      = some (true, some lp')) :
    lp' = lp ∨
    ∃ buffer : String, buffer.length > 0 ∧
      lp'.filter = menv.loadExpressionString lp.filter (buffer ++ "(" ++ F ++ ") and ") ∧
      lp'.filteritem = some timefield := by
  simp only [msTclPlugLayerSetTimeFilter, hd, if_false] at h
  split at h
  · simp at h
  · split at h
    · simp at h
    · split at h
      · simp at h
      · split at h
        · simp at h
        · split at h
          · simp at h
          · split at h
            · simp at h
            · split at h
              · simp at h
              · simp at h
              · rename_i buffer _
                split at h
                · rename_i hlen
                  simp only [filterPrefix, hF, if_true, loadBuffer] at h
                  split at h
                  · simp at h
                  · simp only [Option.map_some', Option.some.injEq, Prod.mk.injEq, true_and]
                      at h
                    refine Or.inr ⟨buffer, hlen, ?_, ?_⟩
                    · rw [← h, ← hF]
                      simp only [String.append_assoc]
                    · rw [← h]
                · simp only [Option.some.injEq, Prod.mk.injEq, true_and] at h
                  exact Or.inl h.symm

set_option maxRecDepth 8000 in
/-- C28, the code at the failing inputs.  The example layer has the
expression filter speed > 10 and every time has the resolution day.  For the
discrete time 2004-01-01 the text loaded is "(speed > 10) and " followed by
the time condition.  For the list 2004-01-01,2004-01-02 and for the list of
ranges 2004-01-01/2004-01-05,2004-02-01/2004-02-05 the text loaded is the
time conditions followed by "(speed > 10) and ".  In all three cases the
function returns MS_TRUE and the filter item is the time field. -/
theorem setTimeFilter_appends_filter_after_list :
    (msTclPlugLayerSetTimeFilter demoMapEnv (some demoFiltered) (some "2004-01-01")
        (some "tstamp")).map (fun r => (r.1, r.2.map (fun l => (l.filter.string, l.filteritem))))
      = some (true, some (some "(speed > 10) and (date_trunc('day', tstamp) = '2004-01-01')",
          some "tstamp")) ∧
    (msTclPlugLayerSetTimeFilter demoMapEnv (some demoFiltered) (some "2004-01-01,2004-01-02")
        (some "tstamp")).map (fun r => (r.1, r.2.map (fun l => (l.filter.string, l.filteritem))))
      = some (true, some (some ("((date_trunc('day', tstamp) = '2004-01-01') OR " ++
          "(date_trunc('day', tstamp) = '2004-01-02'))(speed > 10) and "), some "tstamp")) ∧
    (msTclPlugLayerSetTimeFilter demoMapEnv (some demoFiltered)
        (some "2004-01-01/2004-01-05,2004-02-01/2004-02-05") (some "tstamp")).map
        (fun r => (r.1, r.2.map (fun l => (l.filter.string, l.filteritem))))
      = some (true, some (some ("((date_trunc('day', tstamp) >= '2004-01-01' AND " ++
          "date_trunc('day', tstamp) <= '2004-01-05') OR " ++
          "(date_trunc('day', tstamp) >= '2004-02-01' AND " ++
          "date_trunc('day', tstamp) <= '2004-02-05'))(speed > 10) and "), some "tstamp")) := by
  refine ⟨?_, ?_, ?_⟩ <;> decide

/-! ## The answer of get_shape -/

/-- The state an evaluation leaves depends on the Tcl side through its
effect on the array `layer` and the references to its answer only. -/
theorem logCall_env_congr (env1 env2 : TclEnv) (w : World) (i : Int) (f : Nat) (c : Call)
    (r : String) (harray : env2.layerArray = env1.layerArray)
    (hkept : env2.resultKept = env1.resultKept) :
    w.logCall env2 i f c r = w.logCall env1 i f c r := by
  simp only [World.logCall, harray, hkept]

/-- msTclPlugReadShape evaluates command names with arguments only: two
Tcl sides that answer those alike, with the same effect on the array `layer`
and the same references to their answers, give the same fetch. -/
theorem readShape_env_congr (env1 env2 : TclEnv) (w : World) (layer : layerObj)
    (shape : shapeObj)
    (hagree : ∀ st cmd args,
      env2.script st (.Tcl_EvalObjv cmd args) = env1.script st (.Tcl_EvalObjv cmd args))
    (harray : env2.layerArray = env1.layerArray)
    (hkept : env2.resultKept = env1.resultKept) :
    msTclPlugReadShape env2 w layer shape = msTclPlugReadShape env1 w layer shape := by
  simp only [msTclPlugReadShape, shapeFromGeometry, readAttributes, tclEval, hagree,
    World.logCall, harray, hkept]

/-- The result an evaluation leaves in the interpreter is overwritten by
the next evaluation: when the script does not read it, the next evaluation
and the state after it are the same whatever it was. -/
theorem tclEval_after_logCall (env : TclEnv) (w : World) (i : Int) (f f' : Nat) (c c' : Call)
    (r : String) (g : Nat)
    (hins : ∀ st r cmd args, env.script { st with result := r } (.Tcl_EvalObjv cmd args)
      = env.script st (.Tcl_EvalObjv cmd args))
    (hinsA : ∀ st r c, env.layerArray { st with result := r } c = env.layerArray st c)
    (hinsK : ∀ st r c, env.resultKept { st with result := r } c = env.resultKept st c)
    (cmd : String) (args : List TclArg) (hc : c' = .Tcl_EvalObjv cmd args) :
    tclEval env (Tcl_IncrRefCount (w.logCall env i f c r) g) i f' c'
      = tclEval env (Tcl_IncrRefCount (w.logCall env i f c "") g) i f' c' := by
  subst hc
  have h1 := hins { (w.interps i) with
    history := (w.interps i).history ++
      [{ call := c, forLayer := f, pluglayer := (w.interps i).pluglayer }], result := "",
    resultKept := env.resultKept (w.interps i) c,
    layerArray := env.layerArray (w.interps i) c, errorInfo := [] } r cmd args
  have h2 := hinsA { (w.interps i) with
    history := (w.interps i).history ++
      [{ call := c, forLayer := f, pluglayer := (w.interps i).pluglayer }], result := "",
    resultKept := env.resultKept (w.interps i) c,
    layerArray := env.layerArray (w.interps i) c, errorInfo := [] } r
    (.Tcl_EvalObjv cmd args)
  have h3 := hinsK { (w.interps i) with
    history := (w.interps i).history ++
      [{ call := c, forLayer := f, pluglayer := (w.interps i).pluglayer }], result := "",
    resultKept := env.resultKept (w.interps i) c,
    layerArray := env.layerArray (w.interps i) c, errorInfo := [] } r
    (.Tcl_EvalObjv cmd args)
  simp only [tclEval, World.logCall, World.setInterp, Tcl_IncrRefCount, Function.update_same,
    Function.update_idem] at h1 h2 h3 ⊢
  rw [h1, h2, h3]

/-- When the script does not read the interpreter result, the fetch that
follows an evaluation is the same whatever result that evaluation left. -/
theorem readShape_after_logCall (env : TclEnv) (w : World) (layer : layerObj)
    (li : msTclPlugLayerInfo) (shape : shapeObj) (f : Nat) (c : Call) (r : String)
    (hli : layer.layerinfo = some li)
    (hins : ∀ st r cmd args, env.script { st with result := r } (.Tcl_EvalObjv cmd args)
      = env.script st (.Tcl_EvalObjv cmd args))
    (hinsA : ∀ st r c, env.layerArray { st with result := r } c = env.layerArray st c)
    (hinsK : ∀ st r c, env.resultKept { st with result := r } c = env.resultKept st c) :
    msTclPlugReadShape env (w.logCall env li.interp f c r) layer shape
      = msTclPlugReadShape env (w.logCall env li.interp f c "") layer shape := by
  simp only [msTclPlugReadShape, hli]
  split
  · rfl
  · split
    · rfl
    · rename_i g hg
      simp only [incrRefCount_bytes, logCall_objs]
      rw [tclEval_after_logCall env w li.interp f layer.addr c _ r g hins hinsA hinsK _ _ rfl]

/-- C29. Take an open session and two Tcl sides that differ in what their
get_shape procedures answer only: they answer every command evaluated with
arguments (get_geometry, get_attributes) alike, have the same effect on the
array `layer` and the same references to their answers, none of which
depends on the interpreter result, and in this call neither get_shape
raises an error. For every row identifier the two runs of
msTclPlugLayerGetShape have the same outcome, and which one is fixed by the
row count of the session (the one the last msTclPlugLayerWhichShapes stored,
0 in a new session) as the code reads it, narrowed to an `int`. When it is
positive the two runs fetch row 0 and are equal altogether: either both end
in the fetch, which takes a get_geometry answer that the interpreter result
alone references, or both return the same status, process state and record,
with the cursor at 0. When it is not positive both return MS_FAILURE with
the cursor at 0 and the record handed in with kind "none". -/
theorem getShape_ignores_answer (env1 env2 : TclEnv) (w : World) (layer : layerObj)
    (li : msTclPlugLayerInfo) (gs g a : Nat) (shape : shapeObj) (tile record : Int)
    (hli : layer.layerinfo = some li) (hi : li.interp ≠ 0)
    (hgs : li.getShapeCommandObj = some gs)
    (hg : li.getGeometryCommandObj = some g) (ha : li.getAttributesCommandObj = some a)
    (hagree : ∀ st cmd args,
      env2.script st (.Tcl_EvalObjv cmd args) = env1.script st (.Tcl_EvalObjv cmd args))
    (harray : env2.layerArray = env1.layerArray)
    (hkept : env2.resultKept = env1.resultKept)
    (hins : ∀ st r cmd args, env1.script { st with result := r } (.Tcl_EvalObjv cmd args)
      = env1.script st (.Tcl_EvalObjv cmd args))
    (hinsA : ∀ st r c, env1.layerArray { st with result := r } c = env1.layerArray st c)
    (hinsK : ∀ st r c, env1.resultKept { st with result := r } c = env1.resultKept st c)
    (hok1 : (getShapeAnswer env1 w layer li gs record).1 ≠ .TCL_ERROR)
    (hok2 : (getShapeAnswer env2 w layer li gs record).1 ≠ .TCL_ERROR) :
    (0 < longToInt li.nrows →
      (msTclPlugLayerGetShape env1 w layer shape tile record = none ∧
        msTclPlugLayerGetShape env2 w layer shape tile record = none ∧
        env1.resultKept ((getShapeAnswer env1 w layer li gs record).2.2.interps li.interp)
          (.Tcl_EvalObjv (w.objs g).bytes [.int 0]) = false) ∨
      ∃ st w' shape',
        msTclPlugLayerGetShape env1 w layer shape tile record
          = some (st, w', layer.atRow 0, shape') ∧
        msTclPlugLayerGetShape env2 w layer shape tile record
          = some (st, w', layer.atRow 0, shape') ∧
        (w'.calls li.interp
            = w.calls li.interp ++ [.Tcl_EvalObjEx (w.objs gs).bytes,
                .Tcl_EvalObjv (w.objs g).bytes [.int 0]]
          ∨ w'.calls li.interp
            = w.calls li.interp ++ [.Tcl_EvalObjEx (w.objs gs).bytes,
                .Tcl_EvalObjv (w.objs g).bytes [.int 0],
                .Tcl_EvalObjv (w.objs a).bytes [.int 0]])) ∧
    (longToInt li.nrows ≤ 0 →
      msTclPlugLayerGetShape env1 w layer shape tile record
        = some (.MS_FAILURE, (getShapeAnswer env1 w layer li gs record).2.2, layer.atRow 0,
            { shape with type := .MS_SHAPE_NULL }) ∧
      msTclPlugLayerGetShape env2 w layer shape tile record
        = some (.MS_FAILURE, (getShapeAnswer env2 w layer li gs record).2.2, layer.atRow 0,
            { shape with type := .MS_SHAPE_NULL })) ∧
    (layer.atRow 0).rownum = 0 ∧ (layer.atRow 0).nrows = li.nrows ∧
    msTclPlugCreateLayerInfo.nrows = 0 := by
  have hs1 := getShape_steps env1 w layer li gs shape tile record hli hi hgs hok1
  have hs2 := getShape_steps env2 w layer li gs shape tile record hli hi hgs hok2
  have hat := atRow_eq layer li 0 hli
  have hli0 : (layer.atRow 0).layerinfo = some { li with rownum := 0 } := by rw [hat]
  generalize hW0 : Tcl_IncrRefCount (set_tcl_var_long w li.interp "uid" record) gs = W0
  have hW0b : ∀ p, (W0.objs p).bytes = (w.objs p).bytes := by
    intro p; rw [← hW0]; simp [set_tcl_var_long]
  have hW0c : W0.calls li.interp = w.calls li.interp := by
    rw [← hW0]; simp [set_tcl_var_long, set_tcl_var_obj]
  rcases hsc1 : env1.script (W0.interps li.interp) (.Tcl_EvalObjEx (w.objs gs).bytes)
    with ⟨code1, obj1⟩
  rcases hsc2 : env2.script (W0.interps li.interp) (.Tcl_EvalObjEx (w.objs gs).bytes)
    with ⟨code2, obj2⟩
  have hA1 : (getShapeAnswer env1 w layer li gs record).2.2
      = W0.logCall env1 li.interp layer.addr (.Tcl_EvalObjEx (w.objs gs).bytes)
          (Tcl_GetString obj1) := by
    unfold getShapeAnswer
    rw [hW0, tclEval_eq env1 W0 li.interp layer.addr _ code1 obj1 hsc1]
  have hA2 : (getShapeAnswer env2 w layer li gs record).2.2
      = W0.logCall env1 li.interp layer.addr (.Tcl_EvalObjEx (w.objs gs).bytes)
          (Tcl_GetString obj2) := by
    unfold getShapeAnswer
    rw [hW0, tclEval_eq env2 W0 li.interp layer.addr _ code2 obj2 hsc2]
    exact logCall_env_congr env1 env2 W0 _ _ _ _ harray hkept
  have hr : msTclPlugReadShape env2 (getShapeAnswer env2 w layer li gs record).2.2
      (layer.atRow 0) { shape with type := .MS_SHAPE_NULL }
      = msTclPlugReadShape env1 (getShapeAnswer env1 w layer li gs record).2.2
      (layer.atRow 0) { shape with type := .MS_SHAPE_NULL } := by
    rw [readShape_env_congr env1 env2 _ _ _ hagree harray hkept, hA1, hA2,
      readShape_after_logCall env1 W0 (layer.atRow 0) { li with rownum := 0 } _ _ _
        (Tcl_GetString obj2) hli0 hins hinsA hinsK,
      readShape_after_logCall env1 W0 (layer.atRow 0) { li with rownum := 0 } _ _ _
        (Tcl_GetString obj1) hli0 hins hinsA hinsK]
  refine ⟨?_, ?_, by simp [hat, layerObj.rownum], by simp [hat, layerObj.nrows], rfl⟩
  · intro hpos
    rw [hs1, hs2, hr]
    simp only [hpos, if_true]
    rcases readShape_cases env1 (getShapeAnswer env1 w layer li gs record).2.2 (layer.atRow 0)
        { li with rownum := 0 } g a { shape with type := .MS_SHAPE_NULL } hli0 hi hg ha with
      ⟨hnone, hk⟩ | ⟨rv, w', s', hread, _, ⟨rest, hcalls, hrest⟩, _, _, _⟩
    · left
      rw [hnone]
      refine ⟨rfl, rfl, ?_⟩
      have hb : (((getShapeAnswer env1 w layer li gs record).2.2).objs g).bytes
          = (w.objs g).bytes := by rw [hA1]; simp [hW0b]
      simpa [hb] using hk
    · right
      rw [hread]
      refine ⟨_, w', s', rfl, rfl, ?_⟩
      have hb : ∀ p, (((getShapeAnswer env1 w layer li gs record).2.2).objs p).bytes
          = (w.objs p).bytes := by intro p; rw [hA1]; simp [hW0b]
      have hc : (getShapeAnswer env1 w layer li gs record).2.2.calls li.interp
          = w.calls li.interp ++ [.Tcl_EvalObjEx (w.objs gs).bytes] :=
        getShapeAnswer_calls env1 w layer li gs record
      rw [hcalls, hc]
      rcases hrest with h | h
      · left; subst h; simp [hb]
      · right; subst h; simp [hb]
  · intro hle
    have hnot : ¬ 0 < longToInt li.nrows := by omega
    rw [hs1, hs2]
    simp [hnot]

/-! ## The statements at the example session -/

/-- Witness of C1: the example session after its query.  The two rows are
fetched with success, row 0 as a line and row 1 without geometry, so row 0
is the only row with a shape; two msTclPlugLayerNextShape calls give the
line record of row 0, with bounds (0,0)-(1,1) and the attributes 1 and
Alpha, then MS_DONE. -/
theorem nextShape_yields_shape_rows_witness :
    msTclPlugLayerWhichShapes demoEnv demoWorld demoSession demoRect
      = some (.MS_SUCCESS, demoQueriedWorld, demoQueried) ∧
    fetchRows demoEnv demoQueried demoShape 2 0 demoQueriedWorld
      = some [(.MS_SUCCESS, .MS_SHAPE_LINE), (.MS_SUCCESS, .MS_SHAPE_NULL)] ∧
    (∃ rs w' layer',
      nextShapeRun demoEnv 2 demoQueriedWorld demoQueried demoShape = some (rs, w', layer') ∧
      rs.map (fun r => r.1) = [.MS_SUCCESS, .MS_DONE] ∧
      (rs.take 1).map (fun r => r.2.index) = [0] ∧
      ∀ r ∈ rs.take 1, r.2.type ≠ .MS_SHAPE_NULL) ∧
    (nextShapeRun demoEnv 2 demoQueriedWorld demoQueried demoShape).map (fun r => r.1)
      = some [(.MS_SUCCESS,
                { line := [{ point := [{ x := 0, y := 0 }, { x := 1, y := 1 }] }],
                  values := ["1", "Alpha"], numvalues := 2,
                  bounds := { minx := 0, miny := 0, maxx := 1, maxy := 1 },
                  type := .MS_SHAPE_LINE, index := 0 }),
              (.MS_DONE, demoShape)] :=
  ⟨rfl, by decide,
    nextShape_yields_shape_rows demoEnv demoWorld demoQueriedWorld demoSession demoQueried
      demoRect demoQueriedInfo 4 5 demoShape
      [(.MS_SUCCESS, .MS_SHAPE_LINE), (.MS_SUCCESS, .MS_SHAPE_NULL)]
      rfl (by decide) rfl rfl (by decide) (by decide),
    by decide⟩

/-- Witness of C3: the fetch of row 0 of the example, one part with the
points (0,0) and (1,1) on a line layer with two items. -/
theorem readShape_builds_parts_and_bounds_witness :
    ∃ w' shape', msTclPlugReadShape demoEnv demoQueriedWorld demoQueried demoShape
        = some (.MS_SUCCESS, w', shape') ∧
      shape'.line = [{ point := [{ x := 0, y := 0 }, { x := 1, y := 1 }] }] ∧
      shape'.line.length = 1 ∧
      ((([[{ x := 0, y := 0 }, { x := 1, y := 1 }]] : List (List pointObj)) ≠ []) →
        shape'.bounds.isBoundsOf shape'.points) :=
  readShape_builds_parts_and_bounds demoEnv demoQueriedWorld demoQueried demoQueriedInfo 4 5
    demoShape demoGeometry [demoPart] [[{ x := 0, y := 0 }, { x := 1, y := 1 }]]
    demoAttributes [demoText "1", demoText "Alpha"]
    (by decide) (by decide) rfl rfl (Or.inr (Or.inl rfl)) rfl rfl rfl
    (List.Forall₂.cons ⟨_, rfl, rfl⟩ List.Forall₂.nil)
    (by decide) rfl rfl rfl

set_option maxRecDepth 8000 in
/-- C4, the code at a failing input. For row 7 of the example get_geometry
answers a list whose second part has three elements. With procedures that
build their answer anew, so that the interpreter result holds the only
reference to the list, msTclPlugReadShape sets a new result, which releases
the list, and then reads the string form of the part from it: the model
ends there and no status is returned. When the list is referenced from
elsewhere too, the same fetch returns MS_FAILURE having called get_geometry
only. -/
theorem readShape_odd_part_reads_released_list :
    demoFreshListEnv.script (demoQueriedWorld.interps 1)
        (.Tcl_EvalObjv "::get_geometry" [.int 7]) = (.TCL_OK, demoOddGeometry) ∧
    (Tcl_ListObjGetElements demoOddGeometry).toOption.map
        (fun l => l.map Tcl_GetString) = some ["0 0 1 1", "5 6 7"] ∧
    (msTclPlugReadShape demoFreshListEnv demoQueriedWorld (demoQueried.atRow 7) demoShape).map
        (fun r => r.1) = none ∧
    (msTclPlugReadShape demoEnv demoQueriedWorld (demoQueried.atRow 7) demoShape).map
        (fun r => (r.1, (r.2.1.calls 1).drop (demoQueriedWorld.calls 1).length))
      = some (.MS_FAILURE, [.Tcl_EvalObjv "::get_geometry" [.int 7]]) := by
  refine ⟨rfl, ?_, ?_, ?_⟩ <;> decide

/-- Witness of C5: row 8 of the example, whose geometry is the line of row 0
and whose attribute list has one value where the layer has two items. -/
theorem readShape_reports_attribute_mismatch_witness :
    ∃ w' shape', msTclPlugReadShape demoEnv demoQueriedWorld (demoQueried.atRow 8) demoShape
        = some (.MS_FAILURE, w', shape') ∧
      w'.errors = demoQueriedWorld.errors ++
        [{ code := .MS_QUERYERR, message := "get_attributes mismatch, wanted %d, got %d.",
           routine := "msTclPlugLayerReadShape()", args := [.int 2, .int 1] }] :=
  readShape_reports_attribute_mismatch demoEnv demoQueriedWorld (demoQueried.atRow 8)
    { demoQueriedInfo with rownum := 8 } 4 5 demoShape demoGeometry [demoPart]
    [[{ x := 0, y := 0 }, { x := 1, y := 1 }]] 1 (demoList "1" [demoText "1"]) [demoText "1"]
    (by decide) (by decide) rfl rfl (Or.inr (Or.inl rfl)) rfl rfl
    (List.Forall₂.cons ⟨_, rfl, rfl⟩ List.Forall₂.nil)
    ⟨_, List.mem_singleton.mpr rfl, by decide⟩
    rfl rfl rfl (by decide)

/-- Witness of C10: with the metadata entry namespace = ns the seven
command names are ns::layer_open and so on. -/
theorem open_binds_namespaced_commands_witness :
    demoInfo.layerOpenCommandObj.map (fun p => (demoNsOpened.2.1.objs p).bytes)
      = some "ns::layer_open" ∧
    demoInfo.getItemsCommandObj.map (fun p => (demoNsOpened.2.1.objs p).bytes)
      = some "ns::get_items" ∧
    demoInfo.getShapeCommandObj.map (fun p => (demoNsOpened.2.1.objs p).bytes)
      = some "ns::get_shape" ∧
    demoInfo.geoQueryCommandObj.map (fun p => (demoNsOpened.2.1.objs p).bytes)
      = some "ns::geo_query" ∧
    demoInfo.getGeometryCommandObj.map (fun p => (demoNsOpened.2.1.objs p).bytes)
      = some "ns::get_geometry" ∧
    demoInfo.getAttributesCommandObj.map (fun p => (demoNsOpened.2.1.objs p).bytes)
      = some "ns::get_attributes" ∧
    demoInfo.layerCloseCommandObj.map (fun p => (demoNsOpened.2.1.objs p).bytes)
      = some "ns::layer_close" :=
  open_binds_namespaced_commands demoEnv {} demoNsOpened.2.1 demoNsLayer demoNsOpened.2.2
    demoNsOpened.1 demoInfo rfl rfl (by decide)

/-- Witness of C11: the example layer without a DATA statement. -/
theorem open_without_data_fails_witness :
    msTclPlugLayerOpen demoEnv {} demoNoDataLayer
      = some (.MS_FAILURE,
          msSetError {} .MS_QUERYERR "Nothing specified in DATA statement."
            "msTclPlugLayerOpen()" [],
          demoNoDataLayer) ∧
    (msSetError {} .MS_QUERYERR "Nothing specified in DATA statement."
        "msTclPlugLayerOpen()" []).interps = ({} : World).interps ∧
    msTclPlugLayerIsOpen demoNoDataLayer = false :=
  open_without_data_fails demoEnv {} demoNoDataLayer rfl rfl

/-- Witness of C13: the query of the example session, whose geo_query
answers 2. -/
theorem whichShapes_sets_row_count_witness :
    ∃ w' layer', msTclPlugLayerWhichShapes demoEnv demoWorld demoSession demoRect
        = some (.MS_SUCCESS, w', layer') ∧
      layer'.nrows = 2 ∧ layer'.rownum = 0 ∧
      layer'.layerinfo = some { demoInfo with nrows := 2, rownum := 0 } ∧
      w'.calls demoInfo.interp = demoWorld.calls demoInfo.interp ++
        [.Tcl_Eval "package require roads",
         .Tcl_EvalObjv "::geo_query" [.stringList ["id", "name"]]] :=
  whichShapes_sets_row_count demoEnv demoWorld demoSession demoRect demoInfo 1
    "package require roads" 2 (by decide) (by decide) rfl rfl (by decide) (by decide) rfl

/-- Witness of C14: the example session after its query, with two rows
stored, asked again with a geo_query that answers "many". -/
theorem whichShapes_failure_keeps_cursor_witness :
    ∃ w' layer', msTclPlugLayerWhichShapes demoBadCountEnv demoQueriedWorld demoQueried demoRect
        = some (.MS_FAILURE, w', layer') ∧
      layer' = demoQueried ∧ layer'.rownum = demoQueried.rownum ∧
      layer'.nrows = demoQueried.nrows :=
  whichShapes_failure_keeps_cursor demoBadCountEnv demoQueriedWorld demoQueried demoRect
    demoQueriedInfo 1 "package require roads" (by decide) (by decide) rfl rfl
    (Or.inr (Or.inr ⟨"expected integer", rfl⟩))

/-- Witness of C15: the example session after its query, cursor 0 and row
count 2; after one msTclPlugLayerNextShape the bounds hold again. -/
theorem session_cursor_bounded_witness :
    demoQueried.cursorInRange ∧
    ∀ shape r, msTclPlugLayerNextShape demoEnv demoQueriedWorld demoQueried shape = some r →
      r.2.2.1.cursorInRange :=
  ⟨by unfold layerObj.cursorInRange; decide,
    ((session_cursor_bounded demoEnv demoQueriedWorld demoQueried).2.1
      (by unfold layerObj.cursorInRange; decide)).2.1⟩

/-- Witness of C16: the interpreter of the example session, whose
"pluglayer" reference is the example layer, with the key owner and the value
alice. -/
theorem meta_is_key_value_map_witness :
    (∃ layers',
      metaObjCmd demoWorld demoLayers 1 ["meta", "set", "owner", "alice"]
        = (.TCL_OK, .empty, demoWorld, layers') ∧
      metaObjCmd demoWorld layers' 1 ["meta", "get", "owner"]
        = (.TCL_OK, .string "alice", demoWorld, layers') ∧
      metaObjCmd demoWorld layers' 1 ["meta", "exists", "owner"]
        = (.TCL_OK, .boolean true, demoWorld, layers') ∧
      (∀ k', k' ≠ "owner" →
        msLookupHashTable (layers' 1).metadata k'
          = msLookupHashTable (demoLayers 1).metadata k') ∧
      (∀ p', p' ≠ 1 → layers' p' = demoLayers p')) ∧
    (∃ layers',
      metaObjCmd demoWorld demoLayers 1 ["meta", "unset", "owner"]
        = (.TCL_OK, .empty, demoWorld, layers') ∧
      metaObjCmd demoWorld layers' 1 ["meta", "exists", "owner"]
        = (.TCL_OK, .boolean false, demoWorld, layers') ∧
      metaObjCmd demoWorld layers' 1 ["meta", "get", "owner"]
        = (.TCL_OK, .empty, demoWorld, layers') ∧
      (∀ k', k' ≠ "owner" →
        msLookupHashTable (layers' 1).metadata k'
          = msLookupHashTable (demoLayers 1).metadata k') ∧
      (∀ p', p' ≠ 1 → layers' p' = demoLayers p') ∧
      (msLookupHashTable (demoLayers 1).metadata "owner" = none → layers' = demoLayers)) ∧
    (∀ verb args, verb = "get" ∨ verb = "exists" ∨ verb = "names" →
      (metaObjCmd demoWorld demoLayers 1 ("meta" :: verb :: args)).2.2.2 = demoLayers) :=
  meta_is_key_value_map demoWorld demoLayers 1 1 "owner" "alice" rfl

/-- Witness of C17: `meta get owner` in an interpreter of a process in which
no layer was opened. -/
theorem meta_without_layer_fails_witness :
    ∃ result w', ∀ layers : Nat → layerObj,
      metaObjCmd {} layers 1 ["meta", "get", "owner"] = (.TCL_ERROR, result, w', layers) :=
  meta_without_layer_fails {} 1 "get" ["owner"] rfl (by decide)

/-- Witness of C18: the example session, opened with no items known yet,
asks a get_items that answers id and name. -/
theorem getItems_installs_schema_witness :
    (msTclPlugLayerGetItems demoItemsEnv demoWorld { demoSession with items := [] } true).map
        (fun r => (r.1, r.2.2.items, r.2.2.iteminfo))
      = some (.MS_SUCCESS, ["id", "name"], some [0, 1]) ∧
    ∀ w' layer',
      msTclPlugLayerGetItems demoItemsEnv demoWorld { demoSession with items := [] } true
        = some (.MS_SUCCESS, w', layer') →
      layer'.items = [demoText "id", demoText "name"].map Tcl_GetString ∧
      layer'.numitems = [demoText "id", demoText "name"].length ∧
      ([demoText "id", demoText "name"] ≠ [] →
        layer'.iteminfo
          = some (List.map Int.ofNat (List.range [demoText "id", demoText "name"].length))) ∧
      ([demoText "id", demoText "name"] = [] →
        layer'.iteminfo = ({ demoSession with items := [] } : layerObj).iteminfo) :=
  ⟨by decide, fun w' layer' h =>
    getItems_installs_schema demoItemsEnv demoWorld w' { demoSession with items := [] } layer'
      demoInfo 2 (demoList "id name" [demoText "id", demoText "name"])
      [demoText "id", demoText "name"] true rfl (by decide) rfl rfl rfl h⟩

/-- Witness of C20: row 0 of the example session after its query, with a
get_geometry that answers two empty parts. -/
theorem readShape_without_geometry_witness :
    ∃ w' shape', msTclPlugReadShape demoHollowEnv demoQueriedWorld demoQueried demoShape
        = some (.MS_SUCCESS, w', shape') ∧
      shape'.type = .MS_SHAPE_NULL ∧ shape'.line = demoShape.line ∧
      w'.calls 1 = demoQueriedWorld.calls 1 ++ [.Tcl_EvalObjv "::get_geometry" [.int 0]] ∧
      ∀ j, j ≠ 1 → w'.calls j = demoQueriedWorld.calls j :=
  readShape_without_geometry demoHollowEnv demoQueriedWorld demoQueried demoQueriedInfo 4
    demoShape demoHollowGeometry [demoList "" [], demoList "" []]
    (by decide) (by decide) rfl rfl rfl
    (by
      intro part hp
      simp only [List.mem_cons, List.mem_singleton, List.not_mem_nil, or_false, or_self] at hp
      subst hp
      rfl)

/-- Witness of C21: row 0 of the example fetched on an annotation layer. -/
theorem readShape_unknown_layer_type_witness :
    ∃ w' shape', msTclPlugReadShape demoEnv demoQueriedWorld demoAnnotation demoShape
        = some (.MS_SUCCESS, w', shape') ∧
      shape'.type = .MS_SHAPE_NULL ∧
      shape'.line = demoShape.line ++
        (([[{ x := 0, y := 0 }, { x := 1, y := 1 }]] : List (List pointObj)).filter
          (fun p => !p.isEmpty)).map (fun p => { point := p }) ∧
      w'.calls 1 = demoQueriedWorld.calls 1 ++ [.Tcl_EvalObjv "::get_geometry" [.int 0]] ∧
      ∀ j, j ≠ 1 → w'.calls j = demoQueriedWorld.calls j :=
  readShape_unknown_layer_type demoEnv demoQueriedWorld demoAnnotation demoQueriedInfo 4
    demoShape demoGeometry [demoPart] [[{ x := 0, y := 0 }, { x := 1, y := 1 }]]
    rfl (by decide) rfl (by decide) rfl rfl
    (List.Forall₂.cons ⟨_, rfl, rfl⟩ List.Forall₂.nil)

/-- The fetch of row 0 of the example session after its query, which gives
the line record with the values 1 and Alpha. -/
theorem readShape_success_carries_attributes_witness :
    ∃ (w' : World) (shape' : shapeObj),
      msTclPlugReadShape demoEnv demoQueriedWorld demoQueried demoShape
        = some (.MS_SUCCESS, w', shape') ∧ shape'.type ≠ .MS_SHAPE_NULL ∧
      ∃ (W : World) (attrs : TclObj) (list : List TclObj),
        W.calls 1 = demoQueriedWorld.calls 1 ++ [.Tcl_EvalObjv "::get_geometry" [.int 0]] ∧
        demoEnv.script (W.interps 1) (.Tcl_EvalObjv "::get_attributes" [.int 0])
          = (.TCL_OK, attrs) ∧
        Tcl_ListObjGetElements attrs = .ok list ∧
        w'.calls 1 = demoQueriedWorld.calls 1 ++
          [.Tcl_EvalObjv "::get_geometry" [.int 0], .Tcl_EvalObjv "::get_attributes" [.int 0]] ∧
        shape'.values = list.map Tcl_GetString ∧
        (shape'.values.length : Int) = demoQueried.numitems ∧
        shape'.numvalues = demoQueried.numitems ∧
        shape'.index = 0 := by
  cases h : msTclPlugReadShape demoEnv demoQueriedWorld demoQueried demoShape with
  | none =>
    have : (msTclPlugReadShape demoEnv demoQueriedWorld demoQueried demoShape).isSome = true := by
      decide
    rw [h] at this
    cases this
  | some r =>
    obtain ⟨st, w', shape'⟩ := r
    have hst : st = .MS_SUCCESS := by
      have : (msTclPlugReadShape demoEnv demoQueriedWorld demoQueried demoShape).map
          (fun r => r.1) = some .MS_SUCCESS := by decide
      rw [h] at this
      simpa using this
    have hty : shape'.type ≠ .MS_SHAPE_NULL := by
      have : (msTclPlugReadShape demoEnv demoQueriedWorld demoQueried demoShape).map
          (fun r => r.2.2.type) = some .MS_SHAPE_LINE := by decide
      rw [h] at this
      simp only [Option.map_some', Option.some.injEq] at this
      rw [this]
      decide
    subst hst
    exact ⟨w', shape', rfl, hty,
      readShape_success_carries_attributes demoEnv demoQueriedWorld w' demoQueried
        demoQueriedInfo 4 5 demoShape shape' rfl rfl rfl h hty⟩

/-- The example session with nine rows and the cursor at row 5: the rows 5
and 6 have no geometry and the fetch of row 7 fails. -/
theorem nextShape_failing_fetch_keeps_cursor_witness :
    ∃ W' s' layer',
      msTclPlugLayerNextShape demoEnv demoQueriedWorld demoLong demoShape
        = some (.MS_FAILURE, W', layer', s') ∧
      layer' = { demoLong with layerinfo := some { demoLongInfo with rownum := ((5 + 2 : Nat) : Int) } } ∧
      ∀ shape2 : shapeObj,
        (msTclPlugReadShape demoEnv W' layer' { shape2 with type := .MS_SHAPE_NULL } = none ∧
          msTclPlugLayerNextShape demoEnv W' layer' shape2 = none ∧
          demoEnv.resultKept (W'.interps demoLongInfo.interp)
            (.Tcl_EvalObjv (W'.objs 4).bytes
              [.int (longToInt ((5 + 2 : Nat) : Int))]) = false) ∨
        ∃ rv2 W2 s2,
          msTclPlugReadShape demoEnv W' layer' { shape2 with type := .MS_SHAPE_NULL }
            = some (rv2, W2, s2) ∧
          (∃ rest, W2.calls demoLongInfo.interp = W'.calls demoLongInfo.interp ++
            [.Tcl_EvalObjv (W'.objs 4).bytes
              [.int (longToInt ((5 + 2 : Nat) : Int))]] ++ rest) ∧
          (rv2 ≠ .MS_SUCCESS →
            msTclPlugLayerNextShape demoEnv W' layer' shape2 = some (rv2, W2, layer', s2)) ∧
          (rv2 = .MS_SUCCESS → s2.type ≠ .MS_SHAPE_NULL →
            msTclPlugLayerNextShape demoEnv W' layer' shape2
              = some (.MS_SUCCESS, W2, { demoLong with
                  layerinfo := some { demoLongInfo with rownum := ((5 + 2 : Nat) : Int) + 1 } },
                  s2)) :=
  nextShape_failing_fetch_keeps_cursor demoEnv demoQueriedWorld demoLong demoLongInfo 4 5 5
    demoShape .MS_FAILURE .MS_SHAPE_LINE [(.MS_SUCCESS, .MS_SHAPE_NULL), (.MS_SUCCESS, .MS_SHAPE_NULL)]
    rfl (by decide) rfl rfl rfl (by decide) (by decide) (by decide) (by decide)

theorem demoLakesOpened_eq :
    msTclPlugLayerOpen demoEnv demoWorld demoLakes
      = some (.MS_SUCCESS, demoLakesOpened.2.1, demoLakesOpened.2.2) := by
  have h1 : (msTclPlugLayerOpen demoEnv demoWorld demoLakes).map (fun r => r.1)
      = some .MS_SUCCESS := by rfl
  unfold demoLakesOpened
  cases h : msTclPlugLayerOpen demoEnv demoWorld demoLakes with
  | none => rw [h] at h1; cases h1
  | some r =>
    rw [h] at h1
    simp only [Option.map_some', Option.some.injEq] at h1
    obtain ⟨a, b, c⟩ := r
    simp only at h1
    subst h1
    rfl

/-- The example layer is open, the lakes layer is opened after it in the
same interpreter, and the query is made for the example layer. -/
theorem whichShapes_runs_under_last_opened_layer_witness :
    (demoLakesOpened.2.1.interps demoInfo.interp).pluglayer = some demoLakes.addr ∧
    ∃ st w2 layerA' new,
      msTclPlugLayerWhichShapes demoEnv demoLakesOpened.2.1 demoSession demoRect
        = some (st, w2, layerA') ∧
      (w2.interps demoInfo.interp).history
        = (demoLakesOpened.2.1.interps demoInfo.interp).history ++ new ∧ new ≠ [] ∧
      (∀ e ∈ new, e.forLayer = demoSession.addr ∧ e.pluglayer = some demoLakes.addr) ∧
      (w2.interps demoInfo.interp).pluglayer = some demoLakes.addr ∧
      ∀ (layers : Nat → layerObj) (k : String),
        metaObjCmd w2 layers demoInfo.interp ["meta", "get", k]
          = (.TCL_OK,
              match msLookupHashTable (layers demoLakes.addr).metadata k with
              | none => .empty
              | some value => .string value,
              w2, layers) :=
  whichShapes_runs_under_last_opened_layer demoEnv demoWorld demoLakesOpened.2.1
    demoSession demoLakes demoLakesOpened.2.2 demoInfo demoLakesInfo demoRect 1
    "package require roads" .MS_SUCCESS (by decide) (by decide) rfl rfl rfl
    demoLakesOpened_eq (by rfl) rfl

/-- Row 7 of the example session: a well-formed part, then the part of
three elements, in an answer that is referenced from elsewhere than the
interpreter result. -/
theorem readShape_odd_part_report_witness :
    ∃ w' shape', msTclPlugReadShape demoEnv demoQueriedWorld (demoQueried.atRow 7) demoShape
        = some (.MS_FAILURE, w', shape') ∧
      errorReport w' demoQueriedInfo.interp
        = (demoQueriedWorld.errors ++
            [{ code := .MS_QUERYERR, message := "odd number of elements in geometry sublist.",
               routine := "msTclPlugReadShape()", args := [] }],
           (demoQueriedWorld.interps demoQueriedInfo.interp).reports ++
             [{ message := "odd number of elements in geometry sublist: '",
                errorInfo := ["odd number of elements in geometry sublist: '",
                  Tcl_GetString demoOddPart, "', returned from get_geometry", ""] }],
           "", []) :=
  (readShape_odd_part_report demoEnv demoQueriedWorld (demoQueried.atRow 7)
    { demoQueriedInfo with rownum := 7 } 4 demoShape demoOddGeometry demoOddPart
    [demoPart] [] [demoNumber "5" 5, demoNumber "6" 6, demoNumber "7" 7]
    [[{ x := 0, y := 0 }, { x := 1, y := 1 }]]
    (by decide) (by decide) rfl rfl rfl
    (List.Forall₂.cons ⟨_, rfl, rfl⟩ List.Forall₂.nil) rfl (by decide)).2 rfl

/-- The example session after its query, asked for the row identifier 42
with a get_shape that answers 0 and with one that answers 5: the row count
is 2, and both runs return the same status, process state and record. -/
theorem getShape_ignores_answer_witness :
    Tcl_GetString (getShapeAnswer demoEnv demoQueriedWorld demoQueried demoQueriedInfo 3 42).2.1
      ≠ Tcl_GetString
          (getShapeAnswer demoOtherShapeEnv demoQueriedWorld demoQueried demoQueriedInfo 3 42).2.1 ∧
    ∃ st w' shape',
      msTclPlugLayerGetShape demoEnv demoQueriedWorld demoQueried demoShape 0 42
        = some (st, w', demoQueried.atRow 0, shape') ∧
      msTclPlugLayerGetShape demoOtherShapeEnv demoQueriedWorld demoQueried demoShape 0 42
        = some (st, w', demoQueried.atRow 0, shape') := by
  refine ⟨by decide, ?_⟩
  have h := (getShape_ignores_answer demoEnv demoOtherShapeEnv demoQueriedWorld demoQueried
    demoQueriedInfo 3 4 5 demoShape 0 42 (by decide) (by decide) rfl rfl rfl
    (fun _ _ _ => rfl) rfl rfl (fun _ _ _ _ => rfl) (fun _ _ _ => rfl) (fun _ _ _ => rfl)
    (by decide) (by decide)).1 (by decide)
  rcases h with ⟨_, _, hk⟩ | ⟨st, w', shape', h1, h2, _⟩
  · cases hk
  · exact ⟨st, w', shape', h1, h2⟩

end TclPlug
